import Mathlib

/-!
# Telepathy: interaction-geometry classifier, pair synchroniser and network graph

Shallow embedding of `classifier.mjs`, `motif_logger.mjs`, `sync.mjs`,
`agent.mjs` and `network.mjs`.

Numbers.  A JavaScript number is modelled by `JsNum R`: a finite value of an
ordered field `R` (the definitions run on `ℚ`, the theorems hold for every
ordered field, `ℝ` included) or `NaN`.  Rounding and overflow of IEEE doubles
are not modelled: a statement that a computed value equals a given number
holds of the program only where the doubles compute it without rounding, and
the theorems that need the exact laws of the primitives say so by the
hypothesis `JsMath.Exact`.  There are no infinite values: `JsNum.div` yields
`nan` for a zero divisor, and the one place of the sources where a number
other than zero is divided by zero and the result is used, the angle term of
`_calculateSymmetryScore`, is modelled by `anglePrecisionOf`.

`Math.sqrt`, `Math.acos`, `Math.cos`, `Math.sin`, `Math.log`, `Math.log2` and
`Math.PI` are library primitives; they are the fields of `JsMath`, a parameter
of every definition that calls them.
-/

namespace Telepathy

/-! ## Numbers -/

/-- A JavaScript number: a finite value or `NaN`. -/
inductive JsNum (R : Type) where
  | num (x : R)
  | nan
  deriving DecidableEq, Repr

/-- The `Math` primitives used by the sources. -/
structure JsMath (R : Type) where
  sqrt : R → R
  acos : R → R
  cos : R → R
  sin : R → R
  log : R → R
  log2 : R → R
  pi : R

section Numbers

variable {R : Type} [LinearOrderedField R]

/-- Lift of a binary operation on finite values; `NaN` propagates. -/
def JsNum.lift2 (f : R → R → R) : JsNum R → JsNum R → JsNum R
  | .num x, .num y => .num (f x y)
  | _, _ => .nan

/-- JavaScript `x + y`. -/
def JsNum.add (x y : JsNum R) : JsNum R := JsNum.lift2 (fun a b => a + b) x y

/-- JavaScript `x - y`. -/
def JsNum.sub (x y : JsNum R) : JsNum R := JsNum.lift2 (fun a b => a - b) x y

/-- JavaScript `x * y`. -/
def JsNum.mul (x y : JsNum R) : JsNum R := JsNum.lift2 (fun a b => a * b) x y

/-- JavaScript `x / y` where the quotient is finite or `NaN`: a zero divisor
gives `nan`, which is `0 / 0`.  The sources divide a number that is not zero
by zero only in `_calculateSymmetryScore`, modelled by `anglePrecisionOf`, and
in the closure `eq`, where the infinite quotient is only compared with `<`;
the denominator of `timeEffect` is 1 plus a product that is not negative. -/
def JsNum.div : JsNum R → JsNum R → JsNum R
  | .num x, .num y => if y = 0 then .nan else .num (x / y)
  | _, _ => .nan

/-- `Math.abs`. -/
def JsNum.abs : JsNum R → JsNum R
  | .num x => .num |x|
  | .nan => .nan

/-- `Math.max(x, y)`: `NaN` when an argument is `NaN`. -/
def JsNum.max (x y : JsNum R) : JsNum R := JsNum.lift2 (fun a b => Max.max a b) x y

/-- `Math.min(x, y)`: `NaN` when an argument is `NaN`. -/
def JsNum.min (x y : JsNum R) : JsNum R := JsNum.lift2 (fun a b => Min.min a b) x y

/-- JavaScript `x < y`: false when an argument is `NaN`. -/
def JsNum.lt : JsNum R → JsNum R → Bool
  | .num x, .num y => decide (x < y)
  | _, _ => false

/-- JavaScript `x >= y`: false when an argument is `NaN`. -/
def JsNum.ge : JsNum R → JsNum R → Bool
  | .num x, .num y => decide (y ≤ x)
  | _, _ => false

/-- JavaScript `x > y`: false when an argument is `NaN`. -/
def JsNum.gt : JsNum R → JsNum R → Bool
  | .num x, .num y => decide (y < x)
  | _, _ => false

/-- JavaScript `x || d` on numbers: `d` when `x` is `0` or `NaN`. -/
def JsNum.orElse : JsNum R → JsNum R → JsNum R
  | .num x, d => if x = 0 then d else .num x
  | .nan, d => d

/-- The number lies in the closed unit interval (so it is not `NaN`). -/
def JsNum.inUnit : JsNum R → Prop
  | .num x => 0 ≤ x ∧ x ≤ 1
  | .nan => False

end Numbers

/-! ## classifier.mjs -/

/-- A value of the `genParams.angles` table: absent, a number, or a string. -/
inductive JsVal (R : Type) where
  | undefined
  | number (x : R)
  | string (s : String)
  deriving DecidableEq, Repr

/-- A vector of four components (`[x0, x1, x2, x3]`). -/
structure Vec4 (R : Type) where
  x0 : R
  x1 : R
  x2 : R
  x3 : R
  deriving DecidableEq, Repr

/-- The record `lengths` of `analyzeVectors`. -/
structure Lengths (R : Type) where
  a : R
  b : R
  c : R
  d : R
  deriving DecidableEq, Repr

/-- The record `angles` of `analyzeVectors`, in degrees. -/
structure Angles (R : Type) where
  α : R
  β : R
  γ : R
  δ : R
  ε : R
  ζ : R
  deriving DecidableEq, Repr

/-- The object returned by `_createSymmetryMap`. -/
structure SymMap (R : Type) where
  allEdgesEq : Bool
  abcEq : Bool
  abEq : Bool
  all90 : Bool
  is90 : R → Bool
  is120 : R → Bool
  isEq : R → R → Bool
  isAngEq : R → R → Bool

/-- The object `genParams.angles`: the slots a rule may set. -/
structure Ideals (R : Type) where
  all : JsVal R
  α : JsVal R
  β : JsVal R
  γ : JsVal R
  δ : JsVal R
  ε : JsVal R
  ζ : JsVal R

/-- The object `genParams` of a taxonomy entry. -/
structure GenParams (R : Type) where
  edges : String
  angles : Option (Ideals R)

/-- A taxonomy entry.  The id-0 record built by `analyzeVectors` has
`genParams: null` and no `check`; its `check` here is never called. -/
structure Definition (R : Type) where
  id : ℕ
  name : String
  genParams : Option (GenParams R)
  check : Lengths R → Angles R → SymMap R → Bool

/-- The fields of a `Classifier` instance that the analysis reads. -/
structure Classifier (R : Type) where
  tolerance : R
  angleTolerance : R
  deviation : R
  definitions : List (Definition R)

/-- The object returned by `analyzeVectors`. -/
structure Classification (R : Type) where
  category : String
  categoryId : ℕ
  symmetryScore : JsNum R

section Classifier

variable {R : Type} [LinearOrderedField R]

/-- JavaScript `a || b` on table values: `b` when `a` is `undefined`, `0` or `""`. -/
def JsVal.orElse : JsVal R → JsVal R → JsVal R
  | .undefined, d => d
  | .number x, d => if x = 0 then d else .number x
  | .string s, d => if s = "" then d else .string s

/-- JavaScript `ToNumber` as applied by `-`: `undefined` and a string that is
not a numeral (the table holds only `"any"`) give `NaN`; `""` gives `0`. -/
def JsVal.toNumber : JsVal R → JsNum R
  | .undefined => .nan
  | .number x => .num x
  | .string s => if s = "" then .num 0 else .nan

/-- An `angles` object with only `all` set. -/
def Ideals.ofAll (v : JsVal R) : Ideals R :=
  ⟨v, .undefined, .undefined, .undefined, .undefined, .undefined, .undefined⟩

/-- Entry `id: 23` of `_initializeDefinitions`. -/
def hypercubic : Definition R :=
  { id := 23, name := "Hypercubic",
    genParams := some ⟨"equal", some (Ideals.ofAll (.number 90))⟩,
    check := fun _ _ S => S.allEdgesEq && S.all90 }

/-- Entry `id: 20` of `_initializeDefinitions`. -/
def hexagonal : Definition R :=
  { id := 20, name := "Hexagonal",
    genParams := some ⟨"equal", some { Ideals.ofAll (.number 90) with γ := .number 120 }⟩,
    check := fun _ A S => S.allEdgesEq && S.is120 A.γ }

/-- Entry `id: 17` of `_initializeDefinitions`. -/
def trigonal : Definition R :=
  { id := 17, name := "Trigonal",
    genParams := some ⟨"unequal", some { Ideals.ofAll (.number 90) with γ := .number 120 }⟩,
    check := fun _ A S => S.is120 A.γ }

/-- Entry `id: 15` of `_initializeDefinitions`. -/
def tetragonal : Definition R :=
  { id := 15, name := "Tetragonal",
    genParams := some ⟨"ab_equal", some (Ideals.ofAll (.number 90))⟩,
    check := fun _ _ S => S.all90 && S.abEq }

/-- Entry `id: 10` of `_initializeDefinitions`. -/
def orthorhombic : Definition R :=
  { id := 10, name := "Orthorhombic",
    genParams := some ⟨"unequal", some (Ideals.ofAll (.number 90))⟩,
    check := fun _ _ S => S.all90 }

/-- Entry `id: 4` of `_initializeDefinitions`. -/
def monoclinic : Definition R :=
  { id := 4, name := "Monoclinic",
    genParams := some ⟨"unequal", some { Ideals.ofAll (.number 90) with γ := .number 75 }⟩,
    check := fun _ A S => !S.all90 && !S.is90 A.α && S.is90 A.β && S.is90 A.γ
      && S.is90 A.δ && S.is90 A.ε && S.is90 A.ζ }

/-- Entry `id: 3` of `_initializeDefinitions`. -/
def diclinic : Definition R :=
  { id := 3, name := "Diclinic",
    genParams := some ⟨"unequal",
      some { Ideals.ofAll (.number 90) with γ := .number 75, ζ := .number 75 }⟩,
    check := fun _ A S => !S.all90 && !S.is90 A.α && !S.is90 A.ζ }

/-- Entry `id: 1` of `_initializeDefinitions`: its `angles` object is
`{ all: "any" }`, a string. -/
def triclinic : Definition R :=
  { id := 1, name := "Triclinic",
    genParams := some ⟨"unequal", some (Ideals.ofAll (.string "any"))⟩,
    check := fun _ _ _ => true }

/-- The table returned by `_initializeDefinitions`, in source order. -/
def initializeDefinitions : List (Definition R) :=
  [hypercubic, hexagonal, trigonal, tetragonal, orthorhombic, monoclinic, diclinic, triclinic]

/-- The constructor `new Classifier(tolerance = 0.2, angleTolerance = 15.0)`;
`none` is an argument that is `undefined`. -/
def Classifier.new (tolerance angleTolerance : Option R) : Classifier R :=
  let tol := tolerance.getD 0.2
  let angTol := angleTolerance.getD 15.0
  { tolerance := tol, angleTolerance := angTol, deviation := angTol * 0.01,
    definitions := initializeDefinitions }

/-- The method `magnitude`: `Math.sqrt(v.reduce((sum, x) => sum + x * x, 0))`. -/
def magnitude (M : JsMath R) (v : Vec4 R) : R :=
  M.sqrt (0 + v.x0 * v.x0 + v.x1 * v.x1 + v.x2 * v.x2 + v.x3 * v.x3)

/-- The method `dotProduct`: `v1.reduce((sum, x, i) => sum + x * v2[i], 0)`. -/
def dotProduct (v1 v2 : Vec4 R) : R :=
  0 + v1.x0 * v2.x0 + v1.x1 * v2.x1 + v1.x2 * v2.x2 + v1.x3 * v2.x3

/-- The method `angleBetween`, in degrees.  The divisor `mag1 * mag2` is
reached only when neither magnitude is zero.  Sums, products and the quotient
are those of the field `R`, without the rounding of doubles. -/
def angleBetween (M : JsMath R) (v1 v2 : Vec4 R) : R :=
  let mag1 := magnitude M v1
  let mag2 := magnitude M v2
  let dot := dotProduct v1 v2
  if mag1 = 0 ∨ mag2 = 0 then 90
  else
    let cosTheta := max (-1) (min 1 (dot / (mag1 * mag2)))
    M.acos cosTheta * (180 / M.pi)

/-- The closure `eq` of `_createSymmetryMap`.  With `diff = |v1 - v2| ≥ 0`, a
zero `max` makes `diff / max` either `+Infinity` or `NaN` in JavaScript; both
compare false with `<`, as `nan` does here. -/
def Classifier.eq (cls : Classifier R) (tol : R) (v1 v2 : R) : Bool :=
  if v1 = 0 ∧ v2 = 0 then true
  else
    let diff := |v1 - v2|
    let mx := max v1 v2
    JsNum.lt (JsNum.div (.num diff) (.num mx)) (.num (tol * cls.angleTolerance * 0.01))

/-- The method `_createSymmetryMap`. -/
def Classifier.createSymmetryMap (cls : Classifier R) (L : Lengths R) (A : Angles R)
    (tol angTol : R) : SymMap R :=
  let eq := cls.eq tol
  let ang := fun a1 a2 : R => decide (|a1 - a2| < angTol)
  let is90 := fun val : R => decide (|val - 90| < angTol)
  let is120 := fun val : R => decide (|val - 120| < angTol)
  let allEdgesEq := eq L.a L.b && eq L.b L.c && eq L.c L.d
  let abEq := eq L.a L.b
  let all90 := is90 A.α && is90 A.β && is90 A.γ && is90 A.δ && is90 A.ε && is90 A.ζ
  { allEdgesEq := allEdgesEq, abcEq := eq L.a L.b && eq L.b L.c, abEq := abEq,
    all90 := all90, is90 := is90, is120 := is120, isEq := eq, isAngEq := ang }

/-- One summand of `totalDev`: `Math.abs(angles.x - (ideals.x || targetAll))`. -/
def angleDev (measured : R) (slot targetAll : JsVal R) : JsNum R :=
  JsNum.abs (JsNum.sub (.num measured) (JsVal.toNumber (slot.orElse targetAll)))

/-- The local `edgeConsistency` of `_calculateSymmetryScore`; the divisor
`avgEdge || 1` is never zero. -/
def edgeConsistency (M : JsMath R) (L : Lengths R) : R :=
  let avgEdge := (L.a + L.b + L.c + L.d) / 4
  let edgeVariance := (0 + (L.a - avgEdge) ^ 2 + (L.b - avgEdge) ^ 2
    + (L.c - avgEdge) ^ 2 + (L.d - avgEdge) ^ 2) / 4
  1 - min 1 (M.sqrt edgeVariance / (if avgEdge = 0 then 1 else avgEdge))

/-- The local `totalDev` of `_calculateSymmetryScore` after its six additions. -/
def totalDev (ideals : Ideals R) (A : Angles R) : JsNum R :=
  let totalDev : JsNum R := .num 0
  let targetAll := ideals.all.orElse (.number 90)
  let totalDev := totalDev.add (angleDev A.α ideals.α targetAll)
  let totalDev := totalDev.add (angleDev A.β ideals.β targetAll)
  let totalDev := totalDev.add (angleDev A.γ ideals.γ targetAll)
  let totalDev := totalDev.add (angleDev A.δ ideals.δ targetAll)
  let totalDev := totalDev.add (angleDev A.ε ideals.ε targetAll)
  totalDev.add (angleDev A.ζ ideals.ζ targetAll)

/-- The constant `anglePrecision` of `_calculateSymmetryScore`:
`Math.max(0, 1 - (avgDev / this.angleTolerance))`.  `avgDev` is a sum of
absolute values divided by 6, so it is `NaN` or not negative.  For a zero
tolerance a positive `avgDev` gives `1 - Infinity`, of which the maximum with
0 is 0, and a zero `avgDev` gives `0 / 0`, which is `NaN`. -/
def anglePrecisionOf (avgDev : JsNum R) (angleTolerance : R) : JsNum R :=
  if angleTolerance = 0 then
    match avgDev with
    | .num x => if 0 < x then .num 0 else .nan
    | .nan => .nan
  else JsNum.max (.num 0) (JsNum.sub (.num 1) (avgDev.div (.num angleTolerance)))

/-- The method `_calculateSymmetryScore`.  `avgDev / this.angleTolerance`
divides by the angle tolerance of the constructor. -/
def Classifier.calculateSymmetryScore (M : JsMath R) (cls : Classifier R)
    (definition : Definition R) (L : Lengths R) (A : Angles R) : JsNum R :=
  if definition.id = 0 then .num 0
  else
    let score : JsNum R := .num ((definition.id : R) / 23)
    let score :=
      if definition.genParams.map (fun g => g.edges) = some "equal" then
        score.add (.num (cls.deviation * edgeConsistency M L))
      else score.add (.num cls.deviation)
    let score :=
      match definition.genParams.bind (fun g => g.angles) with
      | some ideals =>
        let avgDev := (totalDev ideals A).div (.num 6)
        let anglePrecision := anglePrecisionOf avgDev cls.angleTolerance
        score.add (JsNum.mul (.num cls.deviation) anglePrecision)
      | none => score
    JsNum.max (.num 0) (JsNum.min (.num 1) score)

/-- The record used when no rule matches. -/
def unclassified : Definition R :=
  { id := 0, name := "Unclassified configuration", genParams := none,
    check := fun _ _ _ => false }

/-- The lengths measured by `analyzeVectors`. -/
def measureLengths (M : JsMath R) (a b c d : Vec4 R) : Lengths R :=
  { a := magnitude M a, b := magnitude M b, c := magnitude M c, d := magnitude M d }

/-- The angles measured by `analyzeVectors`. -/
def measureAngles (M : JsMath R) (a b c d : Vec4 R) : Angles R :=
  { α := angleBetween M b c, β := angleBetween M a c, γ := angleBetween M a b,
    δ := angleBetween M a d, ε := angleBetween M b d, ζ := angleBetween M c d }

/-- The constant `sym` of `analyzeVectors`: the symmetry map built with the
active tolerances (`customTol ?? this.tolerance`, `customAngTol ?? this.angleTolerance`). -/
def Classifier.symOf (M : JsMath R) (cls : Classifier R) (a b c d : Vec4 R)
    (customTol customAngTol : Option R) : SymMap R :=
  let activeTol := customTol.getD cls.tolerance
  let activeAngTol := customAngTol.getD cls.angleTolerance
  cls.createSymmetryMap (measureLengths M a b c d) (measureAngles M a b c d) activeTol
    activeAngTol

/-- The rule selected by `this.definitions.find(def => def.check(lengths, angles, sym))`. -/
def Classifier.matched (M : JsMath R) (cls : Classifier R) (a b c d : Vec4 R)
    (customTol customAngTol : Option R) : Option (Definition R) :=
  let lengths := measureLengths M a b c d
  let angles := measureAngles M a b c d
  let sym := cls.symOf M a b c d customTol customAngTol
  cls.definitions.find? (fun df => df.check lengths angles sym)

/-- The method `analyzeVectors`; `none` is a custom tolerance left `null`. -/
def Classifier.analyzeVectors (M : JsMath R) (cls : Classifier R) (a b c d : Vec4 R)
    (customTol customAngTol : Option R) : Classification R :=
  let lengths := measureLengths M a b c d
  let angles := measureAngles M a b c d
  let result := (cls.matched M a b c d customTol customAngTol).getD unclassified
  let symmetryScore := cls.calculateSymmetryScore M result lengths angles
  { category := result.name, categoryId := result.id, symmetryScore := symmetryScore }

/-! ### The taxonomy table in the words of the specification -/

/-- The fixed priority order of the category ids. -/
def taxonomyOrder : List ℕ := [23, 20, 17, 15, 10, 4, 3, 1]

/-- The condition column of the taxonomy table of the specification, over the
predicates of the symmetry map: "all 4 edges equal" is the chain of
edge-equality tests a≈b, b≈c, c≈d, and "≈90°", "≈120°" are the right-angle and
120°-angle tests. -/
def tableCondition (S : SymMap R) (L : Lengths R) (A : Angles R) : ℕ → Prop
  | 23 => (S.isEq L.a L.b ∧ S.isEq L.b L.c ∧ S.isEq L.c L.d) ∧
      (S.is90 A.α ∧ S.is90 A.β ∧ S.is90 A.γ ∧ S.is90 A.δ ∧ S.is90 A.ε ∧ S.is90 A.ζ)
  | 20 => (S.isEq L.a L.b ∧ S.isEq L.b L.c ∧ S.isEq L.c L.d) ∧ S.is120 A.γ
  | 17 => S.is120 A.γ
  | 15 => (S.is90 A.α ∧ S.is90 A.β ∧ S.is90 A.γ ∧ S.is90 A.δ ∧ S.is90 A.ε ∧ S.is90 A.ζ) ∧
      S.isEq L.a L.b
  | 10 => S.is90 A.α ∧ S.is90 A.β ∧ S.is90 A.γ ∧ S.is90 A.δ ∧ S.is90 A.ε ∧ S.is90 A.ζ
  | 4 => ¬ S.is90 A.α ∧ S.is90 A.β ∧ S.is90 A.γ ∧ S.is90 A.δ ∧ S.is90 A.ε ∧ S.is90 A.ζ
  | 3 => ¬ S.is90 A.α ∧ ¬ S.is90 A.ζ
  | 1 => True
  | _ => False

end Classifier

/-! ## Events -/

/-- The `timestamp` property of an event record, by what `new Date(timestamp)`
makes of it: `absent` is `undefined` or the empty string (falsy, Invalid Date),
`unparseable` a non-empty string that gives an Invalid Date, and `at ms` a
string that parses to `ms` milliseconds since the epoch. -/
inductive Timestamp where
  | absent
  | unparseable
  | at (ms : ℤ)
  deriving DecidableEq, Repr

/-- An event record.  `none` is a property that is `undefined`.  The numeric
`attention` and `engagement` properties feed only `engagementSymmetry`, which
nothing reads; they are not part of this record. -/
structure Event where
  sender : Option String
  receiver : Option String
  timestamp : Timestamp
  type : Option String
  reactions : Option (List String)
  deriving DecidableEq, Repr

/-- `new Date(event.timestamp).getTime()`; `none` is `NaN`. -/
def Event.time (e : Event) : Option ℤ :=
  match e.timestamp with
  | .at ms => some ms
  | _ => none

/-- `event.reactions?.length > 0`. -/
def Event.hasReactions (e : Event) : Bool :=
  match e.reactions with
  | some rs => decide (rs.length > 0)
  | none => false

/-- `String.prototype.toUpperCase` on ASCII text: the letters `a` to `z` are
mapped to `A` to `Z`.  Characters outside ASCII are left as they are, where
JavaScript applies the Unicode mapping (`ß` becomes `SS`). -/
def toUpperCase (s : String) : String := ⟨s.data.map Char.toUpper⟩

/-- The tag `(log.type || 'DEFAULT').toUpperCase()`. -/
def Event.typeTag (log : Event) : String :=
  toUpperCase
    (match log.type with
      | some t => if t = "" then "DEFAULT" else t
      | none => "DEFAULT")

/-- The constants of `formats.mjs`: the weight table `FORMATS` (a lookup that
gives `none` for a missing key) and the list `BIASED` of privileged type tags. -/
structure Formats (R : Type) where
  FORMATS : String → Option R
  BIASED : List String

/-! ## motif_logger.mjs -/

/-- The constant `DAYS`. -/
def DAYS : ℤ := 60

/-- A session of `_groupSessions`; `types` is the insertion-ordered `Set`. -/
structure Session where
  start : Option ℤ
  end_ : Option ℤ
  types : List String
  logs : List Event
  deriving DecidableEq, Repr

/-- `Set.prototype.add` on the insertion-ordered list of members. -/
def setAdd (s : List String) (x : String) : List String :=
  if x ∈ s then s else s ++ [x]

/-- The test `(logTime - current.end) / (1000 * 60 * DAYS * 2) > 1`, false when
a time is `NaN`.  The quotient by the positive constant exceeds 1 exactly when
the difference exceeds the constant; the test is stated on the integer
milliseconds. -/
def gapExceeds (logTime currentEnd : Option ℤ) : Bool :=
  match logTime, currentEnd with
  | some t, some e => decide (t - e > 1000 * 60 * DAYS * 2)
  | _, _ => false

/-- The object `{ start: logTime, end: logTime, types: new Set(), logs: [] }`. -/
def Session.fresh (logTime : Option ℤ) : Session :=
  { start := logTime, end_ := logTime, types := [], logs := [] }

/-- The three statements after the `if` of the loop body: set `current.end`,
add the type tag, push the log. -/
def Session.extend (current : Session) (log : Event) : Session :=
  { current with
    end_ := log.time,
    types := setAdd current.types log.typeTag,
    logs := current.logs ++ [log] }

/-- The body of the `forEach` of `_groupSessions`, on the pair
`(sessions, current)`: when there is no current session or the gap exceeds two
hours, the current session (if any) is pushed and a fresh one is started. -/
def groupStep (st : List Session × Option Session) (log : Event) :
    List Session × Option Session :=
  let logTime := log.time
  match st.2 with
  | none => (st.1, some ((Session.fresh logTime).extend log))
  | some cur =>
    if gapExceeds logTime cur.end_ then (st.1 ++ [cur], some ((Session.fresh logTime).extend log))
    else (st.1, some (cur.extend log))

/-- The method `_groupSessions` on `this.logs`. -/
def groupSessions (logs : List Event) : List Session :=
  if logs.length = 0 then []
  else
    let st := logs.foldl groupStep ([], none)
    match st.2 with
    | some cur => st.1 ++ [cur]
    | none => st.1

/-- The geometry object returned by `generateVectorsFromHistory`. -/
structure Geometry (R : Type) where
  a : Vec4 R
  b : Vec4 R
  c : Vec4 R
  d : Vec4 R
  totalSpan : JsNum R
  angleDeg : R

section MotifLogger

variable {R : Type} [LinearOrderedField R] [FloorRing R]

/-- `Math.log2(x)`: `NaN` for a negative argument.  `Math.log2(0)` is
`-Infinity` in JavaScript and `nan` here.  The argument is `totalSpan + 1`, so
zero is reached only for a total span of exactly `-1`: a log whose last
session ends one day before its first one starts, which a sorted log (every
pair sublog) never is.  On that input `valA` is `-Infinity` in JavaScript and
1 here. -/
def jsLog2 (M : JsMath R) : JsNum R → JsNum R
  | .num x => if 0 < x then .num (M.log2 x) else .nan
  | .nan => .nan

/-- `Math.ceil`. -/
def JsNum.ceil : JsNum R → JsNum R
  | .num x => .num ((Int.ceil x : ℤ) : R)
  | .nan => .nan

/-- The difference of two times divided by a constant; `NaN` when a time is. -/
def timeDiffOver (t1 t0 : Option ℤ) (unit : ℤ) : JsNum R :=
  match t1, t0 with
  | some x, some y => .num (((x - y : ℤ) : R) / (unit : R))
  | _, _ => .nan

/-- The branch `type === 'time'` of `_quantize`:
`Math.min(5, Math.ceil(Math.log2(value + 1)) || 1)`. -/
def quantizeTime (M : JsMath R) (value : JsNum R) : JsNum R :=
  JsNum.min (.num 5) ((jsLog2 M (value.add (.num 1))).ceil.orElse (.num 1))

/-- The weight `this.biasConfig.payload.multipliers[t] || 1`. -/
def typeMultiplier (multipliers : String → Option R) (t : String) : R :=
  match multipliers t with
  | some w => if w = 0 then 1 else w
  | none => 1

/-- The branch `type === 'payload' && session` of `_quantize`. -/
def quantizePayload (multipliers : String → Option R) (session : Session) : R :=
  let typeWeight := session.types.foldl (fun mx t => max mx (typeMultiplier multipliers t)) 0
  let reactionBonus : R := if session.logs.any (fun l => l.hasReactions) then 1 else 0
  min 5 ((Int.ceil (typeWeight + reactionBonus) : ℤ) : R)

/-- The count `highResCount` of `generateVectorsFromHistory`. -/
def highResSessions (BIASED : List String) (sessions : List Session) : ℕ :=
  (sessions.filter (fun s => s.types.any (fun t => decide (t ∈ BIASED)))).length

/-- The local `angleDeg` of `generateVectorsFromHistory`. -/
def angleDegOf (coRatio : R) (totalSpan : JsNum R) : R :=
  if coRatio > 0 then 90 + (30 * coRatio)
  else
    match totalSpan with
    | .num span =>
      if span > 30 then
        let driftFactor := min 1 ((span - 30) / 335)
        90 - (15 * driftFactor)
      else 90
    | .nan => 90

/-- The local `totalSpan`: `(latest.end - sessions[0].start) / (1000 * 60 * DAYS * 24)`. -/
def totalSpanOf (first latest : Session) : JsNum R :=
  timeDiffOver latest.end_ first.start (1000 * 60 * DAYS * 24)

/-- The local `valA`: `this._quantize(totalSpan, 'time')`, which is never `NaN`. -/
def valAOf (M : JsMath R) (totalSpan : JsNum R) : R :=
  match quantizeTime M totalSpan with
  | .num v => v
  | .nan => 1

/-- The local `valB`: `this._quantize(null, 'payload', latest) || 1`. -/
def valBOf (multipliers : String → Option R) (latest : Session) : R :=
  let q := quantizePayload multipliers latest
  if q = 0 then 1 else q

/-- The local `coRatio`: `highResCount / sessions.length`. -/
def coRatioOf (BIASED : List String) (sessions : List Session) : R :=
  (highResSessions BIASED sessions : R) / (sessions.length : R)

/-- The object built at the end of `generateVectorsFromHistory`. -/
def geometryOf (M : JsMath R) (valA valB : R) (totalSpan : JsNum R) (angleDeg : R) :
    Geometry R :=
  let angleRad := angleDeg * M.pi / 180
  { a := ⟨valA, 0, 0, 0⟩,
    b := ⟨valB * M.cos angleRad, valB * M.sin angleRad, 0, 0⟩,
    c := ⟨0, 0, valB, 0⟩,
    d := ⟨0, 0, 0, valB⟩,
    totalSpan := totalSpan, angleDeg := angleDeg }

/-- The method `generateVectorsFromHistory`; `none` is `null`.  `multipliers`
is `this.biasConfig.payload.multipliers`.  With two sessions or more,
`sessions[0]` and the last session exist. -/
def generateVectorsFromHistory (M : JsMath R) (BIASED : List String)
    (multipliers : String → Option R) (logs : List Event) : Option (Geometry R) :=
  let sessions := groupSessions logs
  if sessions.length < 2 then none
  else
    match sessions.head?, sessions.getLast? with
    | some first, some latest =>
      let totalSpan := totalSpanOf first latest
      let valA := valAOf M totalSpan
      let valB := valBOf multipliers latest
      let coRatio : R := coRatioOf BIASED sessions
      let angleDeg := angleDegOf coRatio totalSpan
      some (geometryOf M valA valB totalSpan angleDeg)
    | _, _ => none

end MotifLogger

/-! ## sync.mjs -/

/-- The constant `RECIP_LIMIT`. -/
def RECIP_LIMIT {R : Type} [LinearOrderedField R] : R := 0.9

/-- The `options` object of `Sync` and `Network`: `options.classifier`
(`tolerance`, `angleTolerance`) and `options.bias.payload.multipliers`; `none`
is a property that is `undefined`. -/
structure Options (R : Type) where
  tolerance : Option R
  angleTolerance : Option R
  biasMultipliers : Option (String → Option R)

/-- The object returned by `_calculateDirectionalMetrics`, without the unread
`engagementSymmetry`. -/
structure DirectionalMetrics (R : Type) where
  directionalBalance : R

/-- The object returned by `_calculateJointManifold`. -/
structure JointManifold (R : Type) where
  a : Vec4 R
  b : Vec4 R
  c : Vec4 R
  d : Vec4 R
  directionalMetrics : DirectionalMetrics R
  totalSpan : JsNum R
  angleDeg : R

/-- The property `subjectiveTime` of a result, without its `description`. -/
structure SubjectiveTime (R : Type) where
  timeEffect : JsNum R
  perceivedHour : JsNum R

/-- The object returned by `Sync.analyze`, without the formatted `syncPercent`
and the fingerprint `proofOfWork`.  `synchronized` is the property that
`Network._updateSyncClusters` reads; `none` is `undefined`. -/
structure SyncResult (R : Type) where
  agents : String × String
  syncState : String
  synchronizationScore : JsNum R
  geoType : String
  geoId : ℕ
  subjectiveTime : Option (SubjectiveTime R)
  synchronized : Option Bool

/-- The fields of a `Sync` instance: the two ids, `pairLogger.logs` and
`history` (set to `[]` by the constructor; no method appends to it).
`allEvents` is the array of the owner (`Network.events`, shared by reference);
it is passed to the methods that read it. -/
structure Sync where
  agentAId : String
  agentBId : String
  logs : List Event
  history : List String
  deriving DecidableEq, Repr

/-- The comparator `new Date(a.timestamp) - new Date(b.timestamp)` is not
positive (a `NaN` difference counts as zero). -/
def timeLe (a b : Event) : Prop :=
  match a.time, b.time with
  | some x, some y => x ≤ y
  | _, _ => True

instance : DecidableRel timeLe := fun a b => by
  unfold timeLe
  cases a.time <;> cases b.time <;> infer_instance

/-- The method `_initializePairLogger`: filter the events between the two
ids, stable sort by time. -/
def initializePairLogger (agentAId agentBId : String) (allEvents : List Event) : List Event :=
  (allEvents.filter (fun event =>
    (event.sender = some agentAId && event.receiver = some agentBId) ||
    (event.sender = some agentBId && event.receiver = some agentAId))).insertionSort timeLe

/-- The constructor `new Sync(agentAId, agentBId, allEvents, options)`. -/
def Sync.new (agentAId agentBId : String) (allEvents : List Event) : Sync :=
  { agentAId := agentAId, agentBId := agentBId,
    logs := initializePairLogger agentAId agentBId allEvents, history := [] }

/-- `BIASED.includes(e.type) || (e.reactions && e.reactions.length > 0)`. -/
def Event.isHighRes (BIASED : List String) (e : Event) : Bool :=
  (match e.type with
    | some t => decide (t ∈ BIASED)
    | none => false) || e.hasReactions

section Sync

variable {R : Type} [LinearOrderedField R] [FloorRing R]

/-- The classifier of a `Sync`:
`new Classifier(classifierConfig.tolerance, classifierConfig.angleTolerance)`. -/
def Options.classifier (o : Options R) : Classifier R :=
  Classifier.new o.tolerance o.angleTolerance

/-- The multipliers of the pair logger: `options.bias` or the default
`{ payload: { multipliers: FORMATS } }`. -/
def Options.multipliers (F : Formats R) (o : Options R) : String → Option R :=
  o.biasMultipliers.getD F.FORMATS

/-- The events of the sublog sent from `x` to `y`. -/
def directed (x y : String) (events : List Event) : List Event :=
  events.filter (fun e => e.sender = some x && e.receiver = some y)

/-- The method `_calculateDirectionalMetrics`. -/
def Sync.calculateDirectionalMetrics (p : Sync) : DirectionalMetrics R :=
  let aToB := directed p.agentAId p.agentBId p.logs
  let bToA := directed p.agentBId p.agentAId p.logs
  { directionalBalance :=
      if aToB.length + bToA.length > 0 then
        ((min aToB.length bToA.length : ℕ) : R) / ((max aToB.length bToA.length : ℕ) : R)
      else 0 }

/-- Multiplication of every component: `v.map(val => val * k)`. -/
def Vec4.scale (v : Vec4 R) (k : R) : Vec4 R := ⟨v.x0 * k, v.x1 * k, v.x2 * k, v.x3 * k⟩

/-- The method `_calculateJointManifold`; `none` is `null`. -/
def Sync.calculateJointManifold (M : JsMath R) (F : Formats R) (o : Options R) (p : Sync) :
    Option (JointManifold R) :=
  match generateVectorsFromHistory M F.BIASED (o.multipliers F) p.logs with
  | none => none
  | some basicGeometry =>
    let directional : DirectionalMetrics R := p.calculateDirectionalMetrics
    let reciprocity := directional.directionalBalance
    let symmetryBoost : R := if reciprocity > RECIP_LIMIT then 1.0 else (0.4 + reciprocity * 0.6)
    some { a := basicGeometry.a.scale symmetryBoost, b := basicGeometry.b.scale symmetryBoost,
           c := basicGeometry.c, d := basicGeometry.d, directionalMetrics := directional,
           totalSpan := basicGeometry.totalSpan, angleDeg := basicGeometry.angleDeg }

/-- The method `_calculateSynchronizationScore`.  `0 / 0` (an empty event
list) is `NaN` in JavaScript as here. -/
def calculateSynchronizationScore (F : Formats R) (allEvents : List Event)
    (classification : Classification R) (geometry : JointManifold R) : JsNum R :=
  let structuralScore := (classification.symmetryScore.orElse (.num 0)).mul (.num 0.45)
  let reciprocityScore :=
    ((JsNum.num geometry.directionalMetrics.directionalBalance).orElse (.num 0)).mul (.num 0.25)
  let highResCount := (allEvents.filter (fun e => e.isHighRes F.BIASED)).length
  let resDensity :=
    (JsNum.div (.num (highResCount : R)) (.num (allEvents.length : R))).mul (.num 0.25)
  JsNum.max (.num 0) (JsNum.min (.num 1) ((structuralScore.add reciprocityScore).add resDensity))

/-- The phase label of `analyze`. -/
def phaseOf (syncScore : JsNum R) : String :=
  if syncScore.ge (.num 0.8) then "ENTANGLED"
  else if syncScore.ge (.num 0.6) then "ALIGNED"
  else if syncScore.ge (.num 0.4) then "COHERENT"
  else "DECOHERENT"

/-- `this.pairLogger.magnitude(v) || 1.0`. -/
def magnitudeOr1 (M : JsMath R) (v : Vec4 R) : R :=
  if magnitude M v = 0 then 1.0 else magnitude M v

/-- `Math.log(x)`: `NaN` for a negative argument and, in this model, for zero. -/
def jsLog (M : JsMath R) : JsNum R → JsNum R
  | .num x => if 0 < x then .num (M.log x) else .nan
  | .nan => .nan

/-- The method `analyze`. -/
def Sync.analyze (M : JsMath R) (F : Formats R) (o : Options R) (allEvents : List Event)
    (p : Sync) : SyncResult R :=
  match p.calculateJointManifold M F o with
  | none =>
    { agents := (p.agentAId, p.agentBId), syncState := "INSUFFICIENT_DATA",
      synchronizationScore := .num 0, geoType := "NONE", geoId := 0, subjectiveTime := none,
      synchronized := none }
  | some geometry =>
    let classification :=
      o.classifier.analyzeVectors M geometry.a geometry.b geometry.c geometry.d none none
    let syncScore := calculateSynchronizationScore F allEvents classification geometry
    let phase := phaseOf syncScore
    let magA := magnitudeOr1 M geometry.a
    let magB := magnitudeOr1 M geometry.b
    let symmetryMultiplier : R := (classification.categoryId : R) / 23
    let rMag := (magA * magB) * (0.5 + symmetryMultiplier)
    let structuralWeight := classification.symmetryScore.orElse (.num 0)
    let syncWeight := calculateSynchronizationScore F allEvents classification geometry
    let combinedDilationWeight :=
      (structuralWeight.mul (.num 0.4)).add (syncWeight.mul (.num 0.6))
    let denominator :=
      (JsNum.num 1).add ((jsLog M (.num (max 1 rMag + 1))).mul combinedDilationWeight)
    let timeEffect := (JsNum.num 1).div denominator
    { agents := (p.agentAId, p.agentBId), syncState := phase,
      synchronizationScore := syncScore, geoType := classification.category,
      geoId := classification.categoryId,
      subjectiveTime := some { timeEffect := timeEffect,
                               perceivedHour := (JsNum.num 60).mul timeEffect },
      synchronized := none }

/-- `ToInt32`: wraparound to a signed 32-bit integer. -/
def toInt32 (x : ℤ) : ℤ := (x + 2147483648) % 4294967296 - 2147483648

/-- One round of the loop of `_generateProofOfWork` for the code `c`:
`hash = ((hash << 5) - hash) + c; hash = hash & hash`.  The shift wraps to 32
bits; the subtraction and the addition are exact; `&` wraps again. -/
def hashStep (hash : ℤ) (c : Char) : ℤ :=
  toInt32 ((toInt32 (hash * 32) - hash) + (c.toNat : ℤ))

/-- The loop of `_generateProofOfWork` over the characters of `components`
(`charCodeAt` is the code point for the characters of the basic plane). -/
def hashOf (components : String) : ℤ := components.data.foldl hashStep 0

/-- A hexadecimal digit in lower case. -/
def hexDigit (d : ℕ) : Char :=
  if d < 10 then Char.ofNat (48 + d) else Char.ofNat (87 + d)

/-- `n.toString(16)` for a natural number. -/
def toHex (n : ℕ) : String :=
  if n = 0 then "0" else ⟨((Nat.digits 16 n).reverse).map hexDigit⟩

/-- The string `[agentAId, agentBId, categoryId, angleDeg].join(':')`; `render`
is the conversion of the number `angleDeg` to a string. -/
def proofComponents (render : R → String) (agentAId agentBId : String) (categoryId : ℕ)
    (angleDeg : R) : String :=
  agentAId ++ ":" ++ agentBId ++ ":" ++ toString categoryId ++ ":" ++ render angleDeg

/-- The method `_generateProofOfWork`:
`sync_` followed by `Math.abs(hash).toString(16).slice(0, 12)`. -/
def generateProofOfWork (render : R → String) (agentAId agentBId : String) (categoryId : ℕ)
    (angleDeg : R) : String :=
  let hash := hashOf (proofComponents render agentAId agentBId categoryId angleDeg)
  "sync_" ++ ⟨(toHex hash.natAbs).data.take 12⟩

end Sync

/-! ## agent.mjs -/

/-- The fields of an `Agent` that the analysis reads: the id, the name, the
logs of the two loggers and the `Set` of partners.  The wall-clock field
`lastUpdate` is not part of this record. -/
structure Agent where
  id : String
  name : String
  incomingLogs : List Event
  outgoingLogs : List Event
  interactions : List (Option String)
  deriving DecidableEq, Repr

/-- The constructor `new Agent(id, name = null)`. -/
def Agent.new (id : String) (name : Option String) : Agent :=
  { id := id,
    name := (match name with
      | some n => if n = "" then "Agent_" ++ id else n
      | none => "Agent_" ++ id),
    incomingLogs := [], outgoingLogs := [], interactions := [] }

/-- `Set.prototype.add` on a list of partners. -/
def partnerAdd (s : List (Option String)) (x : Option String) : List (Option String) :=
  if x ∈ s then s else s ++ [x]

/-- The method `addInteraction(signal, direction)`; `incoming` is
`direction === 'incoming'`. -/
def Agent.addInteraction (ag : Agent) (signal : Event) (incoming : Bool) : Agent :=
  if incoming then
    { ag with interactions := partnerAdd ag.interactions signal.sender,
              incomingLogs := ag.incomingLogs ++ [signal] }
  else
    { ag with interactions := partnerAdd ag.interactions signal.receiver,
              outgoingLogs := ag.outgoingLogs ++ [signal] }

/-- The object returned by `getIndividualFingerprint`. -/
structure Fingerprint (R : Type) where
  id : String
  receptivity : R
  assertiveness : R
  capacity : JsVal R
  reliability : JsNum R

section Agent

variable {R : Type} [LinearOrderedField R] [FloorRing R]

/-- Reading the property `valB` of a geometry object: the object returned by
`generateVectorsFromHistory` has the properties `a`, `b`, `c`, `d`, `totalSpan`
and `angleDeg` only, so the read gives `undefined`. -/
def Geometry.valB (_ : Geometry R) : JsVal R := JsVal.undefined

/-- `geometry.angleDeg || 90`. -/
def angleOr90 (g : Geometry R) : R := if g.angleDeg = 0 then 90 else g.angleDeg

/-- The method `getIndividualFingerprint`.  Both loggers are built by
`new MotifLogger()`: default multipliers `FORMATS`, classifier
`new Classifier(1.1, 20.0)`. -/
def Agent.getIndividualFingerprint (M : JsMath R) (F : Formats R) (ag : Agent) :
    Fingerprint R :=
  let incoming := generateVectorsFromHistory M F.BIASED F.FORMATS ag.incomingLogs
  let outgoing := generateVectorsFromHistory M F.BIASED F.FORMATS ag.outgoingLogs
  let internalSymmetry : JsNum R :=
    match outgoing with
    | some g =>
      ((Classifier.new (some 1.1) (some 20.0)).analyzeVectors M g.a g.b g.c g.d none
        none).symmetryScore
    | none => .num 0
  { id := ag.id,
    receptivity := (match incoming with
      | some g => angleOr90 g
      | none => 90),
    assertiveness := (match outgoing with
      | some g => angleOr90 g
      | none => 90),
    capacity := (match outgoing with
      | some g => g.valB.orElse (.number 1)
      | none => .number 1),
    reliability := internalSymmetry }

end Agent

/-! ## network.mjs -/

/-- An entry of `syncClusters`. -/
structure Cluster (R : Type) where
  agents : List String
  size : ℕ
  pairCount : ℕ
  avgSyncScore : JsNum R

/-- The fields of a `Network`.  The maps `agents` and `pairs` are lists of
entries in insertion order; an entry of `analysisHistory` is the pair key and
the result (its wall-clock `timestamp` is not recorded). -/
structure Network (R : Type) where
  agents : List (String × Agent)
  pairs : List (String × Sync)
  events : List Event
  syncClusters : List (Cluster R)
  analysisHistory : List (String × SyncResult R)
  options : Options R

/-- The constructor `new Network(options)`. -/
def Network.new {R : Type} (options : Options R) : Network R :=
  { agents := [], pairs := [], events := [], syncClusters := [], analysisHistory := [],
    options := options }

/-- A character that `String.prototype.trim` removes (white space and line
terminators of ECMAScript). -/
def isJsWhitespace (c : Char) : Bool :=
  c.toNat ∈ [9, 10, 11, 12, 13, 32, 160, 5760, 8192, 8193, 8194, 8195, 8196, 8197, 8198, 8199,
    8200, 8201, 8202, 8232, 8233, 8239, 8287, 12288, 65279]

/-- `agentId.trim() === ''`: every character is white space. -/
def isBlank (s : String) : Bool := s.data.all isJsWhitespace

/-- The order of the default `sort`: lexicographic on the character codes (the
code units, for the characters of the basic plane). -/
def codeUnitsLt : List Char → List Char → Bool
  | [], [] => false
  | [], _ :: _ => true
  | _ :: _, [] => false
  | a :: as, b :: bs =>
    if a.toNat < b.toNat then true
    else if b.toNat < a.toNat then false
    else codeUnitsLt as bs

/-- The method `_getPairKey`: `[agentA, agentB].sort().join(':')`; the stable
sort swaps the two ids only when the second is smaller than the first. -/
def getPairKey (agentA agentB : String) : String :=
  if codeUnitsLt agentB.data agentA.data then agentB ++ ":" ++ agentA
  else agentA ++ ":" ++ agentB

/-- `Map.prototype.get` on a list of entries. -/
def mapGet {α : Type} (m : List (String × α)) (k : String) : Option α :=
  (m.find? (fun kv => kv.1 = k)).map (fun kv => kv.2)

/-- `Map.prototype.has`. -/
def mapHas {α : Type} (m : List (String × α)) (k : String) : Bool :=
  m.any (fun kv => kv.1 = k)

/-- An update of the value stored under `k`, the mutation of an object held by
the map. -/
def mapModify {α : Type} (m : List (String × α)) (k : String) (f : α → α) :
    List (String × α) :=
  m.map (fun kv => if kv.1 = k then (kv.1, f kv.2) else kv)

/-- JavaScript truthiness of a string property: present and not empty. -/
def truthy (s : Option String) : Bool :=
  match s with
  | some x => x ≠ ""
  | none => false

section Network

variable {R : Type} [LinearOrderedField R] [FloorRing R]

/-- The method `registerAgent(agentId)`: the new state and the id of the agent
returned, `none` for `null`. -/
def Network.registerAgent (net : Network R) (agentId : String) : Network R × Option String :=
  if agentId = "" ∨ isBlank agentId then (net, none)
  else if mapHas net.agents agentId then (net, some agentId)
  else ({ net with agents := net.agents ++ [(agentId, Agent.new agentId none)] }, some agentId)

/-- The method `addEvent(event)`: the new state and the returned boolean. -/
def Network.addEvent (net : Network R) (event : Event) : Network R × Bool :=
  if !truthy event.sender || !truthy event.receiver || event.timestamp = Timestamp.absent then
    (net, false)
  else if event.sender = event.receiver then (net, false)
  else if event.time = none then (net, false)
  else
    match event.sender, event.receiver with
    | some sender, some receiver =>
      let net1 := { net with events := net.events ++ [event] }
      let (net2, senderAgent) := net1.registerAgent sender
      let (net3, receiverAgent) := net2.registerAgent receiver
      match senderAgent, receiverAgent with
      | some sId, some rId =>
        let agents1 := mapModify net3.agents sId (fun ag => ag.addInteraction event false)
        let agents2 := mapModify agents1 rId (fun ag => ag.addInteraction event true)
        let pairKey := getPairKey sender receiver
        let pairs :=
          if mapHas net3.pairs pairKey then
            mapModify net3.pairs pairKey (fun pair =>
              { pair with logs := initializePairLogger pair.agentAId pair.agentBId net3.events })
          else net3.pairs
        ({ net3 with agents := agents2, pairs := pairs }, true)
      | _, _ => (net3, false)
    | _, _ => (net, false)

/-- The method `analyzePair(agentAId, agentBId)`: the new state and the result. -/
def Network.analyzePair (M : JsMath R) (F : Formats R) (net : Network R)
    (agentAId agentBId : String) : Network R × SyncResult R :=
  let pairKey := getPairKey agentAId agentBId
  let pairs :=
    if mapHas net.pairs pairKey then net.pairs
    else net.pairs ++ [(pairKey, Sync.new agentAId agentBId net.events)]
  let pair := (mapGet pairs pairKey).getD (Sync.new agentAId agentBId net.events)
  let result := pair.analyze M F net.options net.events
  ({ net with pairs := pairs, analysisHistory := net.analysisHistory ++ [(pairKey, result)] },
    result)

/-- The pairs `(ids[i], ids[j])`, `i < j`, in the order of the two loops of
`analyzeAllPairs`. -/
def pairsOf : List String → List (String × String)
  | [] => []
  | x :: xs => xs.map (fun y => (x, y)) ++ pairsOf xs

/-- The graph of `_updateSyncClusters`: a `Map` from an agent to the `Set` of
its neighbours, both in insertion order. -/
abbrev Graph := List (String × List String)

/-- `if (!graph.has(a)) graph.set(a, new Set())`. -/
def graphEnsure (g : Graph) (a : String) : Graph :=
  if mapHas g a then g else g ++ [(a, [])]

/-- The body of the `forEach` over the synchronized pairs. -/
def graphAddPair (g : Graph) (a b : String) : Graph :=
  let g := graphEnsure g a
  let g := graphEnsure g b
  let g := mapModify g a (fun s => setAdd s b)
  mapModify g b (fun s => setAdd s a)

/-- The graph built from the agent pairs of the synchronized results. -/
def buildGraph (pairs : List (String × String)) : Graph :=
  pairs.foldl (fun g p => graphAddPair g p.1 p.2) []

/-- `graph.get(agent) || new Set()`. -/
def neighborsOf (g : Graph) (agent : String) : List String := (mapGet g agent).getD []

/-- The `while` loop of `_dfsFindCluster` on `(stack, visited, cluster)`; the
head of the list `stack` is the top of the stack.  Every round consumes one
unit of `fuel`; `none` is a loop that ran out of fuel. -/
def dfsLoop (g : Graph) : ℕ → List String → List String → List String →
    Option (List String × List String)
  | _, [], visited, cluster => some (visited, cluster)
  | 0, _ :: _, _, _ => none
  | fuel + 1, agent :: stack, visited, cluster =>
    if agent ∈ visited then dfsLoop g fuel stack visited cluster
    else
      let visited := visited ++ [agent]
      let cluster := cluster ++ [agent]
      let pushed := (neighborsOf g agent).filter (fun nb => decide (nb ∉ visited))
      dfsLoop g fuel (pushed.reverse ++ stack) visited cluster

/-- A number of rounds that `_dfsFindCluster` cannot exceed on the graph. -/
def dfsFuel (g : Graph) : ℕ := 2 + (g.map (fun kv => 1 + kv.2.length)).sum

/-- The method `_dfsFindCluster(start, graph, visited)`: the new `visited` and
the cluster. -/
def dfsFindCluster (g : Graph) (start : String) (visited : List String) :
    Option (List String × List String) :=
  dfsLoop g (dfsFuel g) [start] visited []

/-- The method `_countPairsInCluster`: the pairs of the cluster whose
synchronizer has a non-empty `history`. -/
def Network.countPairsInCluster (net : Network R) (cluster : List String) : ℕ :=
  ((pairsOf cluster).filter (fun p =>
    match mapGet net.pairs (getPairKey p.1 p.2) with
    | some pair => decide (pair.history.length > 0)
    | none => false)).length

/-- The method `_calculateClusterSyncScore`. -/
def calculateClusterSyncScore (cluster : List String) (synchronizedPairs : List (SyncResult R)) :
    JsNum R :=
  let found := (pairsOf cluster).filterMap (fun p =>
    synchronizedPairs.find? (fun r =>
      (r.agents.1 = p.1 && r.agents.2 = p.2) || (r.agents.1 = p.2 && r.agents.2 = p.1)))
  let totalScore := found.foldl (fun acc r => acc.add r.synchronizationScore) (JsNum.num 0)
  if found.length > 0 then totalScore.div (.num (found.length : R)) else .num 0

/-- The `for` loop of `_updateSyncClusters` over the keys of the graph:
the state is `(visited, clusters)`; `none` is a traversal without fuel. -/
def clusterLoop (g : Graph) : List String → List String → List (List String) →
    Option (List String × List (List String))
  | [], visited, clusters => some (visited, clusters)
  | agent :: rest, visited, clusters =>
    if agent ∈ visited then clusterLoop g rest visited clusters
    else
      match dfsFindCluster g agent visited with
      | none => none
      | some (visited2, cluster) =>
        clusterLoop g rest visited2
          (if cluster.length ≥ 2 then clusters ++ [cluster] else clusters)

/-- The agent sets of the clusters found by `_updateSyncClusters`, before the
sort. -/
def findClusters (pairResults : List (SyncResult R)) : Option (List (List String)) :=
  let synchronizedPairs := pairResults.filter (fun r => r.synchronized = some true)
  let g := buildGraph (synchronizedPairs.map (fun r => r.agents))
  (clusterLoop g (g.map (fun kv => kv.1)) [] []).map (fun st => st.2)

/-- The comparator `(a, b) => b.avgSyncScore - a.avgSyncScore` is not positive. -/
def clusterLe (a b : Cluster R) : Prop :=
  (b.avgSyncScore.sub a.avgSyncScore).gt (.num 0) = false

instance : DecidableRel (clusterLe (R := R)) := fun a b => by
  unfold clusterLe
  infer_instance

/-- The method `_updateSyncClusters(pairResults)`; `none` is a traversal
without fuel. -/
def Network.updateSyncClusters (net : Network R) (pairResults : List (SyncResult R)) :
    Option (Network R) :=
  let synchronizedPairs := pairResults.filter (fun r => r.synchronized = some true)
  match findClusters pairResults with
  | none => none
  | some found =>
    let clusters : List (Cluster R) := found.map (fun cluster =>
      { agents := cluster, size := cluster.length,
        pairCount := net.countPairsInCluster cluster,
        avgSyncScore := calculateClusterSyncScore cluster synchronizedPairs })
    some { net with syncClusters := clusters.insertionSort clusterLe }

/-- The two loops of `analyzeAllPairs`: the state and the results so far. -/
def Network.analyzeEach (M : JsMath R) (F : Formats R) (net : Network R)
    (ps : List (String × String)) : Network R × List (SyncResult R) :=
  ps.foldl (fun st p =>
    ((st.1.analyzePair M F p.1 p.2).1, st.2 ++ [(st.1.analyzePair M F p.1 p.2).2])) (net, [])

/-- The method `analyzeAllPairs`: the new state and the results; `none` is a
cluster traversal without fuel. -/
def Network.analyzeAllPairs (M : JsMath R) (F : Formats R) (net : Network R) :
    Option (Network R × List (SyncResult R)) :=
  let agentIds := net.agents.map (fun kv => kv.1)
  let st := net.analyzeEach M F (pairsOf agentIds)
  (st.1.updateSyncClusters st.2).map (fun net3 => (net3, st.2))

end Network

/-! ## The real-number primitives -/

/-- The real-number primitives: the exact functions that `Math` approximates. -/
noncomputable def realMath : JsMath ℝ :=
  { sqrt := Real.sqrt, acos := Real.arccos, cos := Real.cos, sin := Real.sin,
    log := Real.log, log2 := Real.logb 2, pi := Real.pi }


/-! ## Vocabulary of the statements -/

/-- The number of positions of a log, after an event that ended at `prevEnd`,
at which `_groupSessions` starts a new session. -/
def sessionBreaks : Option ℤ → List Event → ℕ
  | _, [] => 0
  | prevEnd, e :: es => (if gapExceeds e.time prevEnd then 1 else 0) + sessionBreaks e.time es

/-- No gap between two consecutive events of the log exceeds two hours. -/
def NoLongGap (logs : List Event) : Prop :=
  List.Chain' (fun x y : Event => gapExceeds y.time x.time = false) logs

/-- Every event of the list has a timestamp that parses (a validated list). -/
def ValidTimes (l : List Event) : Prop := ∀ e ∈ l, ∃ ms, e.timestamp = Timestamp.at ms

/-- The time of an event in milliseconds, `0` when it does not parse. -/
def Event.ms (e : Event) : ℤ := e.time.getD 0

/-- The laws of the exact real functions that the statements about measured
angles and magnitudes rely on. -/
structure JsMath.Exact {R : Type} [LinearOrderedField R] (M : JsMath R) : Prop where
  pi_pos : 0 < M.pi
  sqrt_mul_self : ∀ x, 0 ≤ x → M.sqrt (x * x) = x
  cos_sq_add_sin_sq : ∀ θ, M.cos θ * M.cos θ + M.sin θ * M.sin θ = 1
  acos_cos : ∀ θ, 0 ≤ θ → θ ≤ M.pi → M.acos (M.cos θ) = θ
  acos_zero : M.acos 0 = M.pi / 2
  log2_nonneg : ∀ x, 1 ≤ x → 0 ≤ M.log2 x
  mul_self_sqrt : ∀ x, 0 ≤ x → M.sqrt x * M.sqrt x = x
  acos_one : M.acos 1 = 0
  log_nonneg : ∀ x, 1 ≤ x → 0 ≤ M.log x

/-- A session is well formed over the events that satisfy `q`: it holds at
least one event, all its events satisfy `q`, and its type set is not empty and
holds only tags of events that satisfy `q`. -/
def SessionOK (q : Event → Prop) (s : Session) : Prop :=
  s.logs ≠ [] ∧ (∀ e ∈ s.logs, q e) ∧ s.types ≠ [] ∧ ∀ t ∈ s.types, ∃ e, q e ∧ t = e.typeTag

/-- A session is faithful to its members: it holds at least one event, starts
at the time of its first event, ends at the time of its last event, and no
gap between two consecutive members exceeds two hours. -/
def Session.Faithful (s : Session) : Prop :=
  s.logs ≠ [] ∧ s.logs.head?.map Event.time = some s.start ∧
    s.logs.getLast?.map Event.time = some s.end_ ∧ NoLongGap s.logs

/-- The session `t` was opened by an event more than two hours after the end
of the session `s`. -/
def Session.OpenedAfter (s t : Session) : Prop :=
  ∃ e, t.logs.head? = some e ∧ gapExceeds e.time s.end_ = true

/-- Two sessions have the same shape: the same start, the same end, and
members with the same times in the same order. -/
def Session.SameShape (s t : Session) : Prop :=
  s.start = t.start ∧ s.end_ = t.end_ ∧ s.logs.map Event.time = t.logs.map Event.time

/-- The sessions of a list are separated in time: every member of a session is
not later than its end, and every member of a later session is later than it. -/
def Separated : List Session → Prop
  | [] => True
  | s :: rest =>
    (∃ b : ℤ, s.end_ = some b ∧ (∀ e ∈ s.logs, e.ms ≤ b) ∧
      ∀ t ∈ rest, ∀ e ∈ t.logs, b < e.ms) ∧ Separated rest

/-- The type set of a session holds the tags of its members. -/
def Session.TypesOfLogs (s : Session) : Prop :=
  ∀ x, x ∈ s.types ↔ ∃ e ∈ s.logs, e.typeTag = x

/-- Two sessions are alike: the same start and end, the same type tags, and
the same members up to their order. -/
def Session.Alike (s t : Session) : Prop :=
  s.start = t.start ∧ s.end_ = t.end_ ∧ (∀ x, x ∈ s.types ↔ x ∈ t.types) ∧
    List.Perm s.logs t.logs

/-- The agent pairs of the results marked `synchronized`: the edges of the
graph of `_updateSyncClusters`. -/
def synchronizedEdges {R : Type} (pairResults : List (SyncResult R)) : List (String × String) :=
  (pairResults.filter (fun r => r.synchronized = some true)).map (fun r => r.agents)

/-- Two agents form a synchronized pair, in either order. -/
def Joined (E : List (String × String)) (a b : String) : Prop := (a, b) ∈ E ∨ (b, a) ∈ E

/-- Two agents are linked by a chain of synchronized pairs. -/
def Linked (E : List (String × String)) (a b : String) : Prop :=
  Relation.ReflTransGen (Joined E) a b

/-- The sum of the sizes of the neighbour sets of the agents not yet visited. -/
def unvisitedDegree (g : Graph) (visited : List String) : ℕ :=
  ((g.filter (fun kv => decide (kv.1 ∉ visited))).map (fun kv => kv.2.length)).sum

/-! ## The formulas in the words of the specification -/

/-- The synchronisation score in the words of the specification:
`clamp01(0.45·symmetryScore + 0.25·directionalBalance + 0.25·(k / N))`. -/
def specSynchronizationScore {R : Type} [LinearOrderedField R] (symmetryScore : JsNum R)
    (directionalBalance : R) (k N : ℕ) : JsNum R :=
  JsNum.max (.num 0) (JsNum.min (.num 1)
    ((((JsNum.num 0.45).mul symmetryScore).add (.num (0.25 * directionalBalance))).add
      ((JsNum.num 0.25).mul (JsNum.div (.num (k : R)) (.num (N : R))))))

/-- The time effect in the words of the specification:
`1 / (1 + ln(max(1, M) + 1)·W)` with `M = magA·magB·(0.5 + categoryId/23)`,
`magA = max(1, ‖a‖)`, `magB = max(1, ‖b‖)` and
`W = 0.4·symmetryScore + 0.6·synchronizationScore`. -/
def specTimeEffect {R : Type} [LinearOrderedField R] (M : JsMath R) (normA normB : R)
    (categoryId : ℕ) (symmetryScore synchronizationScore : JsNum R) : JsNum R :=
  let magA := max 1 normA
  let magB := max 1 normB
  let combinedMagnitude := magA * magB * (0.5 + (categoryId : R) / 23)
  let combinedWeight :=
    ((JsNum.num 0.4).mul symmetryScore).add ((JsNum.num 0.6).mul synchronizationScore)
  (JsNum.num 1).div
    ((JsNum.num 1).add ((jsLog M (.num (max 1 combinedMagnitude + 1))).mul combinedWeight))

/-- The accumulation of the specification, `hash = hash·31 + charCode` with
wraparound to a signed 32-bit integer. -/
def specHashStep (hash : ℤ) (c : Char) : ℤ := toInt32 (hash * 31 + (c.toNat : ℤ))

/-- The hash of the specification: the accumulation folded over the characters
from 0. -/
def specHashOf (components : String) : ℤ := components.data.foldl specHashStep 0

/-- The hexadecimal digits in lower case. -/
def lowerHexDigits : List Char :=
  ['0', '1', '2', '3', '4', '5', '6', '7', '8', '9', 'a', 'b', 'c', 'd', 'e', 'f']

/-- The value of a lowercase hexadecimal digit: its position in
`0123456789abcdef`. -/
def hexDigitValue (c : Char) : ℕ := lowerHexDigits.indexOf c

/-- The number that a list of hexadecimal digits denotes, the first digit being
the most significant one. -/
def hexValue (digits : List Char) : ℕ :=
  Nat.ofDigits 16 ((digits.map hexDigitValue).reverse)

/-! ## Concrete inputs -/

/-- An event from `s` to `r` at `ms` with type `ty` and reactions `rs`. -/
def mkEvent (s r : String) (ms : ℤ) (ty : Option String) (rs : Option (List String)) : Event :=
  { sender := some s, receiver := some r, timestamp := Timestamp.at ms, type := ty,
    reactions := rs }

/-- Scenario A of the specification: three sessions, three events each way,
every event of the privileged type `VIDEO` and with a reaction. -/
def scenarioA : List Event :=
  [ mkEvent "A" "B" 0 (some "VIDEO") (some ["up"]),
    mkEvent "B" "A" 1000 (some "VIDEO") (some ["up"]),
    mkEvent "A" "B" 10000000 (some "VIDEO") (some ["up"]),
    mkEvent "B" "A" 10001000 (some "VIDEO") (some ["up"]),
    mkEvent "A" "B" 20000000 (some "VIDEO") (some ["up"]),
    mkEvent "B" "A" 20001000 (some "VIDEO") (some ["up"]) ]

/-- A `formats.mjs` with the one privileged tag `VIDEO` and an empty weight table. -/
def videoFormats (R : Type) : Formats R := { FORMATS := fun _ => none, BIASED := ["VIDEO"] }

/-- The `options` object `{}`. -/
def noOptions (R : Type) : Options R :=
  { tolerance := none, angleTolerance := none, biasMultipliers := none }

/-- The `options` object `{ classifier: { angleTolerance: 10 } }`. -/
def narrowOptions (R : Type) [LinearOrderedField R] : Options R :=
  { tolerance := none, angleTolerance := some 10, biasMultipliers := none }

/-- The state of a network after admitting the events of a list in order. -/
def Network.admitAll {R : Type} [LinearOrderedField R] [FloorRing R] (net : Network R)
    (events : List Event) : Network R :=
  events.foldl (fun n e => (n.addEvent e).1) net

/-- An event whose sender id is a single space. -/
def blankSenderEvent : Event := mkEvent " " "B" 0 none none

/-- The zero vector. -/
def Vec4.zero {R : Type} [LinearOrderedField R] : Vec4 R := ⟨0, 0, 0, 0⟩

/-- Two outgoing events of `A`, both privileged and reacted, three hours apart
or more, in chronological order. -/
def twoVideoEvents : List Event :=
  [ mkEvent "A" "B" 0 (some "VIDEO") (some ["up"]),
    mkEvent "A" "B" 10000000 (some "VIDEO") (some ["up"]) ]

/-- The agent stored under an id, or a new agent when there is none. -/
def Network.agentOf {R : Type} (net : Network R) (id : String) : Agent :=
  (mapGet net.agents id).getD (Agent.new id none)

/-- Two events among four agents whose pair keys collide:
`a` with `b:c`, and `a:b` with `c`. -/
def collidingEvents : List Event :=
  [ mkEvent "a" "b:c" 0 none none, mkEvent "a:b" "c" 0 none none ]

/-- The effect of one `analyzePair` call on the pair registry, and the agent
ids that its result reports: the ids of the synchronizer stored under the key. -/
def registryStep (events : List Event) (st : List (String × Sync) × List (String × String))
    (p : String × String) : List (String × Sync) × List (String × String) :=
  let key := getPairKey p.1 p.2
  let pairs := if mapHas st.1 key then st.1 else st.1 ++ [(key, Sync.new p.1 p.2 events)]
  let pair := (mapGet pairs key).getD (Sync.new p.1 p.2 events)
  (pairs, st.2 ++ [(pair.agentAId, pair.agentBId)])

/-- Two events from `A` to `B` in two sessions, the first of the privileged
type `VIDEO`, the second without a type. -/
def mixedEvents : List Event :=
  [ mkEvent "A" "B" 0 (some "VIDEO") none, mkEvent "A" "B" 10000000 none none ]

/-- Two events from `A` to `B` one day apart, without type or reaction. -/
def plainEvents : List Event :=
  [ mkEvent "A" "B" 0 none none, mkEvent "A" "B" 86400000 none none ]

/-- A network state that holds one plain event from `A` to `B` at time 0. -/
def oneEventNetwork (R : Type) [LinearOrderedField R] [FloorRing R] : Network R :=
  (Network.new (noOptions R)).admitAll [mkEvent "A" "B" 0 none none]

/-- An event from `A` to `B` one day later, with a reaction. -/
def reactedEvent : Event := mkEvent "A" "B" 86400000 none (some ["up"])

/-- A result for the pair `(a, b)` with the flag `synchronized` set to `flag`. -/
def markedResult (R : Type) [LinearOrderedField R] (a b : String) (flag : Bool) :
    SyncResult R :=
  { agents := (a, b), syncState := "ALIGNED", synchronizationScore := JsNum.num 0,
    geoType := "NONE", geoId := 0, subjectiveTime := none, synchronized := some flag }

/-! ## Theorems -/

section ClassifierTheorems

variable {R : Type} [LinearOrderedField R]

/-! ### Arithmetic of `JsNum` -/

@[simp] theorem JsNum.add_num (x y : R) : (JsNum.num x).add (JsNum.num y) = JsNum.num (x + y) :=
  rfl

@[simp] theorem JsNum.sub_num (x y : R) : (JsNum.num x).sub (JsNum.num y) = JsNum.num (x - y) :=
  rfl

@[simp] theorem JsNum.mul_num (x y : R) : (JsNum.num x).mul (JsNum.num y) = JsNum.num (x * y) :=
  rfl

@[simp] theorem JsNum.max_num (x y : R) : (JsNum.num x).max (JsNum.num y) = JsNum.num (Max.max x y) :=
  rfl

@[simp] theorem JsNum.min_num (x y : R) : (JsNum.num x).min (JsNum.num y) = JsNum.num (Min.min x y) :=
  rfl

@[simp] theorem JsNum.abs_num (x : R) : (JsNum.num x).abs = JsNum.num |x| := rfl

@[simp] theorem JsNum.abs_nan : (JsNum.nan : JsNum R).abs = JsNum.nan := rfl

theorem JsNum.div_num (x : R) {y : R} (hy : y ≠ 0) :
    (JsNum.num x).div (JsNum.num y) = JsNum.num (x / y) := by
  simp [JsNum.div, hy]

@[simp] theorem JsNum.div_zero (x : R) : (JsNum.num x).div (JsNum.num 0) = JsNum.nan := by
  simp [JsNum.div]

@[simp] theorem JsNum.add_nan (x : JsNum R) : x.add JsNum.nan = JsNum.nan := by
  cases x <;> rfl

@[simp] theorem JsNum.nan_add (x : JsNum R) : JsNum.nan.add x = JsNum.nan := rfl

@[simp] theorem JsNum.sub_nan (x : JsNum R) : x.sub JsNum.nan = JsNum.nan := by
  cases x <;> rfl

@[simp] theorem JsNum.mul_nan (x : JsNum R) : x.mul JsNum.nan = JsNum.nan := by
  cases x <;> rfl

@[simp] theorem JsNum.max_nan (x : JsNum R) : x.max JsNum.nan = JsNum.nan := by
  cases x <;> rfl

@[simp] theorem JsNum.min_nan (x : JsNum R) : x.min JsNum.nan = JsNum.nan := by
  cases x <;> rfl

@[simp] theorem JsNum.nan_div (x : JsNum R) : JsNum.nan.div x = JsNum.nan := rfl

@[simp] theorem JsNum.lt_num (x y : R) : (JsNum.num x).lt (JsNum.num y) = decide (x < y) := rfl

@[simp] theorem JsNum.ge_num (x y : R) : (JsNum.num x).ge (JsNum.num y) = decide (y ≤ x) := rfl

@[simp] theorem JsNum.gt_num (x y : R) : (JsNum.num x).gt (JsNum.num y) = decide (y < x) := rfl

@[simp] theorem JsNum.nan_orElse (d : JsNum R) : JsNum.nan.orElse d = d := rfl

theorem JsNum.num_orElse (x : R) (d : JsNum R) :
    (JsNum.num x).orElse d = if x = 0 then d else JsNum.num x := rfl

/-! ### Classifier -/

/-- The score computed for the Triclinic entry is `NaN`: `ideals.all` is the
string `"any"`, so every `angles.x - "any"` is `NaN`. -/
theorem calculateSymmetryScore_triclinic (M : JsMath R) (cls : Classifier R) (L : Lengths R)
    (A : Angles R) : cls.calculateSymmetryScore M triclinic L A = JsNum.nan := by
  simp [Classifier.calculateSymmetryScore, anglePrecisionOf, totalDev, triclinic, Ideals.ofAll,
    JsVal.orElse, angleDev, JsVal.toNumber]

/-- The shape of the score for an entry whose total deviation is a finite
number: base `id / 23`, edge term, angle term, clamped to `[0, 1]`. -/
theorem calculateSymmetryScore_of_totalDev (M : JsMath R) (cls : Classifier R)
    (df : Definition R) (L : Lengths R) (A : Angles R) (edges : String) (ideals : Ideals R)
    (t : R) (hid : df.id ≠ 0) (hgen : df.genParams = some ⟨edges, some ideals⟩)
    (ht : totalDev ideals A = JsNum.num t) (hang : cls.angleTolerance ≠ 0) :
    cls.calculateSymmetryScore M df L A = JsNum.num (max 0 (min 1
      ((df.id : R) / 23
        + (if edges = "equal" then cls.deviation * edgeConsistency M L else cls.deviation)
        + cls.deviation * max 0 (1 - t / 6 / cls.angleTolerance)))) := by
  have h6 : (6 : R) ≠ 0 := by norm_num
  unfold Classifier.calculateSymmetryScore
  rw [if_neg hid, hgen]
  simp only [Option.map_some', Option.bind_some, ht, JsNum.div_num t h6, anglePrecisionOf,
    if_neg hang, JsNum.div_num (t / 6) hang, JsNum.sub_num, JsNum.max_num, JsNum.mul_num,
    Option.some.injEq]
  by_cases he : edges = "equal"
  · simp [he, ht, JsNum.div_num t h6, JsNum.div_num (t / 6) hang]
  · simp [he, ht, JsNum.div_num t h6, JsNum.div_num (t / 6) hang]

/-- Bounds of the clamped score when the deviation constant is not negative. -/
theorem calculateSymmetryScore_bounds (M : JsMath R) (cls : Classifier R)
    (df : Definition R) (L : Lengths R) (A : Angles R) (edges : String) (ideals : Ideals R)
    (t : R) (hid : df.id ≠ 0) (hgen : df.genParams = some ⟨edges, some ideals⟩)
    (ht : totalDev ideals A = JsNum.num t) (hang : cls.angleTolerance ≠ 0)
    (hdev : 0 ≤ cls.deviation) :
    ∃ s, cls.calculateSymmetryScore M df L A = JsNum.num s ∧
      min 1 ((df.id : R) / 23) ≤ s ∧ 0 ≤ s ∧ s ≤ 1 := by
  refine ⟨_, calculateSymmetryScore_of_totalDev M cls df L A edges ideals t hid hgen ht hang,
    ?_, le_max_left _ _, max_le (by norm_num) (min_le_left _ _)⟩
  have h1 : 0 ≤ (if edges = "equal" then cls.deviation * edgeConsistency M L
      else cls.deviation) := by
    split
    · exact mul_nonneg hdev (sub_nonneg.2 (min_le_left _ _))
    · exact hdev
  have h2 : 0 ≤ cls.deviation * max 0 (1 - t / 6 / cls.angleTolerance) :=
    mul_nonneg hdev (le_max_left _ _)
  refine le_max_of_le_right (le_min (min_le_left _ _) ?_)
  have := min_le_right (1 : R) ((df.id : R) / 23)
  linarith

/-- The outcome of `find` over the taxonomy, as a cascade over the flags of the
symmetry map. -/
theorem find_taxonomy_cases (L : Lengths R) (A : Angles R) (S : SymMap R) :
    (initializeDefinitions.find? (fun df => df.check L A S) = some hypercubic ∧
        S.allEdgesEq = true ∧ S.all90 = true) ∨
    (initializeDefinitions.find? (fun df => df.check L A S) = some hexagonal ∧
        ¬ (S.allEdgesEq = true ∧ S.all90 = true) ∧
        S.allEdgesEq = true ∧ S.is120 A.γ = true) ∨
    (initializeDefinitions.find? (fun df => df.check L A S) = some trigonal ∧
        S.allEdgesEq = false ∧ S.is120 A.γ = true) ∨
    (initializeDefinitions.find? (fun df => df.check L A S) = some tetragonal ∧
        S.allEdgesEq = false ∧ S.is120 A.γ = false ∧ S.all90 = true ∧ S.abEq = true) ∨
    (initializeDefinitions.find? (fun df => df.check L A S) = some orthorhombic ∧
        S.is120 A.γ = false ∧ S.all90 = true ∧ S.abEq = false) ∨
    (initializeDefinitions.find? (fun df => df.check L A S) = some monoclinic ∧
        S.is120 A.γ = false ∧ S.all90 = false ∧ S.is90 A.α = false ∧ S.is90 A.β = true ∧
        S.is90 A.γ = true ∧ S.is90 A.δ = true ∧ S.is90 A.ε = true ∧ S.is90 A.ζ = true) ∨
    (initializeDefinitions.find? (fun df => df.check L A S) = some diclinic ∧
        S.is120 A.γ = false ∧ S.all90 = false ∧ S.is90 A.α = false ∧ S.is90 A.ζ = false) ∨
    (initializeDefinitions.find? (fun df => df.check L A S) = some triclinic ∧
        S.is120 A.γ = false ∧ S.all90 = false ∧
        (S.is90 A.α = true ∨ (S.is90 A.ζ = true ∧ ¬ (S.is90 A.β = true ∧ S.is90 A.γ = true ∧
          S.is90 A.δ = true ∧ S.is90 A.ε = true)))) := by
  have c1 : (hypercubic (R := R)).check L A S = (S.allEdgesEq && S.all90) := rfl
  have c2 : (hexagonal (R := R)).check L A S = (S.allEdgesEq && S.is120 A.γ) := rfl
  have c3 : (trigonal (R := R)).check L A S = S.is120 A.γ := rfl
  have c4 : (tetragonal (R := R)).check L A S = (S.all90 && S.abEq) := rfl
  have c5 : (orthorhombic (R := R)).check L A S = S.all90 := rfl
  have c6 : (monoclinic (R := R)).check L A S = (!S.all90 && !S.is90 A.α && S.is90 A.β
      && S.is90 A.γ && S.is90 A.δ && S.is90 A.ε && S.is90 A.ζ) := rfl
  have c7 : (diclinic (R := R)).check L A S = (!S.all90 && !S.is90 A.α && !S.is90 A.ζ) := rfl
  have c8 : (triclinic (R := R)).check L A S = true := rfl
  simp only [initializeDefinitions, List.find?, c1, c2, c3, c4, c5, c6, c7, c8]
  cases S.allEdgesEq <;> cases S.all90 <;> cases S.is120 A.γ <;> cases S.abEq <;>
    simp only [Bool.and_true, Bool.and_false, Bool.true_and, Bool.false_and, Bool.not_true,
      Bool.not_false, true_and, and_true, and_self, not_true_eq_false, not_false_eq_true,
      true_or, or_true, false_and, and_false, false_or, or_false, Bool.false_eq_true,
      Bool.true_eq_false] <;>
    cases S.is90 A.α <;> cases S.is90 A.ζ <;>
    simp only [Bool.and_true, Bool.and_false, Bool.true_and, Bool.false_and, Bool.not_true,
      Bool.not_false, true_and, and_true, and_self, not_true_eq_false, not_false_eq_true,
      true_or, or_true, false_and, and_false, false_or, or_false, Bool.false_eq_true,
      Bool.true_eq_false] <;>
    cases S.is90 A.β <;> cases S.is90 A.γ <;> cases S.is90 A.δ <;> cases S.is90 A.ε <;>
    simp only [Bool.and_true, Bool.and_false, Bool.true_and, Bool.false_and, Bool.not_true,
      Bool.not_false, true_and, and_true, and_self, not_true_eq_false, not_false_eq_true,
      true_or, or_true, false_and, and_false, false_or, or_false, Bool.false_eq_true,
      Bool.true_eq_false]

/-- The cascade of `find_taxonomy_cases` for a classifier built by the
constructor, in terms of `matched`. -/
theorem matched_new_eq (M : JsMath R) (tolerance angleTolerance customTol customAngTol : Option R)
    (a b c d : Vec4 R) :
    (Classifier.new tolerance angleTolerance).matched M a b c d customTol customAngTol =
      initializeDefinitions.find? (fun df => df.check (measureLengths M a b c d)
        (measureAngles M a b c d)
        ((Classifier.new tolerance angleTolerance).symOf M a b c d customTol customAngTol)) :=
  rfl

/-- C2: for every four vectors, every constructor setting and every custom
tolerance, `find` selects a rule (the id-0 branch is not taken) and the returned
category id is one of 1, 3, 4, 10, 15, 17, 20, 23. -/
theorem analyzeVectors_rule_matches (M : JsMath R)
    (tolerance angleTolerance customTol customAngTol : Option R) (a b c d : Vec4 R) :
    ((Classifier.new tolerance angleTolerance).matched M a b c d customTol
        customAngTol).isSome = true ∧
      ((Classifier.new tolerance angleTolerance).analyzeVectors M a b c d customTol
        customAngTol).categoryId ∈ [1, 3, 4, 10, 15, 17, 20, 23] := by
  unfold Classifier.analyzeVectors
  simp only [matched_new_eq]
  rcases find_taxonomy_cases (measureLengths M a b c d) (measureAngles M a b c d)
    ((Classifier.new tolerance angleTolerance).symOf M a b c d customTol customAngTol) with
    h | h | h | h | h | h | h | h <;>
  · rw [h.1]
    refine ⟨rfl, ?_⟩
    simp [hypercubic, hexagonal, trigonal, tetragonal, orthorhombic, monoclinic, diclinic,
      triclinic]

/-- C3: the returned category is the first entry of the fixed order
23, 20, 17, 15, 10, 4, 3, 1 whose table condition holds: its condition holds,
the condition of no earlier entry holds, and a geometry whose γ is within the
angle tolerance of 120° is not classified as 15, 10, 4, 3 or 1. -/
theorem analyzeVectors_first_match (M : JsMath R)
    (tolerance angleTolerance customTol customAngTol : Option R) (a b c d : Vec4 R) :
    ∃ pre post : List ℕ,
      taxonomyOrder = pre ++
        ((Classifier.new tolerance angleTolerance).analyzeVectors M a b c d customTol
          customAngTol).categoryId :: post ∧
      tableCondition
        ((Classifier.new tolerance angleTolerance).symOf M a b c d customTol customAngTol)
        (measureLengths M a b c d) (measureAngles M a b c d)
        ((Classifier.new tolerance angleTolerance).analyzeVectors M a b c d customTol
          customAngTol).categoryId ∧
      (∀ j ∈ pre, ¬ tableCondition
        ((Classifier.new tolerance angleTolerance).symOf M a b c d customTol customAngTol)
        (measureLengths M a b c d) (measureAngles M a b c d) j) ∧
      (|angleBetween M a b - 120|
          < customAngTol.getD (Classifier.new tolerance angleTolerance).angleTolerance →
        ((Classifier.new tolerance angleTolerance).analyzeVectors M a b c d customTol
          customAngTol).categoryId ∉ [15, 10, 4, 3, 1]) := by
  unfold Classifier.analyzeVectors
  simp only [matched_new_eq]
  generalize hS : (Classifier.new tolerance angleTolerance).symOf M a b c d customTol
    customAngTol = S
  have hE : S.allEdgesEq = (S.isEq (measureLengths M a b c d).a (measureLengths M a b c d).b
      && S.isEq (measureLengths M a b c d).b (measureLengths M a b c d).c
      && S.isEq (measureLengths M a b c d).c (measureLengths M a b c d).d) := by
    subst hS; rfl
  have h9 : S.all90 = (S.is90 (measureAngles M a b c d).α && S.is90 (measureAngles M a b c d).β
      && S.is90 (measureAngles M a b c d).γ && S.is90 (measureAngles M a b c d).δ
      && S.is90 (measureAngles M a b c d).ε && S.is90 (measureAngles M a b c d).ζ) := by
    subst hS; rfl
  have hab : S.abEq = S.isEq (measureLengths M a b c d).a (measureLengths M a b c d).b := by
    subst hS; rfl
  have hG : S.is120 (measureAngles M a b c d).γ = decide (|angleBetween M a b - 120|
      < customAngTol.getD (Classifier.new tolerance angleTolerance).angleTolerance) := by
    subst hS; rfl
  generalize measureLengths M a b c d = L at *
  generalize hA : measureAngles M a b c d = A at *
  have hγ : A.γ = angleBetween M a b := by subst hA; rfl
  clear hS hA
  rcases find_taxonomy_cases L A S with h | h | h | h | h | h | h | h
  · obtain ⟨hm, hf⟩ := h
    rw [hm]
    refine ⟨[], [20, 17, 15, 10, 4, 3, 1], rfl, ?_, ?_, ?_⟩
    · simp_all [tableCondition, hypercubic, and_assoc]
    · simp
    · intro _; simp [hypercubic]
  · obtain ⟨hm, hf⟩ := h
    rw [hm]
    refine ⟨[23], [17, 15, 10, 4, 3, 1], rfl, ?_, ?_, ?_⟩
    · simp_all [tableCondition, hexagonal, and_assoc]
    · simp_all [tableCondition, and_assoc]
    · intro _; simp [hexagonal]
  · obtain ⟨hm, hf⟩ := h
    rw [hm]
    refine ⟨[23, 20], [15, 10, 4, 3, 1], rfl, ?_, ?_, ?_⟩
    · simp_all [tableCondition, trigonal, and_assoc]
    · simp_all [tableCondition, and_assoc]
    · intro _; simp [trigonal]
  · obtain ⟨hm, hf⟩ := h
    rw [hm]
    refine ⟨[23, 20, 17], [10, 4, 3, 1], rfl, ?_, ?_, ?_⟩
    · simp_all [tableCondition, tetragonal, and_assoc]
    · simp_all [tableCondition, and_assoc]
    · intro hlt; simp_all [tetragonal]
  · obtain ⟨hm, hf⟩ := h
    rw [hm]
    refine ⟨[23, 20, 17, 15], [4, 3, 1], rfl, ?_, ?_, ?_⟩
    · simp_all [tableCondition, orthorhombic, and_assoc]
    · simp_all [tableCondition, and_assoc]
    · intro hlt; simp_all [orthorhombic]
  · obtain ⟨hm, hf⟩ := h
    rw [hm]
    refine ⟨[23, 20, 17, 15, 10], [3, 1], rfl, ?_, ?_, ?_⟩
    · simp_all [tableCondition, monoclinic, and_assoc]
    · simp_all [tableCondition, and_assoc]
    · intro hlt; simp_all [monoclinic]
  · obtain ⟨hm, hf⟩ := h
    rw [hm]
    refine ⟨[23, 20, 17, 15, 10, 4], [1], rfl, ?_, ?_, ?_⟩
    · simp_all [tableCondition, diclinic, and_assoc]
    · simp_all [tableCondition, and_assoc]
    · intro hlt; simp_all [diclinic]
  · obtain ⟨hm, hf⟩ := h
    rw [hm]
    refine ⟨[23, 20, 17, 15, 10, 4, 3], [], rfl, ?_, ?_, ?_⟩
    · simp_all [tableCondition, triclinic, and_assoc]
    · cases hα : S.is90 A.α <;> cases hζ : S.is90 A.ζ <;>
        simp_all [tableCondition, and_assoc]
    · intro hlt; simp_all [triclinic]

/-- Total deviation against the all-90° ideals. -/
theorem totalDev_all90 (A : Angles R) :
    totalDev (Ideals.ofAll (JsVal.number 90)) A = JsNum.num (0 + |A.α - 90| + |A.β - 90|
      + |A.γ - 90| + |A.δ - 90| + |A.ε - 90| + |A.ζ - 90|) := by
  simp [totalDev, Ideals.ofAll, JsVal.orElse, angleDev, JsVal.toNumber]

/-- Total deviation against the ideals `{ γ: 120, all: 90 }`. -/
theorem totalDev_gamma120 (A : Angles R) :
    totalDev ({ Ideals.ofAll (JsVal.number 90) with γ := JsVal.number 120 } : Ideals R) A =
      JsNum.num (0 + |A.α - 90| + |A.β - 90| + |A.γ - 120| + |A.δ - 90| + |A.ε - 90|
        + |A.ζ - 90|) := by
  simp [totalDev, Ideals.ofAll, JsVal.orElse, angleDev, JsVal.toNumber]

/-- The closure `eq` holds of a length and itself when the scaled tolerance is positive. -/
theorem Classifier.eq_self (cls : Classifier R) (tol v : R)
    (h : 0 < tol * cls.angleTolerance * 0.01) : cls.eq tol v v = true := by
  unfold Classifier.eq
  by_cases hv : v = 0
  · simp [hv]
  · simp [hv, JsNum.div_num _ hv, h]

/-- C4: with positive tolerances, four vectors of equal magnitude whose six
pairwise angles are each within the angle tolerance of 90° are classified as
Hypercubic (id 23) with a symmetry score above 0.9 (the score is 1). -/
theorem analyzeVectors_hypercubic (M : JsMath R) (tolerance angleTolerance : R)
    (a b c d : Vec4 R) (htol : 0 < tolerance) (hang : 0 < angleTolerance)
    (hab : magnitude M a = magnitude M b) (hbc : magnitude M b = magnitude M c)
    (hcd : magnitude M c = magnitude M d)
    (hα : |angleBetween M b c - 90| < angleTolerance)
    (hβ : |angleBetween M a c - 90| < angleTolerance)
    (hγ : |angleBetween M a b - 90| < angleTolerance)
    (hδ : |angleBetween M a d - 90| < angleTolerance)
    (hε : |angleBetween M b d - 90| < angleTolerance)
    (hζ : |angleBetween M c d - 90| < angleTolerance) :
    ((Classifier.new (some tolerance) (some angleTolerance)).analyzeVectors M a b c d none
        none).categoryId = 23 ∧
      ((Classifier.new (some tolerance) (some angleTolerance)).analyzeVectors M a b c d none
        none).category = "Hypercubic" ∧
      ∃ s, ((Classifier.new (some tolerance) (some angleTolerance)).analyzeVectors M a b c d
        none none).symmetryScore = JsNum.num s ∧ 0.9 < s := by
  have hpos : 0 < tolerance *
      (Classifier.new (some tolerance) (some angleTolerance)).angleTolerance * 0.01 := by
    simp only [Classifier.new, Option.getD_some]
    have : (0 : R) < 0.01 := by norm_num
    positivity
  have hE : ((Classifier.new (some tolerance) (some angleTolerance)).symOf M a b c d none
      none).allEdgesEq = true := by
    simp only [Classifier.symOf, Classifier.createSymmetryMap, measureLengths, Option.getD_none,
      ← hcd, ← hbc, ← hab]
    have := Classifier.eq_self (Classifier.new (some tolerance) (some angleTolerance))
      tolerance (magnitude M a) hpos
    simp only [Classifier.new, Option.getD_some] at this ⊢
    simp [this]
  have h9 : ((Classifier.new (some tolerance) (some angleTolerance)).symOf M a b c d none
      none).all90 = true := by
    simp [Classifier.symOf, Classifier.createSymmetryMap, measureAngles, Classifier.new,
      hα, hβ, hγ, hδ, hε, hζ]
  have hm : (Classifier.new (some tolerance) (some angleTolerance)).matched M a b c d none none
      = some hypercubic := by
    rw [matched_new_eq]
    exact List.find?_cons_of_pos _ (by
      show (_ && _) = true
      rw [hE, h9]; rfl)
  have hs := calculateSymmetryScore_bounds M (Classifier.new (some tolerance)
    (some angleTolerance)) hypercubic (measureLengths M a b c d) (measureAngles M a b c d)
    "equal" (Ideals.ofAll (JsVal.number 90)) _ (by simp [hypercubic]) rfl
    (totalDev_all90 _) (by simpa [Classifier.new] using hang.ne')
    (by
      simp only [Classifier.new, Option.getD_some]
      have : (0 : R) < 0.01 := by norm_num
      positivity)
  unfold Classifier.analyzeVectors
  rw [hm]
  refine ⟨rfl, rfl, ?_⟩
  obtain ⟨s, h1, h2, -, -⟩ := hs
  refine ⟨s, h1, ?_⟩
  have : (1 : R) ≤ s := by
    simpa [hypercubic] using h2
  have h09 : (0.9 : R) < 1 := by norm_num
  linarith

end ClassifierTheorems

/-! ### Evaluations with the real primitives -/

section RealEvaluations

theorem real_quarter_turn_deg : Real.pi / 2 * (180 / Real.pi) = 90 := by
  field_simp
  ring

theorem magnitude_real_e0 : magnitude realMath ⟨1, 0, 0, 0⟩ = 1 := by
  simp [magnitude, realMath]

theorem magnitude_real_e1 : magnitude realMath ⟨0, 1, 0, 0⟩ = 1 := by
  simp [magnitude, realMath]

theorem magnitude_real_e2 : magnitude realMath ⟨0, 0, 1, 0⟩ = 1 := by
  simp [magnitude, realMath]

theorem magnitude_real_e3 : magnitude realMath ⟨0, 0, 0, 1⟩ = 1 := by
  simp [magnitude, realMath]

/-- Two vectors with dot product 0 are measured at 90°. -/
theorem angleBetween_real_orthogonal (v w : Vec4 ℝ) (hd : dotProduct v w = 0) :
    angleBetween realMath v w = 90 := by
  simp [angleBetween, hd, realMath, real_quarter_turn_deg]

/-- Two vectors of magnitude 1 with dot product 1 are measured at 0°. -/
theorem angleBetween_real_parallel (v w : Vec4 ℝ) (hv : magnitude realMath v = 1)
    (hw : magnitude realMath w = 1) (hd : dotProduct v w = 1) :
    angleBetween realMath v w = 0 := by
  unfold angleBetween
  simp only [hv, hw, hd]
  simp [realMath]

/-- C1 (failing input): for a = b = (1,0,0,0), c = (0,0,1,0), d = (0,0,0,1) and
the default tolerances the measured γ is 0°, the Triclinic fallback is matched,
and the returned symmetry score is `NaN`, which is not a number of `[0, 1]`. -/
theorem analyzeVectors_triclinic_score_nan :
    ((Classifier.new none none).analyzeVectors realMath ⟨1, 0, 0, 0⟩ ⟨1, 0, 0, 0⟩ ⟨0, 0, 1, 0⟩
        ⟨0, 0, 0, 1⟩ none none).categoryId = 1 ∧
      ((Classifier.new none none).analyzeVectors realMath ⟨1, 0, 0, 0⟩ ⟨1, 0, 0, 0⟩ ⟨0, 0, 1, 0⟩
        ⟨0, 0, 0, 1⟩ none none).symmetryScore = JsNum.nan ∧
      ¬ ((Classifier.new none none).analyzeVectors realMath ⟨1, 0, 0, 0⟩ ⟨1, 0, 0, 0⟩
        ⟨0, 0, 1, 0⟩ ⟨0, 0, 0, 1⟩ none none).symmetryScore.inUnit := by
  have hα : angleBetween realMath ⟨1, 0, 0, 0⟩ ⟨0, 0, 1, 0⟩ = 90 :=
    angleBetween_real_orthogonal _ _ (by simp [dotProduct])
  have hγ : angleBetween realMath ⟨1, 0, 0, 0⟩ ⟨1, 0, 0, 0⟩ = 0 :=
    angleBetween_real_parallel _ _ magnitude_real_e0 magnitude_real_e0 (by simp [dotProduct])
  have hm : (Classifier.new none none).matched realMath ⟨1, 0, 0, 0⟩ ⟨1, 0, 0, 0⟩ ⟨0, 0, 1, 0⟩
      ⟨0, 0, 0, 1⟩ none none = some triclinic := by
    rw [matched_new_eq]
    have h1 : ((Classifier.new none none).symOf realMath ⟨1, 0, 0, 0⟩ ⟨1, 0, 0, 0⟩ ⟨0, 0, 1, 0⟩
        ⟨0, 0, 0, 1⟩ none none).is120 (measureAngles realMath ⟨1, 0, 0, 0⟩ ⟨1, 0, 0, 0⟩
          ⟨0, 0, 1, 0⟩ ⟨0, 0, 0, 1⟩).γ = false := by
      simp only [Classifier.symOf, Classifier.createSymmetryMap, measureAngles, hγ,
        Classifier.new, Option.getD_none]
      norm_num
    have h2 : ((Classifier.new none none).symOf realMath ⟨1, 0, 0, 0⟩ ⟨1, 0, 0, 0⟩ ⟨0, 0, 1, 0⟩
        ⟨0, 0, 0, 1⟩ none none).is90 (measureAngles realMath ⟨1, 0, 0, 0⟩ ⟨1, 0, 0, 0⟩
          ⟨0, 0, 1, 0⟩ ⟨0, 0, 0, 1⟩).α = true := by
      simp only [Classifier.symOf, Classifier.createSymmetryMap, measureAngles, hα,
        Classifier.new, Option.getD_none]
      norm_num
    have h3 : ((Classifier.new none none).symOf realMath ⟨1, 0, 0, 0⟩ ⟨1, 0, 0, 0⟩ ⟨0, 0, 1, 0⟩
        ⟨0, 0, 0, 1⟩ none none).all90 = false := by
      simp only [Classifier.symOf, Classifier.createSymmetryMap, measureAngles, hγ,
        Classifier.new, Option.getD_none]
      norm_num
    rcases find_taxonomy_cases (measureLengths realMath ⟨1, 0, 0, 0⟩ ⟨1, 0, 0, 0⟩ ⟨0, 0, 1, 0⟩
      ⟨0, 0, 0, 1⟩) (measureAngles realMath ⟨1, 0, 0, 0⟩ ⟨1, 0, 0, 0⟩ ⟨0, 0, 1, 0⟩
      ⟨0, 0, 0, 1⟩) ((Classifier.new none none).symOf realMath ⟨1, 0, 0, 0⟩ ⟨1, 0, 0, 0⟩
      ⟨0, 0, 1, 0⟩ ⟨0, 0, 0, 1⟩ none none) with h | h | h | h | h | h | h | h
    all_goals first
      | exact h.1
      | (exfalso; simp_all)
  refine ⟨?_, ?_, ?_⟩
  · simp [Classifier.analyzeVectors, hm, triclinic]
  · simp [Classifier.analyzeVectors, hm, calculateSymmetryScore_triclinic]
  · simp [Classifier.analyzeVectors, hm, calculateSymmetryScore_triclinic, JsNum.inUnit]

/-- C3 (witness): the standard basis measured with a custom angle tolerance of
40°: γ = 90° is within 40° of 120°, and the category is none of 15, 10, 4, 3, 1. -/
theorem analyzeVectors_first_match_witness :
    |angleBetween realMath ⟨1, 0, 0, 0⟩ ⟨0, 1, 0, 0⟩ - 120|
        < (some (40 : ℝ)).getD (Classifier.new none none).angleTolerance ∧
      ((Classifier.new none none).analyzeVectors realMath ⟨1, 0, 0, 0⟩ ⟨0, 1, 0, 0⟩
        ⟨0, 0, 1, 0⟩ ⟨0, 0, 0, 1⟩ none (some 40)).categoryId ∉ [15, 10, 4, 3, 1] := by
  have h : |angleBetween realMath ⟨1, 0, 0, 0⟩ ⟨0, 1, 0, 0⟩ - 120|
      < (some (40 : ℝ)).getD (Classifier.new none none).angleTolerance := by
    rw [angleBetween_real_orthogonal _ _ (by simp [dotProduct])]
    simp only [Option.getD_some]
    norm_num
  obtain ⟨pre, post, -, -, -, h4⟩ := analyzeVectors_first_match realMath none none none
    (some 40) ⟨1, 0, 0, 0⟩ ⟨0, 1, 0, 0⟩ ⟨0, 0, 1, 0⟩ ⟨0, 0, 0, 1⟩
  exact ⟨h, h4 h⟩

/-- C4 (witness): the standard basis with the default tolerances. -/
theorem analyzeVectors_hypercubic_witness :
    ((Classifier.new (some (0.2 : ℝ)) (some 15)).analyzeVectors realMath ⟨1, 0, 0, 0⟩
        ⟨0, 1, 0, 0⟩ ⟨0, 0, 1, 0⟩ ⟨0, 0, 0, 1⟩ none none).categoryId = 23 ∧
      ((Classifier.new (some (0.2 : ℝ)) (some 15)).analyzeVectors realMath ⟨1, 0, 0, 0⟩
        ⟨0, 1, 0, 0⟩ ⟨0, 0, 1, 0⟩ ⟨0, 0, 0, 1⟩ none none).category = "Hypercubic" ∧
      ∃ s, ((Classifier.new (some (0.2 : ℝ)) (some 15)).analyzeVectors realMath ⟨1, 0, 0, 0⟩
        ⟨0, 1, 0, 0⟩ ⟨0, 0, 1, 0⟩ ⟨0, 0, 0, 1⟩ none none).symmetryScore = JsNum.num s ∧
        0.9 < s :=
  analyzeVectors_hypercubic realMath 0.2 15 ⟨1, 0, 0, 0⟩ ⟨0, 1, 0, 0⟩ ⟨0, 0, 1, 0⟩ ⟨0, 0, 0, 1⟩
    (by norm_num) (by norm_num)
    (by rw [magnitude_real_e0, magnitude_real_e1])
    (by rw [magnitude_real_e1, magnitude_real_e2])
    (by rw [magnitude_real_e2, magnitude_real_e3])
    (by rw [angleBetween_real_orthogonal _ _ (by simp [dotProduct])]; norm_num)
    (by rw [angleBetween_real_orthogonal _ _ (by simp [dotProduct])]; norm_num)
    (by rw [angleBetween_real_orthogonal _ _ (by simp [dotProduct])]; norm_num)
    (by rw [angleBetween_real_orthogonal _ _ (by simp [dotProduct])]; norm_num)
    (by rw [angleBetween_real_orthogonal _ _ (by simp [dotProduct])]; norm_num)
    (by rw [angleBetween_real_orthogonal _ _ (by simp [dotProduct])]; norm_num)

end RealEvaluations

/-! ### Sessions and insufficient data -/

section SessionTheorems

variable {R : Type} [LinearOrderedField R] [FloorRing R]

/-- One step of the grouping loop from a state with a current session. -/
theorem groupStep_some (ss : List Session) (cur : Session) (e : Event) :
    groupStep (ss, some cur) e =
      (if gapExceeds e.time cur.end_ then ss ++ [cur] else ss,
       some ((if gapExceeds e.time cur.end_ then Session.fresh e.time else cur).extend e)) := by
  unfold groupStep
  by_cases h : gapExceeds e.time cur.end_ = true
  · simp [h]
  · simp [h]

/-- The loop keeps a current session and closes one session per break. -/
theorem foldl_groupStep_length (l : List Event) (ss : List Session) (cur : Session) :
    ∃ cur2 : Session,
      (l.foldl groupStep (ss, some cur)).2 = some cur2 ∧
      (l.foldl groupStep (ss, some cur)).1.length = ss.length + sessionBreaks cur.end_ l := by
  induction l generalizing ss cur with
  | nil => exact ⟨cur, rfl, rfl⟩
  | cons e es ih =>
    rw [List.foldl_cons, groupStep_some]
    obtain ⟨cur3, h1, h2⟩ := ih (if gapExceeds e.time cur.end_ then ss ++ [cur] else ss)
      ((if gapExceeds e.time cur.end_ then Session.fresh e.time else cur).extend e)
    refine ⟨cur3, h1, ?_⟩
    rw [h2, sessionBreaks]
    have hend : ((if gapExceeds e.time cur.end_ then Session.fresh e.time else cur).extend e).end_
        = e.time := rfl
    rw [hend]
    split
    · simp; omega
    · simp

/-- The number of sessions of a non-empty log. -/
theorem groupSessions_length_cons (e : Event) (es : List Event) :
    (groupSessions (e :: es)).length = sessionBreaks e.time es + 1 := by
  unfold groupSessions
  rw [if_neg (by simp), List.foldl_cons]
  have h0 : groupStep ([], none) e = ([], some ((Session.fresh e.time).extend e)) := rfl
  rw [h0]
  obtain ⟨cur2, h1, h2⟩ := foldl_groupStep_length es [] ((Session.fresh e.time).extend e)
  dsimp only
  rw [h1]
  have hend : ((Session.fresh e.time).extend e).end_ = e.time := rfl
  simp [h2, hend]

/-- No break after `prevEnd` exactly when no gap of the chain exceeds two hours. -/
theorem sessionBreaks_eq_zero (prevEnd : Option ℤ) (l : List Event) :
    sessionBreaks prevEnd l = 0 ↔
      List.Chain (fun a b : Option ℤ => gapExceeds b a = false) prevEnd (l.map Event.time) := by
  induction l generalizing prevEnd with
  | nil => simp [sessionBreaks]
  | cons e es ih =>
    rw [sessionBreaks, List.map_cons, List.chain_cons, ← ih]
    by_cases h : gapExceeds e.time prevEnd = true
    · simp [h]
    · simp [h]

/-- Fewer than two sessions exactly when no consecutive gap exceeds two hours. -/
theorem groupSessions_length_lt_two (logs : List Event) :
    (groupSessions logs).length < 2 ↔ NoLongGap logs := by
  cases logs with
  | nil => simp [groupSessions, NoLongGap]
  | cons e es =>
    rw [groupSessions_length_cons]
    have h := sessionBreaks_eq_zero e.time es
    rw [List.chain_map] at h
    unfold NoLongGap
    rw [List.Chain', ← h]
    omega

/-- Extending a fresh or well-formed session by an event keeps it well formed. -/
theorem SessionOK_extend (q : Event → Prop) (c : Session) (e : Event) (hq : q e)
    (hc : (c.logs = [] ∧ c.types = []) ∨ SessionOK q c) : SessionOK q (c.extend e) := by
  have hlogs : ∀ x ∈ c.logs, q x := by
    rcases hc with ⟨h, -⟩ | h
    · simp [h]
    · exact h.2.1
  have htypes : ∀ t ∈ c.types, ∃ x, q x ∧ t = x.typeTag := by
    rcases hc with ⟨-, h⟩ | h
    · simp [h]
    · exact h.2.2.2
  refine ⟨by simp [Session.extend], ?_, ?_, ?_⟩
  · intro x hx
    simp only [Session.extend, List.mem_append, List.mem_singleton] at hx
    rcases hx with hx | rfl
    · exact hlogs x hx
    · exact hq
  · simp only [Session.extend, setAdd]
    split
    · rename_i hmem
      exact List.ne_nil_of_mem hmem
    · simp
  · intro t ht
    simp only [Session.extend, setAdd] at ht
    split at ht
    · exact htypes t ht
    · simp only [List.mem_append, List.mem_singleton] at ht
      rcases ht with ht | rfl
      · exact htypes t ht
      · exact ⟨e, hq, rfl⟩

/-- The state of the grouping loop after a log: the closed sessions and the
current one are well formed, the current one ends at the last event, and the
first session keeps its start. -/
theorem foldl_groupStep_spec (q : Event → Prop) (l : List Event) (hq : ∀ e ∈ l, q e)
    (ss : List Session) (cur : Session) (hss : ∀ s ∈ ss, SessionOK q s)
    (hcur : SessionOK q cur) :
    ∃ (ss2 : List Session) (cur2 : Session),
      l.foldl groupStep (ss, some cur) = (ss2, some cur2) ∧
      (∀ s ∈ ss2, SessionOK q s) ∧ SessionOK q cur2 ∧
      cur2.end_ = (match l.getLast? with
        | some e => e.time
        | none => cur.end_) ∧
      ((ss2 ++ [cur2]).head?).map Session.start = ((ss ++ [cur]).head?).map Session.start := by
  induction l generalizing ss cur with
  | nil => exact ⟨ss, cur, rfl, hss, hcur, rfl, rfl⟩
  | cons e es ih =>
    rw [List.foldl_cons, groupStep_some]
    have hqe : q e := hq e (List.mem_cons_self _ _)
    have hqes : ∀ x ∈ es, q x := fun x hx => hq x (List.mem_cons_of_mem _ hx)
    by_cases hgap : gapExceeds e.time cur.end_ = true
    · simp only [hgap, if_true]
      obtain ⟨ss2, cur2, h1, h2, h3, h4, h5⟩ := ih hqes (ss ++ [cur])
        ((Session.fresh e.time).extend e)
        (by
          intro s hs
          rcases List.mem_append.1 hs with hs | hs
          · exact hss s hs
          · rw [List.mem_singleton.1 hs]; exact hcur)
        (SessionOK_extend q _ e hqe (Or.inl ⟨rfl, rfl⟩))
      refine ⟨ss2, cur2, h1, h2, h3, ?_, ?_⟩
      · rw [h4]
        cases es with
        | nil => rfl
        | cons y ys =>
          rw [List.getLast?_cons_cons, List.getLast?_eq_getLast _ (List.cons_ne_nil y ys)]
      · rw [h5]
        cases ss <;> rfl
    · simp only [hgap, if_false, Bool.false_eq_true]
      obtain ⟨ss2, cur2, h1, h2, h3, h4, h5⟩ := ih hqes ss (cur.extend e) hss
        (SessionOK_extend q _ e hqe (Or.inr hcur))
      refine ⟨ss2, cur2, h1, h2, h3, ?_, ?_⟩
      · rw [h4]
        cases es with
        | nil => rfl
        | cons y ys =>
          rw [List.getLast?_cons_cons, List.getLast?_eq_getLast _ (List.cons_ne_nil y ys)]
      · rw [h5]
        cases ss <;> rfl

/-- The sessions of a non-empty log: all are well formed, the first starts at
the first event and the last ends at the last event. -/
theorem groupSessions_cons_spec (q : Event → Prop) (e : Event) (es : List Event)
    (hq : ∀ x ∈ e :: es, q x) :
    ∃ (ss2 : List Session) (cur2 : Session),
      groupSessions (e :: es) = ss2 ++ [cur2] ∧
      (∀ s ∈ ss2 ++ [cur2], SessionOK q s) ∧
      cur2.end_ = ((e :: es).getLast (List.cons_ne_nil e es)).time ∧
      ((ss2 ++ [cur2]).head?).map Session.start = some e.time := by
  have hqe : q e := hq e (List.mem_cons_self _ _)
  obtain ⟨ss2, cur2, h1, h2, h3, h4, h5⟩ := foldl_groupStep_spec q es
    (fun x hx => hq x (List.mem_cons_of_mem _ hx)) [] ((Session.fresh e.time).extend e)
    (by simp) (SessionOK_extend q _ e hqe (Or.inl ⟨rfl, rfl⟩))
  refine ⟨ss2, cur2, ?_, ?_, ?_, ?_⟩
  · unfold groupSessions
    rw [if_neg (by simp), List.foldl_cons]
    have h0 : groupStep ([], none) e = ([], some ((Session.fresh e.time).extend e)) := rfl
    rw [h0, h1]
  · intro s hs
    rcases List.mem_append.1 hs with hs | hs
    · exact h2 s hs
    · rw [List.mem_singleton.1 hs]; exact h3
  · rw [h4]
    cases es with
    | nil => rfl
    | cons y ys =>
      rw [List.getLast?_eq_getLast _ (List.cons_ne_nil y ys)]
      rfl
  · rw [h5]; rfl

/-- No geometry for a log of fewer than two sessions. -/
theorem generateVectorsFromHistory_none (M : JsMath R) (BIASED : List String)
    (multipliers : String → Option R) (logs : List Event)
    (h : (groupSessions logs).length < 2) :
    generateVectorsFromHistory M BIASED multipliers logs = none := by
  unfold generateVectorsFromHistory
  simp [h]

/-- C5: the sublog of a pair groups into fewer than two sessions exactly when
it is empty, holds a single event, or has no consecutive gap above two hours;
then `generateVectorsFromHistory` returns `null` and `analyze` returns
`INSUFFICIENT_DATA` with score 0, geoId 0 and no subjective time. -/
theorem analyze_insufficient_data (M : JsMath R) (F : Formats R) (o : Options R)
    (allEvents : List Event) (agentAId agentBId : String) :
    ((groupSessions (Sync.new agentAId agentBId allEvents).logs).length < 2 ↔
        ((Sync.new agentAId agentBId allEvents).logs = [] ∨
          (∃ e, (Sync.new agentAId agentBId allEvents).logs = [e]) ∨
          NoLongGap (Sync.new agentAId agentBId allEvents).logs)) ∧
      ((groupSessions (Sync.new agentAId agentBId allEvents).logs).length < 2 →
        generateVectorsFromHistory M F.BIASED (o.multipliers F)
            (Sync.new agentAId agentBId allEvents).logs = none ∧
          ((Sync.new agentAId agentBId allEvents).analyze M F o allEvents).syncState
            = "INSUFFICIENT_DATA" ∧
          ((Sync.new agentAId agentBId allEvents).analyze M F o allEvents).synchronizationScore
            = JsNum.num 0 ∧
          ((Sync.new agentAId agentBId allEvents).analyze M F o allEvents).geoId = 0 ∧
          ((Sync.new agentAId agentBId allEvents).analyze M F o allEvents).subjectiveTime
            = none) := by
  constructor
  · rw [groupSessions_length_lt_two]
    constructor
    · intro h; exact Or.inr (Or.inr h)
    · rintro (h | ⟨e, h⟩ | h)
      · rw [h]; exact List.chain'_nil
      · rw [h]; exact List.chain'_singleton e
      · exact h
  · intro h
    have hg := generateVectorsFromHistory_none M F.BIASED (o.multipliers F) _ h
    refine ⟨hg, ?_, ?_, ?_, ?_⟩ <;>
      simp [Sync.analyze, Sync.calculateJointManifold, hg]

end SessionTheorems

/-- C5 (witness): a single event between the two agents. -/
theorem analyze_insufficient_data_witness :
    (groupSessions (Sync.new "A" "B"
        [⟨some "A", some "B", Timestamp.at 0, none, none⟩]).logs).length < 2 ∧
      ((Sync.new "A" "B" [⟨some "A", some "B", Timestamp.at 0, none, none⟩]).analyze realMath
          ⟨fun _ => none, []⟩ ⟨none, none, none⟩
          [⟨some "A", some "B", Timestamp.at 0, none, none⟩]).syncState
        = "INSUFFICIENT_DATA" :=
  ⟨by decide,
   ((analyze_insufficient_data realMath ⟨fun _ => none, []⟩ ⟨none, none, none⟩
      [⟨some "A", some "B", Timestamp.at 0, none, none⟩] "A" "B").2 (by decide)).2.1⟩

/-! ### Exact primitives and the measured pair geometry -/

/-- The real functions satisfy the laws of `JsMath.Exact`. -/
theorem realMath_exact : realMath.Exact where
  pi_pos := Real.pi_pos
  sqrt_mul_self := fun x hx => Real.sqrt_mul_self hx
  cos_sq_add_sin_sq := fun θ => by
    have := Real.cos_sq_add_sin_sq θ
    simp only [realMath]
    nlinarith [this]
  acos_cos := fun θ h0 h1 => Real.arccos_cos h0 h1
  acos_zero := Real.arccos_zero
  log2_nonneg := fun x hx => Real.logb_nonneg (by norm_num) hx
  mul_self_sqrt := fun x hx => Real.mul_self_sqrt hx
  acos_one := Real.arccos_one
  log_nonneg := fun x hx => Real.log_nonneg hx

section GeometryTheorems

variable {R : Type} [LinearOrderedField R]

/-- The magnitude of the scaled vector `a = (vA, 0, 0, 0)`. -/
theorem magnitude_scaled_a (M : JsMath R) (hM : M.Exact) (vA k : R) (h : 0 ≤ vA * k) :
    magnitude M ((⟨vA, 0, 0, 0⟩ : Vec4 R).scale k) = vA * k := by
  simp only [magnitude, Vec4.scale]
  rw [show (0 : R) + vA * k * (vA * k) + 0 * k * (0 * k) + 0 * k * (0 * k) + 0 * k * (0 * k)
    = (vA * k) * (vA * k) by ring]
  exact hM.sqrt_mul_self _ h

/-- The magnitude of the scaled vector `b = (vB cos θ, vB sin θ, 0, 0)`. -/
theorem magnitude_scaled_b (M : JsMath R) (hM : M.Exact) (vB k θ : R) (h : 0 ≤ vB * k) :
    magnitude M ((⟨vB * M.cos θ, vB * M.sin θ, 0, 0⟩ : Vec4 R).scale k) = vB * k := by
  simp only [magnitude, Vec4.scale]
  rw [show (0 : R) + vB * M.cos θ * k * (vB * M.cos θ * k)
      + vB * M.sin θ * k * (vB * M.sin θ * k) + 0 * k * (0 * k) + 0 * k * (0 * k)
    = (vB * k) * (vB * k) * (M.cos θ * M.cos θ + M.sin θ * M.sin θ) by ring]
  rw [hM.cos_sq_add_sin_sq, mul_one]
  exact hM.sqrt_mul_self _ h

/-- The cosine of an exact `Math` lies in `[-1, 1]`. -/
theorem JsMath.Exact.abs_cos_le (M : JsMath R) (hM : M.Exact) (θ : R) :
    -1 ≤ M.cos θ ∧ M.cos θ ≤ 1 := by
  have h := hM.cos_sq_add_sin_sq θ
  constructor <;> nlinarith [mul_self_nonneg (M.sin θ), mul_self_nonneg (M.cos θ - 1),
    mul_self_nonneg (M.cos θ + 1)]

/-- The angle measured between the scaled `a` and `b` of a pair geometry is
the angle the geometry was built from. -/
theorem angleBetween_scaled_ab (M : JsMath R) (hM : M.Exact) (vA vB k θdeg : R)
    (hA : 0 < vA) (hB : 0 < vB) (hk : 0 < k) (h0 : 0 ≤ θdeg) (h180 : θdeg ≤ 180) :
    angleBetween M ((⟨vA, 0, 0, 0⟩ : Vec4 R).scale k)
      ((⟨vB * M.cos (θdeg * M.pi / 180), vB * M.sin (θdeg * M.pi / 180), 0, 0⟩ : Vec4 R).scale k)
      = θdeg := by
  have hpi := hM.pi_pos
  have hAk : 0 < vA * k := mul_pos hA hk
  have hBk : 0 < vB * k := mul_pos hB hk
  unfold angleBetween
  simp only [magnitude_scaled_a M hM vA k hAk.le, magnitude_scaled_b M hM vB k _ hBk.le]
  rw [if_neg (by
    rintro (h | h)
    · exact hAk.ne' h
    · exact hBk.ne' h)]
  have hdot : dotProduct ((⟨vA, 0, 0, 0⟩ : Vec4 R).scale k)
      ((⟨vB * M.cos (θdeg * M.pi / 180), vB * M.sin (θdeg * M.pi / 180), 0, 0⟩ : Vec4 R).scale k)
      / (vA * k * (vB * k)) = M.cos (θdeg * M.pi / 180) := by
    simp only [dotProduct, Vec4.scale]
    field_simp
    ring
  rw [hdot]
  obtain ⟨hc1, hc2⟩ := JsMath.Exact.abs_cos_le M hM (θdeg * M.pi / 180)
  rw [min_eq_right hc2, max_eq_right hc1, hM.acos_cos _ (by positivity) (by
    rw [div_le_iff₀ (by norm_num : (0 : R) < 180)]
    nlinarith)]
  field_simp

/-- The sum of squares under the root of `magnitude` is not negative. -/
theorem sumSquares_nonneg (v : Vec4 R) :
    0 ≤ 0 + v.x0 * v.x0 + v.x1 * v.x1 + v.x2 * v.x2 + v.x3 * v.x3 := by
  nlinarith [mul_self_nonneg v.x0, mul_self_nonneg v.x1, mul_self_nonneg v.x2,
    mul_self_nonneg v.x3]

/-- The magnitude of the zero vector is zero. -/
theorem magnitude_zero (M : JsMath R) (hM : M.Exact) : magnitude M Vec4.zero = 0 := by
  have h := hM.sqrt_mul_self 0 (le_refl _)
  simpa [magnitude, Vec4.zero] using h

/-- Two vectors with dot product zero are measured at 90°. -/
theorem angleBetween_of_dot_zero (M : JsMath R) (hM : M.Exact) (v w : Vec4 R)
    (hd : dotProduct v w = 0) : angleBetween M v w = 90 := by
  unfold angleBetween
  simp only [hd]
  split
  · rfl
  · have hpi := hM.pi_pos
    simp only [zero_div]
    rw [min_eq_right (by norm_num), max_eq_right (by norm_num), hM.acos_zero]
    field_simp
    ring

/-- With exact primitives (`JsMath.Exact`): for every vector other than the
zero vector the angle with itself is 0°, and for every vector the angle with
the zero vector is 90°.  The first half is a statement of exact arithmetic; in
doubles the quotient `dot / (mag1 * mag2)` may round below 1. -/
theorem angleBetween_self_exact (M : JsMath R) (hM : M.Exact) (v : Vec4 R) :
    (v ≠ Vec4.zero → angleBetween M v v = 0) ∧ angleBetween M v Vec4.zero = 90 := by
  constructor
  · intro hv
    have hs := sumSquares_nonneg v
    have hpos : 0 + v.x0 * v.x0 + v.x1 * v.x1 + v.x2 * v.x2 + v.x3 * v.x3 ≠ 0 := by
      intro h0
      apply hv
      have h0' : v.x0 * v.x0 + v.x1 * v.x1 + v.x2 * v.x2 + v.x3 * v.x3 = 0 := by linarith
      have e0 : v.x0 = 0 := by
        nlinarith [mul_self_nonneg v.x0, mul_self_nonneg v.x1, mul_self_nonneg v.x2,
          mul_self_nonneg v.x3]
      have e1 : v.x1 = 0 := by
        nlinarith [mul_self_nonneg v.x0, mul_self_nonneg v.x1, mul_self_nonneg v.x2,
          mul_self_nonneg v.x3]
      have e2 : v.x2 = 0 := by
        nlinarith [mul_self_nonneg v.x0, mul_self_nonneg v.x1, mul_self_nonneg v.x2,
          mul_self_nonneg v.x3]
      have e3 : v.x3 = 0 := by
        nlinarith [mul_self_nonneg v.x0, mul_self_nonneg v.x1, mul_self_nonneg v.x2,
          mul_self_nonneg v.x3]
      cases v
      simp only [Vec4.zero, Vec4.mk.injEq]
      exact ⟨e0, e1, e2, e3⟩
    have hmm := hM.mul_self_sqrt _ hs
    have hmag : magnitude M v ≠ 0 := by
      intro h0
      unfold magnitude at h0
      rw [h0, mul_zero] at hmm
      exact hpos hmm.symm
    unfold angleBetween
    simp only [hmag, or_self, if_false]
    have hdot : dotProduct v v / (magnitude M v * magnitude M v) = 1 := by
      unfold magnitude dotProduct
      rw [hmm]
      exact div_self hpos
    rw [hdot, min_self, max_eq_right (by norm_num), hM.acos_one, zero_mul]
  · unfold angleBetween
    simp [magnitude_zero M hM]

/-- C18 (amended): for every vector `v` the angle between `v` and the zero
vector is exactly 90°, in either order and for the zero vector itself too (so
the angle of the zero vector with itself is 90°); this needs only that the
square root of 0 is 0. -/
theorem angleBetween_zero_vector (M : JsMath R) (h0 : M.sqrt 0 = 0) (v : Vec4 R) :
    angleBetween M v Vec4.zero = 90 ∧ angleBetween M Vec4.zero v = 90 ∧
      angleBetween M (Vec4.zero : Vec4 R) Vec4.zero = 90 := by
  have hz : magnitude M (Vec4.zero : Vec4 R) = 0 := by
    simpa [magnitude, Vec4.zero] using h0
  refine ⟨?_, ?_, ?_⟩ <;>
  · unfold angleBetween
    simp [hz]

end GeometryTheorems

/-- C18 (counterexample): the angle of the zero vector with itself is 90°, not 0°. -/
theorem angleBetween_zero_zero_ne :
    ¬ (∀ v : Vec4 ℝ, angleBetween realMath v v = 0) := by
  intro h
  have h0 := h Vec4.zero
  have h90 : angleBetween realMath (Vec4.zero : Vec4 ℝ) Vec4.zero = 90 := by
    unfold angleBetween
    simp [magnitude_zero realMath realMath_exact]
  rw [h90] at h0
  norm_num at h0

/-- C18 (witness): the vector (1, 2, 3, 4) with the real primitives. -/
theorem angleBetween_zero_vector_witness :
    realMath.sqrt 0 = 0 ∧ angleBetween realMath ⟨1, 2, 3, 4⟩ Vec4.zero = 90 :=
  ⟨Real.sqrt_zero, (angleBetween_zero_vector realMath Real.sqrt_zero ⟨1, 2, 3, 4⟩).1⟩

/-! ### The pair sublog -/

section SublogTheorems

/-- `orderedInsert` depends only on the comparisons with the members of the list. -/
theorem orderedInsert_congr {α : Type} (r s : α → α → Prop) [DecidableRel r] [DecidableRel s]
    (a : α) (l : List α) (h : ∀ b ∈ l, r a b ↔ s a b) :
    l.orderedInsert r a = l.orderedInsert s a := by
  induction l with
  | nil => rfl
  | cons b bs ih =>
    have hb : r a b ↔ s a b := h b (List.mem_cons_self _ _)
    simp only [List.orderedInsert]
    by_cases hr : r a b
    · rw [if_pos hr, if_pos (hb.1 hr)]
    · rw [if_neg hr, if_neg (fun hs => hr (hb.2 hs)),
        ih (fun x hx => h x (List.mem_cons_of_mem _ hx))]

/-- `insertionSort` depends only on the comparisons between members of the list. -/
theorem insertionSort_congr {α : Type} (r s : α → α → Prop) [DecidableRel r] [DecidableRel s]
    (l : List α) (h : ∀ a ∈ l, ∀ b ∈ l, r a b ↔ s a b) :
    l.insertionSort r = l.insertionSort s := by
  induction l with
  | nil => rfl
  | cons a as ih =>
    simp only [List.insertionSort]
    rw [ih (fun x hx y hy => h x (List.mem_cons_of_mem _ hx) y (List.mem_cons_of_mem _ hy))]
    exact orderedInsert_congr r s a _ (fun b hb =>
      h a (List.mem_cons_self _ _) b
        (List.mem_cons_of_mem _ ((List.perm_insertionSort s as).mem_iff.1 hb)))

/-- On events whose timestamps parse, the comparator orders by milliseconds. -/
theorem timeLe_iff_ms (a b : Event) (ha : ∃ ms, a.timestamp = Timestamp.at ms)
    (hb : ∃ ms, b.timestamp = Timestamp.at ms) : timeLe a b ↔ a.ms ≤ b.ms := by
  obtain ⟨x, hx⟩ := ha
  obtain ⟨y, hy⟩ := hb
  simp [timeLe, Event.ms, Event.time, hx, hy]

/-- Membership in the pair sublog: the events of the global list between the
two ids, in either direction. -/
theorem mem_initializePairLogger (agentAId agentBId : String) (allEvents : List Event)
    (e : Event) :
    e ∈ initializePairLogger agentAId agentBId allEvents ↔
      e ∈ allEvents ∧ ((e.sender = some agentAId ∧ e.receiver = some agentBId) ∨
        (e.sender = some agentBId ∧ e.receiver = some agentAId)) := by
  unfold initializePairLogger
  rw [(List.perm_insertionSort _ _).mem_iff, List.mem_filter]
  simp

/-- The pair sublog of a validated list is sorted by time. -/
theorem initializePairLogger_sorted (agentAId agentBId : String) (allEvents : List Event)
    (hv : ValidTimes allEvents) :
    List.Sorted (fun a b : Event => a.ms ≤ b.ms)
      (initializePairLogger agentAId agentBId allEvents) := by
  unfold initializePairLogger
  rw [insertionSort_congr timeLe (fun a b : Event => a.ms ≤ b.ms) _ (fun a ha b hb =>
    timeLe_iff_ms a b (hv a (List.mem_filter.1 ha).1) (hv b (List.mem_filter.1 hb).1))]
  haveI : IsTotal Event (fun a b : Event => a.ms ≤ b.ms) := ⟨fun a b => le_total a.ms b.ms⟩
  haveI : IsTrans Event (fun a b : Event => a.ms ≤ b.ms) :=
    ⟨fun a b c hab hbc => le_trans hab hbc⟩
  exact List.sorted_insertionSort _ _

/-- In a list sorted by time the first event is not later than the last. -/
theorem sorted_head_le_getLast (e : Event) (es : List Event)
    (h : List.Sorted (fun a b : Event => a.ms ≤ b.ms) (e :: es)) :
    e.ms ≤ ((e :: es).getLast (List.cons_ne_nil e es)).ms := by
  cases es with
  | nil => exact le_refl _
  | cons y ys =>
    have hmem : (e :: y :: ys).getLast (List.cons_ne_nil e (y :: ys)) ∈ y :: ys := by
      rw [List.getLast_cons (List.cons_ne_nil y ys)]
      exact List.getLast_mem _
    exact List.rel_of_sorted_cons h _ hmem

end SublogTheorems

/-! ### Quantities of the geometry -/

section QuantityTheorems

variable {R : Type} [LinearOrderedField R] [FloorRing R]

/-- A running maximum is at least its initial value. -/
theorem le_foldl_max (f : String → R) (l : List String) (init : R) :
    init ≤ l.foldl (fun mx t => max mx (f t)) init := by
  induction l generalizing init with
  | nil => exact le_refl _
  | cons t ts ih => exact le_trans (le_max_left _ _) (ih (max init (f t)))

/-- For a span that is not negative, `valA` is between 1 and 5. -/
theorem valAOf_bounds (M : JsMath R) (hM : M.Exact) (x : R) (hx : 0 ≤ x) :
    1 ≤ valAOf M (JsNum.num x) ∧ valAOf M (JsNum.num x) ≤ 5 := by
  have hpos : (0 : R) < x + 1 := by linarith
  have hlog : 0 ≤ M.log2 (x + 1) := hM.log2_nonneg _ (by linarith)
  have hceil : (0 : ℤ) ≤ ⌈M.log2 (x + 1)⌉ := Int.ceil_nonneg hlog
  unfold valAOf quantizeTime
  simp only [JsNum.add_num, jsLog2, if_pos hpos, JsNum.ceil, JsNum.num_orElse]
  by_cases h0 : ((⌈M.log2 (x + 1)⌉ : ℤ) : R) = 0
  · rw [if_pos h0]
    simp only [JsNum.min_num]
    constructor
    · exact le_min (by norm_num) (le_refl _)
    · exact min_le_left _ _
  · rw [if_neg h0]
    simp only [JsNum.min_num]
    have h1 : (1 : ℤ) ≤ ⌈M.log2 (x + 1)⌉ := by
      have : ⌈M.log2 (x + 1)⌉ ≠ 0 := fun h => h0 (by rw [h]; simp)
      omega
    have h1R : (1 : R) ≤ ((⌈M.log2 (x + 1)⌉ : ℤ) : R) := by exact_mod_cast h1
    constructor
    · exact le_min (by norm_num) h1R
    · exact min_le_left _ _

/-- When an event of the latest session carries a reaction, `valB` is between
1 and 5. -/
theorem valBOf_bounds (multipliers : String → Option R) (latest : Session)
    (h : latest.logs.any (fun l => l.hasReactions) = true) :
    1 ≤ valBOf multipliers latest ∧ valBOf multipliers latest ≤ 5 := by
  have hw : (0 : R) ≤ latest.types.foldl
      (fun mx t => max mx (typeMultiplier multipliers t)) 0 := le_foldl_max _ _ _
  have hq : (1 : R) ≤ quantizePayload multipliers latest ∧
      quantizePayload multipliers latest ≤ 5 := by
    unfold quantizePayload
    simp only [h, if_true]
    have hc : (1 : ℤ) ≤ ⌈latest.types.foldl
        (fun mx t => max mx (typeMultiplier multipliers t)) 0 + 1⌉ := by
      have : (0 : ℤ) < ⌈latest.types.foldl
          (fun mx t => max mx (typeMultiplier multipliers t)) 0 + 1⌉ :=
        Int.ceil_pos.2 (by linarith)
      omega
    have hcR : (1 : R) ≤ ((⌈latest.types.foldl
        (fun mx t => max mx (typeMultiplier multipliers t)) 0 + 1⌉ : ℤ) : R) := by
      exact_mod_cast hc
    exact ⟨le_min (by norm_num) hcR, min_le_left _ _⟩
  unfold valBOf
  have hne : quantizePayload multipliers latest ≠ 0 := by
    intro h0
    rw [h0] at hq
    linarith [hq.1]
  simp only [if_neg hne]
  exact hq

/-- When every session holds a privileged type, the ratio is 1. -/
theorem coRatioOf_eq_one (BIASED : List String) (sessions : List Session)
    (hne : sessions ≠ [])
    (h : ∀ s ∈ sessions, s.types.any (fun t => decide (t ∈ BIASED)) = true) :
    (coRatioOf BIASED sessions : R) = 1 := by
  unfold coRatioOf highResSessions
  rw [List.filter_eq_self.2 h]
  have : (sessions.length : R) ≠ 0 := by
    have := List.length_pos.2 hne
    exact_mod_cast this.ne'
  exact div_self this

/-- A geometry measured with γ within the angle tolerance of 120° is classified
as 23, 20 or 17, and its symmetry score is a number between 17/23 and 1. -/
theorem analyzeVectors_of_is120 (M : JsMath R) (tolerance angleTolerance : Option R)
    (a b c d : Vec4 R)
    (hang : 0 < (Classifier.new tolerance angleTolerance).angleTolerance)
    (hγ : |angleBetween M a b - 120| < (Classifier.new tolerance angleTolerance).angleTolerance) :
    ((Classifier.new tolerance angleTolerance).analyzeVectors M a b c d none none).categoryId
        ∈ [23, 20, 17] ∧
      ∃ s, ((Classifier.new tolerance angleTolerance).analyzeVectors M a b c d none
          none).symmetryScore = JsNum.num s ∧ 17 / 23 ≤ s ∧ s ≤ 1 := by
  have h120 : ((Classifier.new tolerance angleTolerance).symOf M a b c d none none).is120
      (measureAngles M a b c d).γ = true := by
    simp only [Classifier.symOf, Classifier.createSymmetryMap, measureAngles, Option.getD_none]
    exact decide_eq_true hγ
  have hdev : 0 ≤ (Classifier.new tolerance angleTolerance).deviation := by
    have h1 : (Classifier.new tolerance angleTolerance).deviation
        = (Classifier.new tolerance angleTolerance).angleTolerance * 0.01 := rfl
    rw [h1]
    have : (0 : R) < 0.01 := by norm_num
    positivity
  unfold Classifier.analyzeVectors
  simp only [matched_new_eq]
  rcases find_taxonomy_cases (measureLengths M a b c d) (measureAngles M a b c d)
    ((Classifier.new tolerance angleTolerance).symOf M a b c d none none) with
    h | h | h | h | h | h | h | h
  · rw [h.1]
    obtain ⟨s, h1, h2, -, h4⟩ := calculateSymmetryScore_bounds M
      (Classifier.new tolerance angleTolerance) hypercubic (measureLengths M a b c d)
      (measureAngles M a b c d) "equal" (Ideals.ofAll (JsVal.number 90)) _
      (by simp [hypercubic]) rfl (totalDev_all90 _) hang.ne' hdev
    refine ⟨by simp [hypercubic], s, h1, ?_, h4⟩
    have : (1 : R) ≤ s := by simpa [hypercubic] using h2
    linarith [show (17 / 23 : R) ≤ 1 by norm_num]
  · rw [h.1]
    obtain ⟨s, h1, h2, -, h4⟩ := calculateSymmetryScore_bounds M
      (Classifier.new tolerance angleTolerance) hexagonal (measureLengths M a b c d)
      (measureAngles M a b c d) "equal" _ _
      (by simp [hexagonal]) rfl (totalDev_gamma120 _) hang.ne' hdev
    refine ⟨by simp [hexagonal], s, h1, ?_, h4⟩
    have h3 : min (1 : R) (((20 : ℕ) : R) / 23) ≤ s := h2
    have h5 : (17 / 23 : R) ≤ min (1 : R) (((20 : ℕ) : R) / 23) := by
      apply le_min <;> norm_num
    linarith
  · rw [h.1]
    obtain ⟨s, h1, h2, -, h4⟩ := calculateSymmetryScore_bounds M
      (Classifier.new tolerance angleTolerance) trigonal (measureLengths M a b c d)
      (measureAngles M a b c d) "unequal" _ _
      (by simp [trigonal]) rfl (totalDev_gamma120 _) hang.ne' hdev
    refine ⟨by simp [trigonal], s, h1, ?_, h4⟩
    have h3 : min (1 : R) (((17 : ℕ) : R) / 23) ≤ s := h2
    have h5 : (17 / 23 : R) ≤ min (1 : R) (((17 : ℕ) : R) / 23) := by
      apply le_min <;> norm_num
    linarith
  all_goals
    exfalso
    simp_all

end QuantityTheorems

/-! ### The geometry of a sorted, validated log -/

section PairGeometryTheorems

variable {R : Type} [LinearOrderedField R] [FloorRing R]

/-- The time of an event whose timestamp parses. -/
theorem Event.time_eq_ms (e : Event) (h : ∃ ms, e.timestamp = Timestamp.at ms) :
    e.time = some e.ms := by
  obtain ⟨x, hx⟩ := h
  simp [Event.ms, Event.time, hx]

/-- A validated log sorted by time with two sessions or more has a geometry:
it is built from a span that is not negative, the last session, and the ratio
of sessions that hold a privileged type. -/
theorem generateVectorsFromHistory_sorted (M : JsMath R) (BIASED : List String)
    (multipliers : String → Option R) (q : Event → Prop) (logs : List Event)
    (hq : ∀ e ∈ logs, q e) (hv : ValidTimes logs)
    (hs : List.Sorted (fun a b : Event => a.ms ≤ b.ms) logs)
    (h2 : 2 ≤ (groupSessions logs).length) :
    ∃ (latest : Session) (span : R), 0 ≤ span ∧
      (∀ s ∈ groupSessions logs, SessionOK q s) ∧ latest ∈ groupSessions logs ∧
      generateVectorsFromHistory M BIASED multipliers logs =
        some (geometryOf M (valAOf M (JsNum.num span)) (valBOf multipliers latest)
          (JsNum.num span) (angleDegOf (coRatioOf BIASED (groupSessions logs))
            (JsNum.num span))) := by
  cases logs with
  | nil => simp [groupSessions] at h2
  | cons e es =>
    obtain ⟨ss2, cur2, hg, hok, hend, hstart⟩ := groupSessions_cons_spec q e es hq
    obtain ⟨first, hfirst, hfs⟩ := Option.map_eq_some'.1 hstart
    have hlast : (groupSessions (e :: es)).getLast? = some cur2 := by
      rw [hg]; simp
    have hhead : (groupSessions (e :: es)).head? = some first := by
      rw [hg]; exact hfirst
    have hte : e.time = some e.ms := Event.time_eq_ms e (hv e (List.mem_cons_self _ _))
    have htl : ((e :: es).getLast (List.cons_ne_nil e es)).time
        = some ((e :: es).getLast (List.cons_ne_nil e es)).ms :=
      Event.time_eq_ms _ (hv _ (List.getLast_mem _))
    have hle := sorted_head_le_getLast e es hs
    have hspan : totalSpanOf first cur2 = JsNum.num
        (((((e :: es).getLast (List.cons_ne_nil e es)).ms - e.ms : ℤ) : R)
          / ((1000 * 60 * DAYS * 24 : ℤ) : R)) := by
      simp [totalSpanOf, timeDiffOver, hend, htl, hfs, hte]
    refine ⟨cur2, ((((e :: es).getLast (List.cons_ne_nil e es)).ms - e.ms : ℤ) : R)
          / ((1000 * 60 * DAYS * 24 : ℤ) : R), ?_, ?_, ?_, ?_⟩
    · apply div_nonneg
      · exact_mod_cast sub_nonneg.2 hle
      · simp [DAYS]
    · rw [hg]; exact hok
    · rw [hg]; simp
    · unfold generateVectorsFromHistory
      simp only [not_lt.2 h2, if_false, hhead, hlast, hspan]

end PairGeometryTheorems

/-! ### The synchronisation score -/

section ScoreTheorems

variable {R : Type} [LinearOrderedField R] [FloorRing R]

/-- `x || 0` followed by a product is the product. -/
theorem orElse_zero_mul (x k : R) :
    ((JsNum.num x).orElse (JsNum.num 0)).mul (JsNum.num k) = JsNum.num (x * k) := by
  rw [JsNum.num_orElse]
  by_cases h : x = 0
  · simp [h]
  · simp [h]

/-- The synchronisation score when the symmetry score is a number and the
global event list is not empty. -/
theorem calculateSynchronizationScore_eq (F : Formats R) (allEvents : List Event)
    (cl : Classification R) (g : JointManifold R) (s : R)
    (hs : cl.symmetryScore = JsNum.num s) (hne : allEvents ≠ []) :
    calculateSynchronizationScore F allEvents cl g = JsNum.num (max 0 (min 1
      (s * 0.45 + g.directionalMetrics.directionalBalance * 0.25
        + ((allEvents.filter (fun e => e.isHighRes F.BIASED)).length : R)
          / (allEvents.length : R) * 0.25))) := by
  have hlen : (allEvents.length : R) ≠ 0 := by
    have := List.length_pos.2 hne
    exact_mod_cast this.ne'
  unfold calculateSynchronizationScore
  simp only [hs, orElse_zero_mul, JsNum.div_num _ hlen, JsNum.mul_num, JsNum.add_num,
    JsNum.min_num, JsNum.max_num]

/-- The results of `analyze` when the joint manifold exists. -/
theorem Sync.analyze_of_some (M : JsMath R) (F : Formats R) (o : Options R)
    (allEvents : List Event) (p : Sync) (g : JointManifold R)
    (hg : p.calculateJointManifold M F o = some g) :
    (p.analyze M F o allEvents).synchronizationScore =
        calculateSynchronizationScore F allEvents
          (o.classifier.analyzeVectors M g.a g.b g.c g.d none none) g ∧
      (p.analyze M F o allEvents).syncState =
        phaseOf (calculateSynchronizationScore F allEvents
          (o.classifier.analyzeVectors M g.a g.b g.c g.d none none) g) ∧
      (p.analyze M F o allEvents).geoId =
        (o.classifier.analyzeVectors M g.a g.b g.c g.d none none).categoryId := by
  unfold Sync.analyze
  rw [hg]
  exact ⟨rfl, rfl, rfl⟩

/-- The balance of two equal non-zero direction counts is exactly 1. -/
theorem directionalBalance_eq_one (p : Sync)
    (hbal : (directed p.agentAId p.agentBId p.logs).length
      = (directed p.agentBId p.agentAId p.logs).length)
    (hne : (directed p.agentAId p.agentBId p.logs).length ≠ 0) :
    (p.calculateDirectionalMetrics : DirectionalMetrics R).directionalBalance = 1 := by
  unfold Sync.calculateDirectionalMetrics
  simp only [← hbal, min_self, max_self]
  rw [if_pos (by omega)]
  exact div_self (by exact_mod_cast hne)

/-- The score of a balanced pair whose events are all privileged and reacted:
balance 1, phase ENTANGLED, score at least 0.8. -/
theorem sync_of_balanced_privileged (M : JsMath R) (hM : M.Exact) (F : Formats R)
    (o : Options R) (allEvents : List Event) (agentAId agentBId : String)
    (hang : 0 < o.classifier.angleTolerance)
    (hB : ∀ t ∈ F.BIASED, t ≠ "" ∧ toUpperCase t = t)
    (hvalid : ValidTimes allEvents)
    (hpair : ∀ e ∈ allEvents, (e.sender = some agentAId ∧ e.receiver = some agentBId) ∨
      (e.sender = some agentBId ∧ e.receiver = some agentAId))
    (hpriv : ∀ e ∈ allEvents, (∃ t, e.type = some t ∧ t ∈ F.BIASED) ∧ e.hasReactions = true)
    (hsess : 2 ≤ (groupSessions (Sync.new agentAId agentBId allEvents).logs).length)
    (hbal : (directed agentAId agentBId (Sync.new agentAId agentBId allEvents).logs).length
      = (directed agentBId agentAId (Sync.new agentAId agentBId allEvents).logs).length)
    (hne : (directed agentAId agentBId (Sync.new agentAId agentBId allEvents).logs).length
      ≠ 0) :
    ((Sync.new agentAId agentBId allEvents).calculateDirectionalMetrics :
        DirectionalMetrics R).directionalBalance = 1 ∧
      (((Sync.new agentAId agentBId allEvents).analyze M F o allEvents).syncState = "ALIGNED" ∨
        ((Sync.new agentAId agentBId allEvents).analyze M F o allEvents).syncState
          = "ENTANGLED") ∧
      ∃ s, ((Sync.new agentAId agentBId allEvents).analyze M F o
          allEvents).synchronizationScore = JsNum.num s ∧ 0.6 ≤ s := by
  have hb1 : ((Sync.new agentAId agentBId allEvents).calculateDirectionalMetrics :
      DirectionalMetrics R).directionalBalance = 1 :=
    directionalBalance_eq_one _ hbal hne
  have hmem : ∀ e ∈ (Sync.new agentAId agentBId allEvents).logs, e ∈ allEvents := fun e he =>
    ((mem_initializePairLogger agentAId agentBId allEvents e).1 he).1
  obtain ⟨latest, span, hspan, hok, hlat, hgen⟩ := generateVectorsFromHistory_sorted M F.BIASED
    (o.multipliers F) (fun e => e ∈ allEvents) (Sync.new agentAId agentBId allEvents).logs hmem
    (fun e he => hvalid e (hmem e he))
    (initializePairLogger_sorted agentAId agentBId allEvents hvalid) hsess
  -- every session holds a privileged type, the latest one a reaction
  have hsessB : ∀ s ∈ groupSessions (Sync.new agentAId agentBId allEvents).logs,
      s.types.any (fun t => decide (t ∈ F.BIASED)) = true := by
    intro s hs
    obtain ⟨-, -, hne, htypes⟩ := hok s hs
    obtain ⟨t, ht⟩ := List.exists_mem_of_ne_nil _ hne
    obtain ⟨e, he, hte⟩ := htypes t ht
    obtain ⟨⟨ty, hty, htyB⟩, -⟩ := hpriv e he
    obtain ⟨hne2, hup⟩ := hB ty htyB
    rw [List.any_eq_true]
    refine ⟨t, ht, decide_eq_true ?_⟩
    rw [hte]
    simp only [Event.typeTag, hty, if_neg hne2, hup]
    exact htyB
  have hreact : latest.logs.any (fun l => l.hasReactions) = true := by
    obtain ⟨hne, hlogs, -, -⟩ := hok latest hlat
    obtain ⟨e, he⟩ := List.exists_mem_of_ne_nil _ hne
    rw [List.any_eq_true]
    exact ⟨e, he, (hpriv e (hlogs e he)).2⟩
  have hco : (coRatioOf F.BIASED (groupSessions (Sync.new agentAId agentBId allEvents).logs)
      : R) = 1 :=
    coRatioOf_eq_one _ _ (List.ne_nil_of_mem hlat) hsessB
  have hAng : angleDegOf (1 : R) (JsNum.num span) = 120 := by
    simp only [angleDegOf]
    norm_num
  rw [hco, hAng] at hgen
  obtain ⟨hA1, -⟩ := valAOf_bounds M hM span hspan
  obtain ⟨hB1, -⟩ := valBOf_bounds (o.multipliers F) latest hreact
  -- the joint manifold: boost 1
  have hjm : (Sync.new agentAId agentBId allEvents).calculateJointManifold M F o = some
      { a := (⟨valAOf M (JsNum.num span), 0, 0, 0⟩ : Vec4 R).scale 1.0,
        b := (⟨valBOf (o.multipliers F) latest * M.cos (120 * M.pi / 180),
               valBOf (o.multipliers F) latest * M.sin (120 * M.pi / 180), 0, 0⟩ :
               Vec4 R).scale 1.0,
        c := ⟨0, 0, valBOf (o.multipliers F) latest, 0⟩,
        d := ⟨0, 0, 0, valBOf (o.multipliers F) latest⟩,
        directionalMetrics := (Sync.new agentAId agentBId allEvents).calculateDirectionalMetrics,
        totalSpan := JsNum.num span, angleDeg := 120 } := by
    unfold Sync.calculateJointManifold
    rw [hgen]
    simp only [hb1, geometryOf]
    rw [if_pos (by unfold RECIP_LIMIT; norm_num)]
  obtain ⟨hscore, hstate, -⟩ := Sync.analyze_of_some M F o allEvents _ _ hjm
  have hγ : angleBetween M ((⟨valAOf M (JsNum.num span), 0, 0, 0⟩ : Vec4 R).scale 1.0)
      ((⟨valBOf (o.multipliers F) latest * M.cos (120 * M.pi / 180),
         valBOf (o.multipliers F) latest * M.sin (120 * M.pi / 180), 0, 0⟩ : Vec4 R).scale 1.0)
      = 120 :=
    angleBetween_scaled_ab M hM _ _ _ 120 (by linarith) (by linarith) (by norm_num)
      (by norm_num) (by norm_num)
  obtain ⟨-, s, hs, hs1, hs2⟩ := analyzeVectors_of_is120 M o.tolerance o.angleTolerance
    ((⟨valAOf M (JsNum.num span), 0, 0, 0⟩ : Vec4 R).scale 1.0)
    ((⟨valBOf (o.multipliers F) latest * M.cos (120 * M.pi / 180),
       valBOf (o.multipliers F) latest * M.sin (120 * M.pi / 180), 0, 0⟩ : Vec4 R).scale 1.0)
    ⟨0, 0, valBOf (o.multipliers F) latest, 0⟩ ⟨0, 0, 0, valBOf (o.multipliers F) latest⟩ hang
    (by rw [hγ]; simpa using hang)
  have hnonempty : allEvents ≠ [] := by
    obtain ⟨hne1, -⟩ := hok latest hlat
    obtain ⟨e, he⟩ := List.exists_mem_of_ne_nil _ hne1
    exact List.ne_nil_of_mem ((hok latest hlat).2.1 e he)
  have hall : allEvents.filter (fun e => e.isHighRes F.BIASED) = allEvents := by
    rw [List.filter_eq_self]
    intro e he
    simp [Event.isHighRes, (hpriv e he).2]
  have hlen : (allEvents.length : R) ≠ 0 := by
    have := List.length_pos.2 hnonempty
    exact_mod_cast this.ne'
  have hval := calculateSynchronizationScore_eq F allEvents _
    { a := (⟨valAOf M (JsNum.num span), 0, 0, 0⟩ : Vec4 R).scale 1.0,
      b := (⟨valBOf (o.multipliers F) latest * M.cos (120 * M.pi / 180),
             valBOf (o.multipliers F) latest * M.sin (120 * M.pi / 180), 0, 0⟩ :
             Vec4 R).scale 1.0,
      c := ⟨0, 0, valBOf (o.multipliers F) latest, 0⟩,
      d := ⟨0, 0, 0, valBOf (o.multipliers F) latest⟩,
      directionalMetrics := (Sync.new agentAId agentBId allEvents).calculateDirectionalMetrics,
      totalSpan := JsNum.num span, angleDeg := 120 } s hs hnonempty
  simp only [hb1, hall, div_self hlen] at hval
  have h08 : (0.8 : R) ≤ max 0 (min 1 (s * 0.45 + 1 * 0.25 + 1 * 0.25)) := by
    apply le_max_of_le_right
    apply le_min
    · norm_num
    · have : (17 / 23 : R) * 0.45 + 1 * 0.25 + 1 * 0.25 ≤ s * 0.45 + 1 * 0.25 + 1 * 0.25 := by
        have h45 : (0 : R) ≤ 0.45 := by norm_num
        nlinarith
      have h2 : (0.8 : R) ≤ (17 / 23 : R) * 0.45 + 1 * 0.25 + 1 * 0.25 := by norm_num
      linarith
  have hfinal := hscore.trans hval
  refine ⟨hb1, Or.inr ?_, _, hfinal, ?_⟩
  · rw [hstate, ← hscore, hfinal]
    unfold phaseOf
    rw [JsNum.ge_num, if_pos (decide_eq_true h08)]
  · have : (0.6 : R) ≤ 0.8 := by norm_num
    linarith

/-- C6: for a global list of validated events that are all between A and B,
all of a privileged type and with reactions (the privileged tags being non-empty
upper-case strings), whose sublog forms two sessions or more with the same
non-zero number of events in each direction, and for a positive angle
tolerance: the directional balance is exactly 1, and `analyze` returns the phase
ALIGNED or ENTANGLED with a synchronisation score of at least 0.6. -/
theorem analyze_balanced_privileged (M : JsMath R) (hM : M.Exact) (F : Formats R)
    (o : Options R) (allEvents : List Event) (agentAId agentBId : String)
    (hang : 0 < o.classifier.angleTolerance)
    (hB : ∀ t ∈ F.BIASED, t ≠ "" ∧ toUpperCase t = t)
    (hvalid : ValidTimes allEvents)
    (hpair : ∀ e ∈ allEvents, (e.sender = some agentAId ∧ e.receiver = some agentBId) ∨
      (e.sender = some agentBId ∧ e.receiver = some agentAId))
    (hpriv : ∀ e ∈ allEvents, (∃ t, e.type = some t ∧ t ∈ F.BIASED) ∧ e.hasReactions = true)
    (hsess : 2 ≤ (groupSessions (Sync.new agentAId agentBId allEvents).logs).length)
    (hbal : (directed agentAId agentBId (Sync.new agentAId agentBId allEvents).logs).length
      = (directed agentBId agentAId (Sync.new agentAId agentBId allEvents).logs).length)
    (hne : (directed agentAId agentBId (Sync.new agentAId agentBId allEvents).logs).length
      ≠ 0) :
    ((Sync.new agentAId agentBId allEvents).calculateDirectionalMetrics :
        DirectionalMetrics R).directionalBalance = 1 ∧
      (((Sync.new agentAId agentBId allEvents).analyze M F o allEvents).syncState = "ALIGNED" ∨
        ((Sync.new agentAId agentBId allEvents).analyze M F o allEvents).syncState
          = "ENTANGLED") ∧
      ∃ s, ((Sync.new agentAId agentBId allEvents).analyze M F o
          allEvents).synchronizationScore = JsNum.num s ∧ 0.6 ≤ s :=
  sync_of_balanced_privileged M hM F o allEvents agentAId agentBId hang hB hvalid hpair hpriv
    hsess hbal hne

end ScoreTheorems

/-- C6 (witness): scenario A with the real primitives and the default tolerances. -/
theorem analyze_balanced_privileged_witness :
    ((Sync.new "A" "B" scenarioA).calculateDirectionalMetrics :
        DirectionalMetrics ℝ).directionalBalance = 1 ∧
      (((Sync.new "A" "B" scenarioA).analyze realMath (videoFormats ℝ) (noOptions ℝ)
          scenarioA).syncState = "ALIGNED" ∨
        ((Sync.new "A" "B" scenarioA).analyze realMath (videoFormats ℝ) (noOptions ℝ)
          scenarioA).syncState = "ENTANGLED") ∧
      ∃ s, ((Sync.new "A" "B" scenarioA).analyze realMath (videoFormats ℝ) (noOptions ℝ)
          scenarioA).synchronizationScore = JsNum.num s ∧ 0.6 ≤ s :=
  analyze_balanced_privileged realMath realMath_exact (videoFormats ℝ) (noOptions ℝ) scenarioA
    "A" "B"
    (by simp only [Options.classifier, Classifier.new, noOptions, Option.getD_none]; norm_num)
    (by
      intro t ht
      have : t = "VIDEO" := by simpa [videoFormats] using ht
      subst this
      decide)
    (by
      intro e he
      simp only [scenarioA, mkEvent, List.mem_cons, List.mem_singleton, List.not_mem_nil,
        or_false] at he
      rcases he with rfl | rfl | rfl | rfl | rfl | rfl <;> exact ⟨_, rfl⟩)
    (by decide)
    (by
      intro e he
      simp only [scenarioA, mkEvent, List.mem_cons, List.mem_singleton, List.not_mem_nil,
        or_false] at he
      rcases he with rfl | rfl | rfl | rfl | rfl | rfl <;>
        exact ⟨⟨"VIDEO", rfl, by simp [videoFormats]⟩, rfl⟩)
    (by decide) (by decide) (by decide)

/-- Scenario A reaches a synchronisation score of at least 0.6. -/
theorem scenarioA_score :
    ∃ s, ((Sync.new "A" "B" scenarioA).analyze realMath (videoFormats ℝ) (noOptions ℝ)
        scenarioA).synchronizationScore = JsNum.num s ∧ 0.6 ≤ s :=
  (sync_of_balanced_privileged realMath realMath_exact (videoFormats ℝ) (noOptions ℝ) scenarioA
    "A" "B"
    (by simp only [Options.classifier, Classifier.new, noOptions, Option.getD_none]; norm_num)
    (by
      intro t ht
      have : t = "VIDEO" := by simpa [videoFormats] using ht
      subst this
      decide)
    (by
      intro e he
      simp only [scenarioA, mkEvent, List.mem_cons, List.mem_singleton, List.not_mem_nil,
        or_false] at he
      rcases he with rfl | rfl | rfl | rfl | rfl | rfl <;> exact ⟨_, rfl⟩)
    (by decide)
    (by
      intro e he
      simp only [scenarioA, mkEvent, List.mem_cons, List.mem_singleton, List.not_mem_nil,
        or_false] at he
      rcases he with rfl | rfl | rfl | rfl | rfl | rfl <;>
        exact ⟨⟨"VIDEO", rfl, by simp [videoFormats]⟩, rfl⟩)
    (by decide) (by decide) (by decide)).2.2

/-! ### Directional balance -/

section BalanceTheorems

variable {R : Type} [LinearOrderedField R] [FloorRing R]

/-- Range and special values of the directional balance. -/
theorem directionalBalance_props (p : Sync) :
    0 ≤ (p.calculateDirectionalMetrics : DirectionalMetrics R).directionalBalance ∧
      (p.calculateDirectionalMetrics : DirectionalMetrics R).directionalBalance ≤ 1 ∧
      ((directed p.agentAId p.agentBId p.logs).length
          = (directed p.agentBId p.agentAId p.logs).length →
        (directed p.agentAId p.agentBId p.logs).length ≠ 0 →
        (p.calculateDirectionalMetrics : DirectionalMetrics R).directionalBalance = 1) ∧
      ((directed p.agentAId p.agentBId p.logs).length = 0 ∨
          (directed p.agentBId p.agentAId p.logs).length = 0 →
        (p.calculateDirectionalMetrics : DirectionalMetrics R).directionalBalance = 0) := by
  refine ⟨?_, ?_, fun h1 h2 => directionalBalance_eq_one p h1 h2, ?_⟩
  · unfold Sync.calculateDirectionalMetrics
    simp only []
    split
    · exact div_nonneg (Nat.cast_nonneg _) (Nat.cast_nonneg _)
    · exact le_refl _
  · unfold Sync.calculateDirectionalMetrics
    simp only []
    split
    · rename_i hpos
      have hmax : 0 < max (directed p.agentAId p.agentBId p.logs).length
          (directed p.agentBId p.agentAId p.logs).length := by
        rcases Nat.lt_or_ge 0 (directed p.agentAId p.agentBId p.logs).length with h | h
        · exact lt_of_lt_of_le h (le_max_left _ _)
        · exact lt_of_lt_of_le (by omega) (le_max_right _ _)
      rw [div_le_one (by exact_mod_cast hmax)]
      exact_mod_cast min_le_max
    · exact zero_le_one
  · intro h
    unfold Sync.calculateDirectionalMetrics
    simp only []
    split
    · have hmin : min (directed p.agentAId p.agentBId p.logs).length
          (directed p.agentBId p.agentAId p.logs).length = 0 := by
        rcases h with h | h
        · rw [h]; exact Nat.zero_min _
        · rw [h]; exact Nat.min_zero _
      rw [hmin]
      simp
    · rfl

/-- C17: the directional balance of a pair sublog lies in `[0, 1]`, is exactly
1 when the two direction counts are equal and not zero, and is 0 when a
direction is empty (also when both are, where nothing is divided). -/
theorem directionalBalance_range (p : Sync) :
    0 ≤ (p.calculateDirectionalMetrics : DirectionalMetrics R).directionalBalance ∧
      (p.calculateDirectionalMetrics : DirectionalMetrics R).directionalBalance ≤ 1 ∧
      ((directed p.agentAId p.agentBId p.logs).length
          = (directed p.agentBId p.agentAId p.logs).length →
        (directed p.agentAId p.agentBId p.logs).length ≠ 0 →
        (p.calculateDirectionalMetrics : DirectionalMetrics R).directionalBalance = 1) ∧
      ((directed p.agentAId p.agentBId p.logs).length = 0 ∨
          (directed p.agentBId p.agentAId p.logs).length = 0 →
        (p.calculateDirectionalMetrics : DirectionalMetrics R).directionalBalance = 0) :=
  directionalBalance_props p

end BalanceTheorems

/-- C17 (witness): in scenario A the two direction counts are 3 and 3. -/
theorem directionalBalance_range_witness :
    (directed "A" "B" (Sync.new "A" "B" scenarioA).logs).length
        = (directed "B" "A" (Sync.new "A" "B" scenarioA).logs).length ∧
      (directed "A" "B" (Sync.new "A" "B" scenarioA).logs).length ≠ 0 ∧
      ((Sync.new "A" "B" scenarioA).calculateDirectionalMetrics :
        DirectionalMetrics ℝ).directionalBalance = 1 :=
  ⟨by decide, by decide,
   (directionalBalance_range (R := ℝ) (Sync.new "A" "B" scenarioA)).2.2.1 (by decide)
     (by decide)⟩

/-! ### The network: admission -/

section AdmissionTheorems

variable {R : Type} [LinearOrderedField R] [FloorRing R]

/-- C9 (failing input): for the event from `" "` to `"B"` with a valid timestamp
`addEvent` on the empty network returns `false`, yet the event has been appended
to the global log and the agent `"B"` has been registered. -/
theorem addEvent_blank_sender_mutates :
    ((Network.new (noOptions ℚ)).addEvent blankSenderEvent).2 = false ∧
      ((Network.new (noOptions ℚ)).addEvent blankSenderEvent).1.events = [blankSenderEvent] ∧
      (((Network.new (noOptions ℚ)).addEvent blankSenderEvent).1.agents.map (fun kv => kv.1))
        = ["B"] := by
  decide

/-- An event with a missing or empty endpoint, equal endpoints, or a timestamp
that does not parse is rejected and the state is left as it was. -/
theorem addEvent_rejected (net : Network R) (event : Event)
    (h : truthy event.sender = false ∨ truthy event.receiver = false ∨
      event.sender = event.receiver ∨ event.time = none) :
    net.addEvent event = (net, false) := by
  unfold Network.addEvent
  by_cases h1 : (!truthy event.sender || !truthy event.receiver ||
      decide (event.timestamp = Timestamp.absent)) = true
  · rw [if_pos h1]
  · rw [if_neg h1]
    by_cases h2 : event.sender = event.receiver
    · rw [if_pos h2]
    · rw [if_neg h2]
      by_cases h3 : event.time = none
      · rw [if_pos h3]
      · exfalso
        simp only [Bool.or_eq_true, Bool.not_eq_true', decide_eq_true_eq, not_or,
          Bool.not_eq_false] at h1
        rcases h with h | h | h | h
        · rw [h1.1.1] at h; exact Bool.noConfusion h
        · rw [h1.1.2] at h; exact Bool.noConfusion h
        · exact h2 h
        · exact h3 h

/-- A valid event between two distinct agents whose ids are not blank is
admitted: `addEvent` returns `true` and appends the event to the global log. -/
theorem addEvent_accepted (net : Network R) (event : Event) (s r : String) (ms : ℤ)
    (hs : event.sender = some s) (hr : event.receiver = some r)
    (ht : event.timestamp = Timestamp.at ms) (hne : s ≠ r)
    (hsb : isBlank s = false) (hrb : isBlank r = false) :
    (net.addEvent event).2 = true ∧ (net.addEvent event).1.events = net.events ++ [event] := by
  have hs0 : s ≠ "" := by
    rintro rfl
    simp [isBlank] at hsb
  have hr0 : r ≠ "" := by
    rintro rfl
    simp [isBlank] at hrb
  have hreg : ∀ (n : Network R) (x : String), x ≠ "" → isBlank x = false →
      (n.registerAgent x).2 = some x ∧ (n.registerAgent x).1.events = n.events := by
    intro n x hx hb
    unfold Network.registerAgent
    rw [if_neg (by simp [hx, hb])]
    split <;> exact ⟨rfl, rfl⟩
  unfold Network.addEvent
  rw [if_neg (by simp [truthy, hs, hr, ht, hs0, hr0]), if_neg (by simp [hs, hr, hne]),
    if_neg (by simp [Event.time, ht])]
  simp only [hs, hr]
  obtain ⟨h1, h1e⟩ := hreg { net with events := net.events ++ [event] } s hs0 hsb
  obtain ⟨h2, h2e⟩ := hreg ({ net with events := net.events ++ [event] }.registerAgent s).1 r
    hr0 hrb
  generalize hA : ({ net with events := net.events ++ [event] } : Network R).registerAgent s
    = A at h1 h1e h2 h2e
  obtain ⟨n2, a2⟩ := A
  generalize hB : Network.registerAgent n2 r = B at h2 h2e
  obtain ⟨n3, a3⟩ := B
  simp only at h1 h1e h2 h2e
  subst h1 h2
  simp only [h2e, h1e, and_self]

end AdmissionTheorems

/-! ### The network: clusters are never formed -/

section UnmarkedTheorems

variable {R : Type} [LinearOrderedField R] [FloorRing R]

/-- No result of `analyze` carries the property `synchronized`. -/
theorem Sync.analyze_synchronized (M : JsMath R) (F : Formats R) (o : Options R)
    (allEvents : List Event) (p : Sync) : (p.analyze M F o allEvents).synchronized = none := by
  unfold Sync.analyze
  split <;> rfl

/-- The result of `analyze` names the two ids of the synchronizer. -/
theorem Sync.analyze_agents (M : JsMath R) (F : Formats R) (o : Options R)
    (allEvents : List Event) (p : Sync) :
    (p.analyze M F o allEvents).agents = (p.agentAId, p.agentBId) := by
  unfold Sync.analyze
  split <;> rfl

/-- No result collected by the loops of `analyzeAllPairs` is marked. -/
theorem analyzeEach_unmarked (M : JsMath R) (F : Formats R) (ps : List (String × String))
    (net : Network R) (acc : List (SyncResult R)) (hacc : ∀ r ∈ acc, r.synchronized = none) :
    ∀ r ∈ (ps.foldl (fun st p =>
        ((st.1.analyzePair M F p.1 p.2).1, st.2 ++ [(st.1.analyzePair M F p.1 p.2).2]))
        (net, acc)).2, r.synchronized = none := by
  induction ps generalizing net acc with
  | nil => exact hacc
  | cons p ps ih =>
    rw [List.foldl_cons]
    apply ih
    intro r hr
    rcases List.mem_append.1 hr with hr | hr
    · exact hacc r hr
    · rw [List.mem_singleton.1 hr]
      exact Sync.analyze_synchronized _ _ _ _ _

/-- With no marked result the graph is empty and `syncClusters` becomes `[]`. -/
theorem updateSyncClusters_unmarked (net : Network R) (results : List (SyncResult R))
    (h : ∀ r ∈ results, r.synchronized = none) :
    net.updateSyncClusters results = some { net with syncClusters := [] } := by
  have hf : results.filter (fun r => r.synchronized = some true) = [] := by
    rw [List.filter_eq_nil_iff]
    intro r hr
    simp [h r hr]
  unfold Network.updateSyncClusters findClusters
  simp only [hf, List.map_nil, buildGraph, List.foldl_nil, clusterLoop, Option.map_some',
    List.insertionSort]

/-- After `analyzeAllPairs` the cluster list is empty, whatever the scores. -/
theorem analyzeAllPairs_clusters_empty (M : JsMath R) (F : Formats R) (net : Network R) :
    ∃ net2 : Network R,
      net.analyzeAllPairs M F =
        some (net2, (net.analyzeEach M F (pairsOf (net.agents.map (fun kv => kv.1)))).2) ∧
      net2.syncClusters = [] := by
  have h : ∀ r ∈ (net.analyzeEach M F (pairsOf (net.agents.map (fun kv => kv.1)))).2,
      r.synchronized = none := by
    intro r hr
    unfold Network.analyzeEach at hr
    exact analyzeEach_unmarked M F _ net [] (by simp) r hr
  unfold Network.analyzeAllPairs
  simp only []
  rw [updateSyncClusters_unmarked _ _ h]
  exact ⟨_, rfl, rfl⟩

end UnmarkedTheorems

/-- C7 (failing input): after the events of scenario A are admitted,
`analyzeAllPairs` returns for the pair (A, B) a synchronisation score of at
least 0.6, and `syncClusters` is empty: the two agents are in no cluster. -/
theorem analyzeAllPairs_scenarioA_no_cluster :
    ∃ (net2 : Network ℝ) (results : List (SyncResult ℝ)),
      ((Network.new (noOptions ℝ)).admitAll scenarioA).analyzeAllPairs realMath
          (videoFormats ℝ) = some (net2, results) ∧
      (∃ r ∈ results, r.agents = ("A", "B") ∧
        ∃ s, r.synchronizationScore = JsNum.num s ∧ 0.6 ≤ s) ∧
      net2.syncClusters = [] := by
  obtain ⟨net2, h1, h2⟩ := analyzeAllPairs_clusters_empty realMath (videoFormats ℝ)
    ((Network.new (noOptions ℝ)).admitAll scenarioA)
  refine ⟨net2, _, h1, ?_, h2⟩
  have hagents : ((Network.new (noOptions ℝ)).admitAll scenarioA).agents.map (fun kv => kv.1)
      = ["A", "B"] := by decide
  have hpairs : ((Network.new (noOptions ℝ)).admitAll scenarioA).pairs = [] := by decide
  have hevents : ((Network.new (noOptions ℝ)).admitAll scenarioA).events = scenarioA := by
    decide
  have hopts : ((Network.new (noOptions ℝ)).admitAll scenarioA).options = noOptions ℝ := rfl
  refine ⟨(Sync.new "A" "B" scenarioA).analyze realMath (videoFormats ℝ) (noOptions ℝ)
    scenarioA, ?_, Sync.analyze_agents _ _ _ _ _, scenarioA_score⟩
  rw [hagents]
  simp [Network.analyzeEach, pairsOf, Network.analyzePair, hpairs, hevents, hopts, mapHas,
    mapGet]

/-! ### Agent fingerprints and the pair registry -/

section AgentTheorems

variable {R : Type} [LinearOrderedField R] [FloorRing R]

/-- The geometry of a log in terms of its first and last session. -/
theorem generateVectorsFromHistory_eq (M : JsMath R) (BIASED : List String)
    (multipliers : String → Option R) (logs : List Event) (first latest : Session)
    (h2 : 2 ≤ (groupSessions logs).length) (hh : (groupSessions logs).head? = some first)
    (hl : (groupSessions logs).getLast? = some latest) :
    generateVectorsFromHistory M BIASED multipliers logs =
      some (geometryOf M (valAOf M (totalSpanOf first latest)) (valBOf multipliers latest)
        (totalSpanOf first latest)
        (angleDegOf (coRatioOf BIASED (groupSessions logs)) (totalSpanOf first latest))) := by
  unfold generateVectorsFromHistory
  simp only [not_lt.2 h2, if_false, hh, hl]

/-- The capacity of a fingerprint is always 1: the geometry object has no
property `valB`. -/
theorem capacity_eq_one (M : JsMath R) (F : Formats R) (ag : Agent) :
    (ag.getIndividualFingerprint M F).capacity = JsVal.number 1 := by
  unfold Agent.getIndividualFingerprint
  simp only []
  split <;> simp [Geometry.valB, JsVal.orElse]

end AgentTheorems

/-- C13 (failing input): the agent `A` of scenario A has an outgoing geometry
whose `valB` (the third component of `c`) is 2, and its capacity is 1. -/
theorem capacity_ignores_valB :
    ∃ g : Geometry ℝ,
      generateVectorsFromHistory realMath (videoFormats ℝ).BIASED (videoFormats ℝ).FORMATS
        (((Network.new (noOptions ℝ)).admitAll scenarioA).agentOf "A").outgoingLogs = some g ∧
      g.c.x2 = 2 ∧
      ((((Network.new (noOptions ℝ)).admitAll scenarioA).agentOf "A").getIndividualFingerprint
        realMath (videoFormats ℝ)).capacity = JsVal.number 1 := by
  have hlogs : (((Network.new (noOptions ℝ)).admitAll scenarioA).agentOf "A").outgoingLogs
      = [mkEvent "A" "B" 0 (some "VIDEO") (some ["up"]),
         mkEvent "A" "B" 10000000 (some "VIDEO") (some ["up"]),
         mkEvent "A" "B" 20000000 (some "VIDEO") (some ["up"])] := by decide
  have hlast : (groupSessions [mkEvent "A" "B" 0 (some "VIDEO") (some ["up"]),
         mkEvent "A" "B" 10000000 (some "VIDEO") (some ["up"]),
         mkEvent "A" "B" 20000000 (some "VIDEO") (some ["up"])]).getLast? =
      some { start := some 20000000, end_ := some 20000000, types := ["VIDEO"],
             logs := [mkEvent "A" "B" 20000000 (some "VIDEO") (some ["up"])] } := by decide
  have hhead : (groupSessions [mkEvent "A" "B" 0 (some "VIDEO") (some ["up"]),
         mkEvent "A" "B" 10000000 (some "VIDEO") (some ["up"]),
         mkEvent "A" "B" 20000000 (some "VIDEO") (some ["up"])]).head? =
      some { start := some 0, end_ := some 0, types := ["VIDEO"],
             logs := [mkEvent "A" "B" 0 (some "VIDEO") (some ["up"])] } := by decide
  have hgen := generateVectorsFromHistory_eq realMath (videoFormats ℝ).BIASED
    (videoFormats ℝ).FORMATS _ _ _ (by decide) hhead hlast
  rw [← hlogs] at hgen
  refine ⟨_, hgen, ?_, capacity_eq_one _ _ _⟩
  · simp only [geometryOf, valBOf, quantizePayload, videoFormats, typeMultiplier]
    have h1 : (List.any [mkEvent "A" "B" 20000000 (some "VIDEO") (some ["up"])]
        fun l => l.hasReactions) = true := by decide
    simp only [h1, if_true, List.foldl_cons, List.foldl_nil]
    norm_num

/-- C12 (failing input): the same two outgoing events of `A` admitted in
chronological order and in reverse order give the assertiveness 120 and 90. -/
theorem fingerprint_depends_on_admission_order :
    List.Perm twoVideoEvents.reverse twoVideoEvents ∧
      ((((Network.new (noOptions ℝ)).admitAll twoVideoEvents).agentOf
        "A").getIndividualFingerprint realMath (videoFormats ℝ)).assertiveness = 120 ∧
      ((((Network.new (noOptions ℝ)).admitAll twoVideoEvents.reverse).agentOf
        "A").getIndividualFingerprint realMath (videoFormats ℝ)).assertiveness = 90 := by
  refine ⟨List.reverse_perm _, ?_, ?_⟩
  · have hlogs : (((Network.new (noOptions ℝ)).admitAll twoVideoEvents).agentOf
        "A").outgoingLogs = twoVideoEvents := by decide
    have hhead : (groupSessions twoVideoEvents).head? =
        some { start := some 0, end_ := some 0, types := ["VIDEO"],
               logs := [mkEvent "A" "B" 0 (some "VIDEO") (some ["up"])] } := by decide
    have hlast : (groupSessions twoVideoEvents).getLast? =
        some { start := some 10000000, end_ := some 10000000, types := ["VIDEO"],
               logs := [mkEvent "A" "B" 10000000 (some "VIDEO") (some ["up"])] } := by decide
    have hgen := generateVectorsFromHistory_eq realMath (videoFormats ℝ).BIASED
      (videoFormats ℝ).FORMATS _ _ _ (by decide) hhead hlast
    have hco : (coRatioOf (videoFormats ℝ).BIASED (groupSessions twoVideoEvents) : ℝ) = 1 := by
      have h1 : highResSessions (videoFormats ℝ).BIASED (groupSessions twoVideoEvents) = 2 := by
        decide
      have h2 : (groupSessions twoVideoEvents).length = 2 := by decide
      simp [coRatioOf, h1, h2]
    rw [hco] at hgen
    unfold Agent.getIndividualFingerprint
    simp only [hlogs, hgen, angleOr90, geometryOf, angleDegOf]
    norm_num
  · have hlogs : (((Network.new (noOptions ℝ)).admitAll twoVideoEvents.reverse).agentOf
        "A").outgoingLogs = twoVideoEvents.reverse := by decide
    have hgen := generateVectorsFromHistory_none realMath (videoFormats ℝ).BIASED
      (videoFormats ℝ).FORMATS twoVideoEvents.reverse (by decide)
    unfold Agent.getIndividualFingerprint
    simp only [hlogs, hgen]

/-- C14 (failing input): after `analyzePair(" ", "B")` on the empty network and
the admission attempt of the event from `" "` to `"B"`, the global log holds the
event and the sublog of the registered pair is still empty. -/
theorem pair_sublog_misses_event :
    ((((Network.new (noOptions ℝ)).analyzePair realMath (videoFormats ℝ) " " "B").1.addEvent
        blankSenderEvent).1.pairs.map (fun kv => (kv.2.agentAId, kv.2.agentBId, kv.2.logs)))
        = [(" ", "B", [])] ∧
      initializePairLogger " " "B"
        ((((Network.new (noOptions ℝ)).analyzePair realMath (videoFormats ℝ) " " "B").1.addEvent
          blankSenderEvent).1.events) = [blankSenderEvent] := by
  decide

section RegistryTheorems

variable {R : Type} [LinearOrderedField R] [FloorRing R]

/-- The loops of `analyzeAllPairs` leave the global log as it is, and their
registry and reported agent ids are those of `registryStep`. -/
theorem analyzeEach_registry (M : JsMath R) (F : Formats R) (ps : List (String × String))
    (net : Network R) (acc : List (SyncResult R)) :
    (ps.foldl (fun st p =>
        ((st.1.analyzePair M F p.1 p.2).1, st.2 ++ [(st.1.analyzePair M F p.1 p.2).2]))
        (net, acc)).1.events = net.events ∧
      ((ps.foldl (fun st p =>
        ((st.1.analyzePair M F p.1 p.2).1, st.2 ++ [(st.1.analyzePair M F p.1 p.2).2]))
        (net, acc)).1.pairs,
       (ps.foldl (fun st p =>
        ((st.1.analyzePair M F p.1 p.2).1, st.2 ++ [(st.1.analyzePair M F p.1 p.2).2]))
        (net, acc)).2.map (fun r => r.agents)) =
      ps.foldl (registryStep net.events) (net.pairs, acc.map (fun r => r.agents)) := by
  induction ps generalizing net acc with
  | nil => exact ⟨rfl, rfl⟩
  | cons p ps ih =>
    rw [List.foldl_cons, List.foldl_cons]
    obtain ⟨h1, h2⟩ := ih (net.analyzePair M F p.1 p.2).1 (acc ++ [(net.analyzePair M F p.1 p.2).2])
    refine ⟨h1, ?_⟩
    rw [h2]
    have he : (net.analyzePair M F p.1 p.2).1.events = net.events := rfl
    rw [he]
    congr 1
    simp only [registryStep, Network.analyzePair, List.map_append, List.map_cons, List.map_nil,
      Sync.analyze_agents]

end RegistryTheorems

/-- C15 (failing input): with the agents `a`, `b:c`, `a:b`, `c` the six results
of `analyzeAllPairs` are listed for the pairs in order, and the result listed
for the pair (`a:b`, `c`) reports the agents `a` and `b:c`: the pair key
`a:b:c` is shared. -/
theorem analyzeAllPairs_key_collision :
    pairsOf (((Network.new (noOptions ℝ)).admitAll collidingEvents).agents.map (fun kv => kv.1))
        = [("a", "b:c"), ("a", "a:b"), ("a", "c"), ("b:c", "a:b"), ("b:c", "c"), ("a:b", "c")] ∧
      ∃ (net2 : Network ℝ) (results : List (SyncResult ℝ)),
        ((Network.new (noOptions ℝ)).admitAll collidingEvents).analyzeAllPairs realMath
          (videoFormats ℝ) = some (net2, results) ∧
        results.map (fun r => r.agents)
          = [("a", "b:c"), ("a", "a:b"), ("a", "c"), ("b:c", "a:b"), ("b:c", "c"),
             ("a", "b:c")] := by
  have hps : pairsOf (((Network.new (noOptions ℝ)).admitAll collidingEvents).agents.map
      (fun kv => kv.1))
        = [("a", "b:c"), ("a", "a:b"), ("a", "c"), ("b:c", "a:b"), ("b:c", "c"), ("a:b", "c")] := by
    decide
  refine ⟨hps, ?_⟩
  obtain ⟨net2, h1, -⟩ := analyzeAllPairs_clusters_empty realMath (videoFormats ℝ)
    ((Network.new (noOptions ℝ)).admitAll collidingEvents)
  refine ⟨net2, _, h1, ?_⟩
  have h := (analyzeEach_registry realMath (videoFormats ℝ)
    (pairsOf (((Network.new (noOptions ℝ)).admitAll collidingEvents).agents.map (fun kv => kv.1)))
    ((Network.new (noOptions ℝ)).admitAll collidingEvents) []).2
  have h2 := congrArg Prod.snd h
  simp only [List.map_nil] at h2
  have hpairs : ((Network.new (noOptions ℝ)).admitAll collidingEvents).pairs = [] := by decide
  have hevents : ((Network.new (noOptions ℝ)).admitAll collidingEvents).events
      = collidingEvents := by decide
  unfold Network.analyzeEach
  rw [h2, hps, hpairs, hevents]
  decide

/-! ### The fingerprint hash -/

section HashTheorems

/-- The hash of a concatenation continues the loop from the hash of the prefix. -/
theorem hashOf_append (s t : String) :
    hashOf (s ++ t) = t.data.foldl hashStep (hashOf s) := by
  simp [hashOf, String.data_append, List.foldl_append]

/-- `ToInt32` lands in the signed 32-bit range. -/
theorem toInt32_range (x : ℤ) : -2147483648 ≤ toInt32 x ∧ toInt32 x < 2147483648 := by
  unfold toInt32
  omega

/-- The hash of a string lies in the signed 32-bit range. -/
theorem hashOf_range (s : String) : -2147483648 ≤ hashOf s ∧ hashOf s < 2147483648 := by
  unfold hashOf
  induction s.data using List.reverseRecOn with
  | nil => simp
  | append_singleton l c _ =>
    rw [List.foldl_append]
    exact toInt32_range _

/-- The joined strings for the ids `Aa`, `BB` and for `BB`, `Aa` have the same
hash, whatever follows them. -/
theorem hashOf_collision (rest : String) :
    hashOf ("Aa" ++ ":" ++ "BB" ++ ":" ++ rest) = hashOf ("BB" ++ ":" ++ "Aa" ++ ":" ++ rest) := by
  rw [hashOf_append, hashOf_append ("BB" ++ ":" ++ "Aa" ++ ":")]
  have h : hashOf ("Aa" ++ ":" ++ "BB" ++ ":") = hashOf ("BB" ++ ":" ++ "Aa" ++ ":") := by decide
  rw [h]

/-- The hexadecimal digit characters of two digits below 16 differ. -/
theorem hexDigit_inj : ∀ a < 16, ∀ b < 16, hexDigit a = hexDigit b → a = b := by
  decide

/-- Lists of digits below 16 with the same hexadecimal characters are equal. -/
theorem map_hexDigit_inj (l1 l2 : List ℕ) (h1 : ∀ d ∈ l1, d < 16) (h2 : ∀ d ∈ l2, d < 16)
    (h : l1.map hexDigit = l2.map hexDigit) : l1 = l2 := by
  induction l1 generalizing l2 with
  | nil =>
    cases l2 with
    | nil => rfl
    | cons b bs => simp at h
  | cons a as ih =>
    cases l2 with
    | nil => simp at h
    | cons b bs =>
      simp only [List.map_cons, List.cons.injEq] at h
      have hab := hexDigit_inj a (h1 a (List.mem_cons_self _ _)) b
        (h2 b (List.mem_cons_self _ _)) h.1
      rw [hab, ih bs (fun d hd => h1 d (List.mem_cons_of_mem _ hd))
        (fun d hd => h2 d (List.mem_cons_of_mem _ hd)) h.2]

/-- The hexadecimal digits of a number that is not zero. -/
theorem toHex_data_of_ne_zero (n : ℕ) (hn : n ≠ 0) :
    (toHex n).data = ((Nat.digits 16 n).reverse).map hexDigit := by
  simp [toHex, hn]

/-- `toString(16)` is injective. -/
theorem toHex_inj (n m : ℕ) (h : toHex n = toHex m) : n = m := by
  have key : ∀ k : ℕ, k ≠ 0 → (toHex k).data ≠ ['0'] := by
    intro k hk hdata
    rw [toHex_data_of_ne_zero k hk] at hdata
    have h0 : (['0'] : List Char) = [0].map hexDigit := by decide
    rw [h0] at hdata
    have hrev := map_hexDigit_inj _ _ (fun d hd => Nat.digits_lt_base (by norm_num)
      (List.mem_reverse.1 hd)) (by simp) hdata
    have hd : Nat.digits 16 k = [0] := by
      have := congrArg List.reverse hrev
      simpa using this
    have hlast := Nat.getLast_digit_ne_zero 16 hk
    simp [hd] at hlast
  by_cases hn : n = 0
  · by_cases hm : m = 0
    · rw [hn, hm]
    · exfalso
      apply key m hm
      rw [← h, hn]
      rfl
  · by_cases hm : m = 0
    · exfalso
      apply key n hn
      rw [h, hm]
      rfl
    · have hdata := congrArg String.data h
      rw [toHex_data_of_ne_zero n hn, toHex_data_of_ne_zero m hm] at hdata
      have hrev := map_hexDigit_inj _ _ (fun d hd => Nat.digits_lt_base (by norm_num)
        (List.mem_reverse.1 hd)) (fun d hd => Nat.digits_lt_base (by norm_num)
        (List.mem_reverse.1 hd)) hdata
      exact Nat.digits_inj_iff.1 (List.reverse_injective hrev)

/-- The hexadecimal form of a number up to `2^31` has at most eight digits. -/
theorem toHex_length_le (n : ℕ) (hn : n ≤ 2147483648) : (toHex n).data.length ≤ 8 := by
  by_cases h0 : n = 0
  · rw [h0]; decide
  · rw [toHex_data_of_ne_zero n h0, List.length_map, List.length_reverse]
    have h1 := Nat.base_pow_length_digits_le 16 n (by norm_num) h0
    by_contra hlen
    have h9 : 9 ≤ (Nat.digits 16 n).length := by omega
    have h2 : 16 ^ 9 ≤ 16 ^ (Nat.digits 16 n).length := Nat.pow_le_pow_right (by norm_num) h9
    have h3 : (16 : ℕ) ^ 9 = 68719476736 := by norm_num
    omega

variable {R : Type} [LinearOrderedField R] [FloorRing R]

/-- Two fingerprints are equal exactly when the absolute values of the two
hashes are. -/
theorem generateProofOfWork_eq_iff (render : R → String) (a1 b1 a2 b2 : String) (c1 c2 : ℕ)
    (x1 x2 : R) :
    generateProofOfWork render a1 b1 c1 x1 = generateProofOfWork render a2 b2 c2 x2 ↔
      (hashOf (proofComponents render a1 b1 c1 x1)).natAbs
        = (hashOf (proofComponents render a2 b2 c2 x2)).natAbs := by
  have hb : ∀ s : String, (hashOf s).natAbs ≤ 2147483648 := by
    intro s
    have := hashOf_range s
    omega
  constructor
  · intro h
    unfold generateProofOfWork at h
    simp only at h
    have hdata := congrArg String.data h
    simp only [String.data_append, List.append_cancel_left_eq] at hdata
    rw [List.take_of_length_le (le_trans (toHex_length_le _ (hb _)) (by norm_num)),
      List.take_of_length_le (le_trans (toHex_length_le _ (hb _)) (by norm_num))] at hdata
    exact toHex_inj _ _ (String.ext hdata)
  · intro h
    unfold generateProofOfWork
    simp only [h]

/-- C16 (amended): swapping the two agents changes the fingerprint exactly when
the 32-bit hashes of the joined strings `A:B:categoryId:angle` and
`B:A:categoryId:angle` differ in absolute value. -/
theorem generateProofOfWork_swap (render : R → String) (agentAId agentBId : String)
    (categoryId : ℕ) (angleDeg : R) :
    generateProofOfWork render agentAId agentBId categoryId angleDeg
        ≠ generateProofOfWork render agentBId agentAId categoryId angleDeg ↔
      (hashOf (proofComponents render agentAId agentBId categoryId angleDeg)).natAbs
        ≠ (hashOf (proofComponents render agentBId agentAId categoryId angleDeg)).natAbs :=
  not_congr (generateProofOfWork_eq_iff render _ _ _ _ _ _ _ _)

end HashTheorems

/-- C16 (counterexample): the distinct ids `Aa` and `BB` get the same fingerprint
in both orders, for every category id, angle and rendering of the angle. -/
theorem generateProofOfWork_swap_collision :
    ¬ (∀ (render : ℚ → String) (agentAId agentBId : String) (categoryId : ℕ) (angleDeg : ℚ),
        agentAId ≠ agentBId →
        generateProofOfWork render agentAId agentBId categoryId angleDeg
          ≠ generateProofOfWork render agentBId agentAId categoryId angleDeg) := by
  intro h
  apply h (fun _ => "120") "Aa" "BB" 23 120 (by decide)
  unfold generateProofOfWork proofComponents
  simp only [String.append_assoc]
  have hc := hashOf_collision (toString (23 : ℕ) ++ ":" ++ "120")
  simp only [String.append_assoc] at hc
  rw [hc]

/-! ### Scores of every category -/

section ScoreCaseTheorems

variable {R : Type} [LinearOrderedField R]

/-- Total deviation against the ideals `{ γ: 75, all: 90 }`. -/
theorem totalDev_gamma75 (A : Angles R) :
    totalDev ({ Ideals.ofAll (JsVal.number 90) with γ := JsVal.number 75 } : Ideals R) A =
      JsNum.num (0 + |A.α - 90| + |A.β - 90| + |A.γ - 75| + |A.δ - 90| + |A.ε - 90|
        + |A.ζ - 90|) := by
  simp [totalDev, Ideals.ofAll, JsVal.orElse, angleDev, JsVal.toNumber]

/-- Total deviation against the ideals `{ γ: 75, ζ: 75, all: 90 }`. -/
theorem totalDev_gamma75_zeta75 (A : Angles R) :
    totalDev ({ Ideals.ofAll (JsVal.number 90) with γ := JsVal.number 75, ζ := JsVal.number 75 }
        : Ideals R) A =
      JsNum.num (0 + |A.α - 90| + |A.β - 90| + |A.γ - 75| + |A.δ - 90| + |A.ε - 90|
        + |A.ζ - 75|) := by
  simp [totalDev, Ideals.ofAll, JsVal.orElse, angleDev, JsVal.toNumber]

/-- The clamped score of an entry with numeric ideals is a number of `[0, 1]`. -/
theorem calculateSymmetryScore_unit (M : JsMath R) (cls : Classifier R)
    (df : Definition R) (L : Lengths R) (A : Angles R) (edges : String) (ideals : Ideals R)
    (t : R) (hid : df.id ≠ 0) (hgen : df.genParams = some ⟨edges, some ideals⟩)
    (ht : totalDev ideals A = JsNum.num t) (hang : cls.angleTolerance ≠ 0) :
    ∃ s, cls.calculateSymmetryScore M df L A = JsNum.num s ∧ 0 ≤ s ∧ s ≤ 1 :=
  ⟨_, calculateSymmetryScore_of_totalDev M cls df L A edges ideals t hid hgen ht hang,
    le_max_left _ _, max_le (by norm_num) (min_le_left _ _)⟩

/-- The symmetry score returned by `analyzeVectors` for a non-zero angle
tolerance: `NaN` with category 1, or a number of `[0, 1]`. -/
theorem analyzeVectors_score_cases (M : JsMath R) (tolerance angleTolerance : Option R)
    (a b c d : Vec4 R) (hang : (Classifier.new tolerance angleTolerance).angleTolerance ≠ 0) :
    (((Classifier.new tolerance angleTolerance).analyzeVectors M a b c d none
          none).symmetryScore = JsNum.nan ∧
        ((Classifier.new tolerance angleTolerance).analyzeVectors M a b c d none
          none).categoryId = 1) ∨
      ∃ s, ((Classifier.new tolerance angleTolerance).analyzeVectors M a b c d none
          none).symmetryScore = JsNum.num s ∧ 0 ≤ s ∧ s ≤ 1 := by
  unfold Classifier.analyzeVectors
  simp only [matched_new_eq]
  rcases find_taxonomy_cases (measureLengths M a b c d) (measureAngles M a b c d)
    ((Classifier.new tolerance angleTolerance).symOf M a b c d none none) with
    h | h | h | h | h | h | h | h
  · rw [h.1]
    exact Or.inr (calculateSymmetryScore_unit M _ hypercubic _ _ "equal" _ _
      (by simp [hypercubic]) rfl (totalDev_all90 _) hang)
  · rw [h.1]
    exact Or.inr (calculateSymmetryScore_unit M _ hexagonal _ _ "equal" _ _
      (by simp [hexagonal]) rfl (totalDev_gamma120 _) hang)
  · rw [h.1]
    exact Or.inr (calculateSymmetryScore_unit M _ trigonal _ _ "unequal" _ _
      (by simp [trigonal]) rfl (totalDev_gamma120 _) hang)
  · rw [h.1]
    exact Or.inr (calculateSymmetryScore_unit M _ tetragonal _ _ "ab_equal" _ _
      (by simp [tetragonal]) rfl (totalDev_all90 _) hang)
  · rw [h.1]
    exact Or.inr (calculateSymmetryScore_unit M _ orthorhombic _ _ "unequal" _ _
      (by simp [orthorhombic]) rfl (totalDev_all90 _) hang)
  · rw [h.1]
    exact Or.inr (calculateSymmetryScore_unit M _ monoclinic _ _ "unequal" _ _
      (by simp [monoclinic]) rfl (totalDev_gamma75 _) hang)
  · rw [h.1]
    exact Or.inr (calculateSymmetryScore_unit M _ diclinic _ _ "unequal" _ _
      (by simp [diclinic]) rfl (totalDev_gamma75_zeta75 _) hang)
  · rw [h.1]
    exact Or.inl ⟨calculateSymmetryScore_triclinic _ _ _ _, rfl⟩

/-- `symmetryScore || 0` is a number of `[0, 1]`: the score itself, or 0 when
the score is `NaN`. -/
theorem analyzeVectors_score_orElse (M : JsMath R) (tolerance angleTolerance : Option R)
    (a b c d : Vec4 R) (hang : (Classifier.new tolerance angleTolerance).angleTolerance ≠ 0) :
    ∃ s, (((Classifier.new tolerance angleTolerance).analyzeVectors M a b c d none
          none).symmetryScore = JsNum.num s ∨
        (((Classifier.new tolerance angleTolerance).analyzeVectors M a b c d none
          none).symmetryScore = JsNum.nan ∧ s = 0)) ∧
      ((Classifier.new tolerance angleTolerance).analyzeVectors M a b c d none
          none).symmetryScore.orElse (JsNum.num 0) = JsNum.num s ∧ 0 ≤ s ∧ s ≤ 1 := by
  rcases analyzeVectors_score_cases M tolerance angleTolerance a b c d hang with
    ⟨h, -⟩ | ⟨s, h, h0, h1⟩
  · exact ⟨0, Or.inr ⟨h, rfl⟩, by rw [h]; rfl, le_refl _, zero_le_one⟩
  · refine ⟨s, Or.inl h, ?_, h0, h1⟩
    rw [h, JsNum.num_orElse]
    split
    · rename_i hs; rw [hs]
    · rfl

/-- The angle term for the angle tolerance 0. -/
theorem anglePrecisionOf_zero (x : R) :
    anglePrecisionOf (JsNum.num x) 0 = if 0 < x then JsNum.num 0 else JsNum.nan := by
  unfold anglePrecisionOf
  rw [if_pos rfl]

/-- The clamped score of an entry with numeric ideals is `NaN` or a number of
`[0, 1]`, for every angle tolerance, zero included. -/
theorem calculateSymmetryScore_unit_or_nan (M : JsMath R) (cls : Classifier R)
    (df : Definition R) (L : Lengths R) (A : Angles R) (edges : String) (ideals : Ideals R)
    (t : R) (hid : df.id ≠ 0) (hgen : df.genParams = some ⟨edges, some ideals⟩)
    (ht : totalDev ideals A = JsNum.num t) :
    cls.calculateSymmetryScore M df L A = JsNum.nan ∨
      ∃ s, cls.calculateSymmetryScore M df L A = JsNum.num s ∧ 0 ≤ s ∧ s ≤ 1 := by
  by_cases hang : cls.angleTolerance = 0
  · have h6 : (6 : R) ≠ 0 := by norm_num
    unfold Classifier.calculateSymmetryScore
    rw [if_neg hid, hgen]
    by_cases hpos : 0 < t / 6
    · right
      refine ⟨max 0 (min 1 ((df.id : R) / 23
        + (if edges = "equal" then cls.deviation * edgeConsistency M L else cls.deviation)
        + cls.deviation * 0)), ?_, le_max_left _ _, max_le (by norm_num) (min_le_left _ _)⟩
      by_cases he : edges = "equal"
      · simp [he, ht, JsNum.div_num t h6, hang, anglePrecisionOf_zero, hpos]
      · simp [he, ht, JsNum.div_num t h6, hang, anglePrecisionOf_zero, hpos]
    · left
      by_cases he : edges = "equal"
      · simp [he, ht, JsNum.div_num t h6, hang, anglePrecisionOf_zero, hpos]
      · simp [he, ht, JsNum.div_num t h6, hang, anglePrecisionOf_zero, hpos]
  · exact Or.inr (calculateSymmetryScore_unit M cls df L A edges ideals t hid hgen ht hang)

/-- The symmetry score returned by `analyzeVectors` is `NaN` or a number of
`[0, 1]`, for every angle tolerance. -/
theorem analyzeVectors_score_total (M : JsMath R) (tolerance angleTolerance : Option R)
    (a b c d : Vec4 R) :
    ((Classifier.new tolerance angleTolerance).analyzeVectors M a b c d none
          none).symmetryScore = JsNum.nan ∨
      ∃ s, ((Classifier.new tolerance angleTolerance).analyzeVectors M a b c d none
          none).symmetryScore = JsNum.num s ∧ 0 ≤ s ∧ s ≤ 1 := by
  unfold Classifier.analyzeVectors
  simp only [matched_new_eq]
  rcases find_taxonomy_cases (measureLengths M a b c d) (measureAngles M a b c d)
    ((Classifier.new tolerance angleTolerance).symOf M a b c d none none) with
    h | h | h | h | h | h | h | h
  · rw [h.1]
    exact calculateSymmetryScore_unit_or_nan M _ hypercubic _ _ "equal" _ _
      (by simp [hypercubic]) rfl (totalDev_all90 _)
  · rw [h.1]
    exact calculateSymmetryScore_unit_or_nan M _ hexagonal _ _ "equal" _ _
      (by simp [hexagonal]) rfl (totalDev_gamma120 _)
  · rw [h.1]
    exact calculateSymmetryScore_unit_or_nan M _ trigonal _ _ "unequal" _ _
      (by simp [trigonal]) rfl (totalDev_gamma120 _)
  · rw [h.1]
    exact calculateSymmetryScore_unit_or_nan M _ tetragonal _ _ "ab_equal" _ _
      (by simp [tetragonal]) rfl (totalDev_all90 _)
  · rw [h.1]
    exact calculateSymmetryScore_unit_or_nan M _ orthorhombic _ _ "unequal" _ _
      (by simp [orthorhombic]) rfl (totalDev_all90 _)
  · rw [h.1]
    exact calculateSymmetryScore_unit_or_nan M _ monoclinic _ _ "unequal" _ _
      (by simp [monoclinic]) rfl (totalDev_gamma75 _)
  · rw [h.1]
    exact calculateSymmetryScore_unit_or_nan M _ diclinic _ _ "unequal" _ _
      (by simp [diclinic]) rfl (totalDev_gamma75_zeta75 _)
  · rw [h.1]
    exact Or.inl (calculateSymmetryScore_triclinic _ _ _ _)

/-- `symmetryScore || 0` is a number of `[0, 1]` for every angle tolerance: the
score itself, or 0 when the score is `NaN`. -/
theorem analyzeVectors_score_orElse_total (M : JsMath R) (tolerance angleTolerance : Option R)
    (a b c d : Vec4 R) :
    ∃ s, (((Classifier.new tolerance angleTolerance).analyzeVectors M a b c d none
          none).symmetryScore = JsNum.num s ∨
        (((Classifier.new tolerance angleTolerance).analyzeVectors M a b c d none
          none).symmetryScore = JsNum.nan ∧ s = 0)) ∧
      ((Classifier.new tolerance angleTolerance).analyzeVectors M a b c d none
          none).symmetryScore.orElse (JsNum.num 0) = JsNum.num s ∧ 0 ≤ s ∧ s ≤ 1 := by
  rcases analyzeVectors_score_total M tolerance angleTolerance a b c d with h | ⟨s, h, h0, h1⟩
  · exact ⟨0, Or.inr ⟨h, rfl⟩, by rw [h]; rfl, le_refl _, zero_le_one⟩
  · refine ⟨s, Or.inl h, ?_, h0, h1⟩
    rw [h, JsNum.num_orElse]
    split
    · rename_i hs; rw [hs]
    · rfl

end ScoreCaseTheorems

/-! ### The synchronisation score of a pair with a geometry -/

section PairScoreTheorems

variable {R : Type} [LinearOrderedField R] [FloorRing R]

/-- The parts of a joint manifold: the geometry of the sublog with `a` and `b`
scaled by the boost, and the directional metrics of the pair. -/
theorem calculateJointManifold_some (M : JsMath R) (F : Formats R) (o : Options R) (p : Sync)
    (g : JointManifold R) (hg : p.calculateJointManifold M F o = some g) :
    ∃ basic : Geometry R,
      generateVectorsFromHistory M F.BIASED (o.multipliers F) p.logs = some basic ∧
      g.directionalMetrics = p.calculateDirectionalMetrics ∧
      g.c = basic.c ∧ g.d = basic.d ∧ g.angleDeg = basic.angleDeg ∧
      g.a = basic.a.scale (if (p.calculateDirectionalMetrics :
          DirectionalMetrics R).directionalBalance > RECIP_LIMIT then 1.0
        else 0.4 + (p.calculateDirectionalMetrics :
          DirectionalMetrics R).directionalBalance * 0.6) ∧
      g.b = basic.b.scale (if (p.calculateDirectionalMetrics :
          DirectionalMetrics R).directionalBalance > RECIP_LIMIT then 1.0
        else 0.4 + (p.calculateDirectionalMetrics :
          DirectionalMetrics R).directionalBalance * 0.6) := by
  unfold Sync.calculateJointManifold at hg
  cases hgen : generateVectorsFromHistory M F.BIASED (o.multipliers F) p.logs with
  | none => rw [hgen] at hg; exact Option.noConfusion hg
  | some basic =>
    rw [hgen] at hg
    simp only [Option.some.injEq] at hg
    subst hg
    exact ⟨basic, rfl, rfl, rfl, rfl, rfl, rfl, rfl⟩

/-- A pair with a geometry has a non-empty global event list. -/
theorem allEvents_ne_nil_of_geometry (M : JsMath R) (F : Formats R) (o : Options R)
    (allEvents : List Event) (agentAId agentBId : String) (g : JointManifold R)
    (hg : (Sync.new agentAId agentBId allEvents).calculateJointManifold M F o = some g) :
    allEvents ≠ [] := by
  rintro rfl
  obtain ⟨basic, hb, -⟩ := calculateJointManifold_some M F o _ g hg
  have : generateVectorsFromHistory M F.BIASED (o.multipliers F)
      (Sync.new agentAId agentBId []).logs = none :=
    generateVectorsFromHistory_none _ _ _ _ (by simp [Sync.new, initializePairLogger, groupSessions])
  rw [this] at hb
  exact Option.noConfusion hb

/-- The synchronisation score in terms of `symmetryScore || 0`. -/
theorem calculateSynchronizationScore_orElse (F : Formats R) (allEvents : List Event)
    (cl : Classification R) (g : JointManifold R) (s : R)
    (hs : cl.symmetryScore.orElse (JsNum.num 0) = JsNum.num s) (hne : allEvents ≠ []) :
    calculateSynchronizationScore F allEvents cl g = JsNum.num (max 0 (min 1
      (s * 0.45 + g.directionalMetrics.directionalBalance * 0.25
        + ((allEvents.filter (fun e => e.isHighRes F.BIASED)).length : R)
          / (allEvents.length : R) * 0.25))) := by
  have hlen : (allEvents.length : R) ≠ 0 := by
    have := List.length_pos.2 hne
    exact_mod_cast this.ne'
  unfold calculateSynchronizationScore
  simp only [hs, orElse_zero_mul, JsNum.div_num _ hlen, JsNum.mul_num, JsNum.add_num,
    JsNum.min_num, JsNum.max_num]

/-- The score of a pair with a geometry, for every angle tolerance. -/
theorem sync_score_formula_total (M : JsMath R) (F : Formats R) (o : Options R)
    (allEvents : List Event) (agentAId agentBId : String) (g : JointManifold R)
    (hg : (Sync.new agentAId agentBId allEvents).calculateJointManifold M F o = some g) :
    allEvents.length ≠ 0 ∧
      ∃ s v : R,
        ((o.classifier.analyzeVectors M g.a g.b g.c g.d none none).symmetryScore = JsNum.num s ∨
          ((o.classifier.analyzeVectors M g.a g.b g.c g.d none none).symmetryScore = JsNum.nan ∧
            s = 0)) ∧
        0 ≤ s ∧ s ≤ 1 ∧
        ((Sync.new agentAId agentBId allEvents).analyze M F o allEvents).synchronizationScore
          = JsNum.num v ∧
        v = max 0 (min 1 (0.45 * s
          + 0.25 * ((Sync.new agentAId agentBId allEvents).calculateDirectionalMetrics :
              DirectionalMetrics R).directionalBalance
          + 0.25 * (((allEvents.filter (fun e => e.isHighRes F.BIASED)).length : R)
              / (allEvents.length : R)))) ∧
        0 ≤ v ∧ v ≤ 0.95 := by
  have hne := allEvents_ne_nil_of_geometry M F o allEvents agentAId agentBId g hg
  have hlen : allEvents.length ≠ 0 := fun h => hne (List.length_eq_zero.1 h)
  have hlenR : (0 : R) < (allEvents.length : R) := by
    exact_mod_cast Nat.pos_of_ne_zero hlen
  obtain ⟨s, hcase, hor, h0, h1⟩ := analyzeVectors_score_orElse_total M o.tolerance
    o.angleTolerance g.a g.b g.c g.d
  obtain ⟨basic, -, hdm, -⟩ := calculateJointManifold_some M F o _ g hg
  obtain ⟨hscore, -, -⟩ := Sync.analyze_of_some M F o allEvents _ g hg
  have hval := calculateSynchronizationScore_orElse F allEvents
    (o.classifier.analyzeVectors M g.a g.b g.c g.d none none) g s hor hne
  rw [hdm] at hval
  obtain ⟨hb0, hb1, -, -⟩ := directionalBalance_props (R := R) (Sync.new agentAId agentBId allEvents)
  have hk0 : (0 : R) ≤ ((allEvents.filter (fun e => e.isHighRes F.BIASED)).length : R)
      / (allEvents.length : R) := div_nonneg (Nat.cast_nonneg _) (Nat.cast_nonneg _)
  have hk1 : ((allEvents.filter (fun e => e.isHighRes F.BIASED)).length : R)
      / (allEvents.length : R) ≤ 1 := by
    rw [div_le_one hlenR]
    exact_mod_cast List.length_filter_le _ _
  refine ⟨hlen, s, _, hcase, h0, h1, hscore.trans hval, ?_, le_max_left _ _, ?_⟩
  · congr 2
    ring
  · apply max_le (by norm_num)
    apply le_trans (min_le_right _ _)
    have e1 : s * (0.45 : R) ≤ 1 * 0.45 := by
      apply mul_le_mul_of_nonneg_right h1 (by norm_num)
    have e2 : ((Sync.new agentAId agentBId allEvents).calculateDirectionalMetrics :
        DirectionalMetrics R).directionalBalance * (0.25 : R) ≤ 1 * 0.25 := by
      apply mul_le_mul_of_nonneg_right hb1 (by norm_num)
    have e3 : ((allEvents.filter (fun e => e.isHighRes F.BIASED)).length : R)
        / (allEvents.length : R) * (0.25 : R) ≤ 1 * 0.25 := by
      apply mul_le_mul_of_nonneg_right hk1 (by norm_num)
    have e4 : (1 : R) * 0.45 + 1 * 0.25 + 1 * 0.25 = 0.95 := by norm_num
    linarith

/-- The score of a pair with a geometry, for a non-zero angle tolerance. -/
theorem sync_score_formula (M : JsMath R) (F : Formats R) (o : Options R)
    (allEvents : List Event) (agentAId agentBId : String) (g : JointManifold R)
    (hg : (Sync.new agentAId agentBId allEvents).calculateJointManifold M F o = some g)
    (_hang : o.classifier.angleTolerance ≠ 0) :
    allEvents.length ≠ 0 ∧
      ∃ s v : R,
        ((o.classifier.analyzeVectors M g.a g.b g.c g.d none none).symmetryScore = JsNum.num s ∨
          ((o.classifier.analyzeVectors M g.a g.b g.c g.d none none).symmetryScore = JsNum.nan ∧
            s = 0)) ∧
        0 ≤ s ∧ s ≤ 1 ∧
        ((Sync.new agentAId agentBId allEvents).analyze M F o allEvents).synchronizationScore
          = JsNum.num v ∧
        v = max 0 (min 1 (0.45 * s
          + 0.25 * ((Sync.new agentAId agentBId allEvents).calculateDirectionalMetrics :
              DirectionalMetrics R).directionalBalance
          + 0.25 * (((allEvents.filter (fun e => e.isHighRes F.BIASED)).length : R)
              / (allEvents.length : R)))) ∧
        0 ≤ v ∧ v ≤ 0.95 :=
  sync_score_formula_total M F o allEvents agentAId agentBId g hg

end PairScoreTheorems

/-! ### The measured geometry of a pair -/

section PairMeasureTheorems

variable {R : Type} [LinearOrderedField R]

/-- The magnitude of `c = (0, 0, v, 0)`. -/
theorem magnitude_c (M : JsMath R) (hM : M.Exact) (v : R) (h : 0 ≤ v) :
    magnitude M ⟨0, 0, v, 0⟩ = v := by
  simp only [magnitude]
  rw [show (0 : R) + 0 * 0 + 0 * 0 + v * v + 0 * 0 = v * v by ring]
  exact hM.sqrt_mul_self _ h

/-- The magnitude of `d = (0, 0, 0, v)`. -/
theorem magnitude_d (M : JsMath R) (hM : M.Exact) (v : R) (h : 0 ≤ v) :
    magnitude M ⟨0, 0, 0, v⟩ = v := by
  simp only [magnitude]
  rw [show (0 : R) + 0 * 0 + 0 * 0 + 0 * 0 + v * v = v * v by ring]
  exact hM.sqrt_mul_self _ h

/-- The angles and lengths that the classifier measures on a pair geometry:
five right angles, γ equal to the angle of the geometry, and the magnitudes
`k·vA`, `k·vB`, `vB`, `vB`. -/
theorem measure_pair (M : JsMath R) (hM : M.Exact) (vA vB k θdeg : R)
    (hA : 0 < vA) (hB : 0 < vB) (hk : 0 < k) (h0 : 0 ≤ θdeg) (h180 : θdeg ≤ 180) :
    measureAngles M ((⟨vA, 0, 0, 0⟩ : Vec4 R).scale k)
        ((⟨vB * M.cos (θdeg * M.pi / 180), vB * M.sin (θdeg * M.pi / 180), 0, 0⟩ :
          Vec4 R).scale k) ⟨0, 0, vB, 0⟩ ⟨0, 0, 0, vB⟩
        = ⟨90, 90, θdeg, 90, 90, 90⟩ ∧
      measureLengths M ((⟨vA, 0, 0, 0⟩ : Vec4 R).scale k)
        ((⟨vB * M.cos (θdeg * M.pi / 180), vB * M.sin (θdeg * M.pi / 180), 0, 0⟩ :
          Vec4 R).scale k) ⟨0, 0, vB, 0⟩ ⟨0, 0, 0, vB⟩
        = ⟨vA * k, vB * k, vB, vB⟩ := by
  constructor
  · unfold measureAngles
    rw [angleBetween_scaled_ab M hM vA vB k θdeg hA hB hk h0 h180,
      angleBetween_of_dot_zero M hM _ _ (by simp [dotProduct, Vec4.scale]),
      angleBetween_of_dot_zero M hM _ _ (by simp [dotProduct, Vec4.scale]),
      angleBetween_of_dot_zero M hM _ _ (by simp [dotProduct, Vec4.scale]),
      angleBetween_of_dot_zero M hM _ _ (by simp [dotProduct, Vec4.scale]),
      angleBetween_of_dot_zero M hM _ _ (by simp [dotProduct, Vec4.scale])]
  · unfold measureLengths
    rw [magnitude_scaled_a M hM vA k (mul_pos hA hk).le,
      magnitude_scaled_b M hM vB k _ (mul_pos hB hk).le, magnitude_c M hM vB hB.le,
      magnitude_d M hM vB hB.le]

/-- A geometry measured with a right angle at α and with γ outside the
tolerance of both 90° and 120° is classified as Triclinic, with score `NaN`. -/
theorem analyzeVectors_triclinic_of (M : JsMath R) (tolerance angleTolerance : Option R)
    (a b c d : Vec4 R)
    (hα : |angleBetween M b c - 90| < (Classifier.new tolerance angleTolerance).angleTolerance)
    (hγ90 : ¬ |angleBetween M a b - 90| < (Classifier.new tolerance angleTolerance).angleTolerance)
    (hγ120 : ¬ |angleBetween M a b - 120|
      < (Classifier.new tolerance angleTolerance).angleTolerance) :
    ((Classifier.new tolerance angleTolerance).analyzeVectors M a b c d none none).categoryId
        = 1 ∧
      ((Classifier.new tolerance angleTolerance).analyzeVectors M a b c d none
        none).symmetryScore = JsNum.nan := by
  have h1 : ((Classifier.new tolerance angleTolerance).symOf M a b c d none none).is120
      (measureAngles M a b c d).γ = false := by
    simp only [Classifier.symOf, Classifier.createSymmetryMap, measureAngles, Option.getD_none]
    exact decide_eq_false hγ120
  have h2 : ((Classifier.new tolerance angleTolerance).symOf M a b c d none none).is90
      (measureAngles M a b c d).α = true := by
    simp only [Classifier.symOf, Classifier.createSymmetryMap, measureAngles, Option.getD_none]
    exact decide_eq_true hα
  have h3 : ((Classifier.new tolerance angleTolerance).symOf M a b c d none none).all90
      = false := by
    simp only [Classifier.symOf, Classifier.createSymmetryMap, measureAngles, Option.getD_none,
      decide_eq_false hγ90, Bool.and_false, Bool.false_and]
  have hm : (Classifier.new tolerance angleTolerance).matched M a b c d none none
      = some triclinic := by
    rw [matched_new_eq]
    rcases find_taxonomy_cases (measureLengths M a b c d) (measureAngles M a b c d)
      ((Classifier.new tolerance angleTolerance).symOf M a b c d none none) with
      h | h | h | h | h | h | h | h
    all_goals first
      | exact h.1
      | (exfalso; simp_all)
  constructor
  · simp [Classifier.analyzeVectors, hm, triclinic]
  · simp [Classifier.analyzeVectors, hm, calculateSymmetryScore_triclinic]

end PairMeasureTheorems

section PairQuantityTheorems

variable {R : Type} [LinearOrderedField R] [FloorRing R]

/-- `valB` is between 1 and 5, whatever the weight table. -/
theorem valBOf_pos (multipliers : String → Option R) (latest : Session) :
    1 ≤ valBOf multipliers latest ∧ valBOf multipliers latest ≤ 5 := by
  have hw : (0 : R) ≤ latest.types.foldl
      (fun mx t => max mx (typeMultiplier multipliers t)) 0 := le_foldl_max _ _ _
  have hq : (0 : R) ≤ quantizePayload multipliers latest ∧
      quantizePayload multipliers latest ≤ 5 ∧
      ∃ z : ℤ, quantizePayload multipliers latest = min 5 (z : R) := by
    unfold quantizePayload
    refine ⟨le_min (by norm_num) ?_, min_le_left _ _, _, rfl⟩
    have hb : (0 : R) ≤ (if latest.logs.any (fun l => l.hasReactions) then (1 : R) else 0) := by
      split <;> norm_num
    have hc := Int.ceil_nonneg (add_nonneg hw hb)
    exact_mod_cast hc
  unfold valBOf
  by_cases h0 : quantizePayload multipliers latest = 0
  · simp only [h0, if_true]
    exact ⟨le_refl _, by norm_num⟩
  · simp only [if_neg h0]
    refine ⟨?_, hq.2.1⟩
    obtain ⟨z, hz⟩ := hq.2.2
    rw [hz] at h0 ⊢
    have hz0 : (0 : R) ≤ min 5 (z : R) := hz ▸ hq.1
    have hzpos : (0 : R) < min 5 (z : R) := lt_of_le_of_ne hz0 (Ne.symm h0)
    have hzz : (0 : R) < (z : R) := lt_of_lt_of_le hzpos (min_le_right _ _)
    have hz1 : (1 : ℤ) ≤ z := by
      have : (0 : ℤ) < z := by exact_mod_cast hzz
      omega
    exact le_min (by norm_num) (by exact_mod_cast hz1)

end PairQuantityTheorems

section ManifoldTheorems

variable {R : Type} [LinearOrderedField R] [FloorRing R]

/-- The symmetry boost of `_calculateJointManifold`. -/
theorem symmetryBoost_pos (p : Sync) :
    (0 : R) < (if (p.calculateDirectionalMetrics : DirectionalMetrics R).directionalBalance
        > RECIP_LIMIT then 1.0
      else 0.4 + (p.calculateDirectionalMetrics : DirectionalMetrics R).directionalBalance * 0.6)
      ∧ (if (p.calculateDirectionalMetrics : DirectionalMetrics R).directionalBalance
        > RECIP_LIMIT then (1.0 : R)
      else 0.4 + (p.calculateDirectionalMetrics : DirectionalMetrics R).directionalBalance * 0.6)
      ≤ 1 := by
  obtain ⟨h0, h1, -, -⟩ := directionalBalance_props (R := R) p
  split
  · norm_num
  · rename_i h
    have h9 : (p.calculateDirectionalMetrics : DirectionalMetrics R).directionalBalance
        ≤ 0.9 := by
      have := not_lt.1 h
      simpa [RECIP_LIMIT] using this
    constructor
    · nlinarith
    · nlinarith

/-- The joint manifold of a pair whose sublog forms two sessions or more. -/
theorem calculateJointManifold_eq (M : JsMath R) (F : Formats R) (o : Options R) (p : Sync)
    (first latest : Session)
    (h2 : 2 ≤ (groupSessions p.logs).length) (hh : (groupSessions p.logs).head? = some first)
    (hl : (groupSessions p.logs).getLast? = some latest) :
    ∃ g : JointManifold R, p.calculateJointManifold M F o = some g ∧
      g.a = (⟨valAOf M (totalSpanOf first latest), 0, 0, 0⟩ : Vec4 R).scale
        (if (p.calculateDirectionalMetrics : DirectionalMetrics R).directionalBalance
          > RECIP_LIMIT then 1.0
        else 0.4 + (p.calculateDirectionalMetrics :
          DirectionalMetrics R).directionalBalance * 0.6) ∧
      g.b = (⟨valBOf (o.multipliers F) latest * M.cos
            (angleDegOf (coRatioOf F.BIASED (groupSessions p.logs)) (totalSpanOf first latest)
              * M.pi / 180),
          valBOf (o.multipliers F) latest * M.sin
            (angleDegOf (coRatioOf F.BIASED (groupSessions p.logs)) (totalSpanOf first latest)
              * M.pi / 180), 0, 0⟩ : Vec4 R).scale
        (if (p.calculateDirectionalMetrics : DirectionalMetrics R).directionalBalance
          > RECIP_LIMIT then 1.0
        else 0.4 + (p.calculateDirectionalMetrics :
          DirectionalMetrics R).directionalBalance * 0.6) ∧
      g.c = ⟨0, 0, valBOf (o.multipliers F) latest, 0⟩ ∧
      g.d = ⟨0, 0, 0, valBOf (o.multipliers F) latest⟩ ∧
      g.angleDeg = angleDegOf (coRatioOf F.BIASED (groupSessions p.logs))
        (totalSpanOf first latest) ∧
      g.directionalMetrics = p.calculateDirectionalMetrics := by
  have hgen := generateVectorsFromHistory_eq M F.BIASED (o.multipliers F) p.logs first latest
    h2 hh hl
  unfold Sync.calculateJointManifold
  rw [hgen]
  exact ⟨_, rfl, rfl, rfl, rfl, rfl, rfl, rfl⟩

/-- A pair has a geometry exactly when its sublog forms two sessions or more. -/
theorem calculateJointManifold_isSome (M : JsMath R) (F : Formats R) (o : Options R)
    (p : Sync) (h2 : 2 ≤ (groupSessions p.logs).length) :
    ∃ g : JointManifold R, p.calculateJointManifold M F o = some g := by
  have hne : groupSessions p.logs ≠ [] := by
    intro h
    rw [h] at h2
    simp at h2
  obtain ⟨first, hh⟩ : ∃ first, (groupSessions p.logs).head? = some first := by
    cases hs : groupSessions p.logs with
    | nil => exact absurd hs hne
    | cons s ss => exact ⟨s, rfl⟩
  obtain ⟨g, hg, -⟩ := calculateJointManifold_eq M F o p first
    ((groupSessions p.logs).getLast hne) h2 hh (List.getLast?_eq_getLast _ hne)
  exact ⟨g, hg⟩

end ManifoldTheorems

/-- The pair of `mixedEvents` under an angle tolerance of 10°: one of its two
sessions holds a privileged type, so the angle of its geometry is 105°, which
is 15° away from both 90° and 120°; its category is Triclinic and its symmetry
score `NaN`. -/
theorem mixedEvents_triclinic :
    ∃ g : JointManifold ℝ,
      (Sync.new "A" "B" mixedEvents).calculateJointManifold realMath (videoFormats ℝ)
        (narrowOptions ℝ) = some g ∧
      g.angleDeg = 105 ∧
      ((narrowOptions ℝ).classifier.analyzeVectors realMath g.a g.b g.c g.d none
        none).categoryId = 1 ∧
      ((narrowOptions ℝ).classifier.analyzeVectors realMath g.a g.b g.c g.d none
        none).symmetryScore = JsNum.nan := by
  have hhead : (groupSessions (Sync.new "A" "B" mixedEvents).logs).head? =
      some { start := some 0, end_ := some 0, types := ["VIDEO"],
             logs := [mkEvent "A" "B" 0 (some "VIDEO") none] } := by decide
  have hlast : (groupSessions (Sync.new "A" "B" mixedEvents).logs).getLast? =
      some { start := some 10000000, end_ := some 10000000, types := ["DEFAULT"],
             logs := [mkEvent "A" "B" 10000000 none none] } := by decide
  obtain ⟨g, hg, ha, hb, hc, hd, hdeg, -⟩ := calculateJointManifold_eq realMath (videoFormats ℝ)
    (narrowOptions ℝ) (Sync.new "A" "B" mixedEvents) _ _ (by decide) hhead hlast
  have hco : (coRatioOf (videoFormats ℝ).BIASED
      (groupSessions (Sync.new "A" "B" mixedEvents).logs) : ℝ) = 1 / 2 := by
    have h1 : highResSessions (videoFormats ℝ).BIASED
        (groupSessions (Sync.new "A" "B" mixedEvents).logs) = 1 := by decide
    have h2 : (groupSessions (Sync.new "A" "B" mixedEvents).logs).length = 2 := by decide
    simp [coRatioOf, h1, h2]
  have hθ : ∀ span : JsNum ℝ, angleDegOf (1 / 2 : ℝ) span = 105 := by
    intro span
    unfold angleDegOf
    norm_num
  rw [hco, hθ] at hb hdeg
  have hspan : (totalSpanOf
      ({ start := some 0, end_ := some 0, types := ["VIDEO"],
         logs := [mkEvent "A" "B" 0 (some "VIDEO") none] } : Session)
      ({ start := some 10000000, end_ := some 10000000, types := ["DEFAULT"],
         logs := [mkEvent "A" "B" 10000000 none none] } : Session) : JsNum ℝ)
      = JsNum.num (10000000 / 86400000) := by
    simp [totalSpanOf, timeDiffOver, DAYS]
  rw [hspan] at ha
  obtain ⟨hA1, -⟩ := valAOf_bounds realMath realMath_exact (10000000 / 86400000 : ℝ)
    (by norm_num)
  obtain ⟨hB1, -⟩ := valBOf_pos ((narrowOptions ℝ).multipliers (videoFormats ℝ))
    ({ start := some 10000000, end_ := some 10000000, types := ["DEFAULT"],
       logs := [mkEvent "A" "B" 10000000 none none] } : Session)
  obtain ⟨hk, -⟩ := symmetryBoost_pos (R := ℝ) (Sync.new "A" "B" mixedEvents)
  obtain ⟨hmeasure, -⟩ := measure_pair realMath realMath_exact _ _ _ (105 : ℝ)
    (lt_of_lt_of_le one_pos hA1) (lt_of_lt_of_le one_pos hB1) hk (by norm_num) (by norm_num)
  rw [← ha, ← hb, ← hc, ← hd] at hmeasure
  have hα : angleBetween realMath g.b g.c = 90 := by
    have := congrArg Angles.α hmeasure
    simpa [measureAngles] using this
  have hγ : angleBetween realMath g.a g.b = 105 := by
    have := congrArg Angles.γ hmeasure
    simpa [measureAngles] using this
  have htol : (Classifier.new (narrowOptions ℝ).tolerance
      (narrowOptions ℝ).angleTolerance).angleTolerance
      = (10 : ℝ) := by
    simp only [Classifier.new, narrowOptions, Option.getD_some]
  obtain ⟨hcat, hscore⟩ := analyzeVectors_triclinic_of realMath (narrowOptions ℝ).tolerance
    (narrowOptions ℝ).angleTolerance g.a g.b g.c g.d
    (by rw [hα, htol]; norm_num) (by rw [hγ, htol]; norm_num) (by rw [hγ, htol]; norm_num)
  exact ⟨g, hg, hdeg, hcat, hscore⟩

section SyncScoreClaim

variable {R : Type} [LinearOrderedField R] [FloorRing R]

/-- C19 (amended): for every pair that has a geometry, the global event list
is not empty (the division is not by zero) and the synchronisation score
returned by `analyze` is the number
`clamp01(0.45·s + 0.25·directionalBalance + 0.25·(k / N))`, where `s` is the
symmetry score of the classification, or 0 when that score is `NaN` (as for
the Triclinic category), `N` is the size of the entire global event list and `k`
the number of its events with a privileged type or a non-empty reaction list;
`s` lies in [0, 1] and the score in [0, 0.95]. -/
theorem analyze_score_formula (M : JsMath R) (F : Formats R) (o : Options R)
    (allEvents : List Event) (agentAId agentBId : String) (g : JointManifold R)
    (hg : (Sync.new agentAId agentBId allEvents).calculateJointManifold M F o = some g) :
    allEvents.length ≠ 0 ∧
      ∃ s v : R,
        ((o.classifier.analyzeVectors M g.a g.b g.c g.d none none).symmetryScore = JsNum.num s ∨
          ((o.classifier.analyzeVectors M g.a g.b g.c g.d none none).symmetryScore = JsNum.nan ∧
            s = 0)) ∧
        0 ≤ s ∧ s ≤ 1 ∧
        ((Sync.new agentAId agentBId allEvents).analyze M F o allEvents).synchronizationScore
          = JsNum.num v ∧
        v = max 0 (min 1 (0.45 * s
          + 0.25 * ((Sync.new agentAId agentBId allEvents).calculateDirectionalMetrics :
              DirectionalMetrics R).directionalBalance
          + 0.25 * (((allEvents.filter (fun e => e.isHighRes F.BIASED)).length : R)
              / (allEvents.length : R)))) ∧
        0 ≤ v ∧ v ≤ 0.95 :=
  sync_score_formula_total M F o allEvents agentAId agentBId g hg

end SyncScoreClaim

/-- C19 (witness): the pair of scenario A with the real primitives and the
default tolerances. -/
theorem analyze_score_formula_witness :
    ∃ g : JointManifold ℝ,
      (Sync.new "A" "B" scenarioA).calculateJointManifold realMath (videoFormats ℝ)
        (noOptions ℝ) = some g ∧
      scenarioA.length ≠ 0 ∧
      ∃ s v : ℝ,
        (((noOptions ℝ).classifier.analyzeVectors realMath g.a g.b g.c g.d none
            none).symmetryScore = JsNum.num s ∨
          (((noOptions ℝ).classifier.analyzeVectors realMath g.a g.b g.c g.d none
            none).symmetryScore = JsNum.nan ∧ s = 0)) ∧
        0 ≤ s ∧ s ≤ 1 ∧
        ((Sync.new "A" "B" scenarioA).analyze realMath (videoFormats ℝ) (noOptions ℝ)
          scenarioA).synchronizationScore = JsNum.num v ∧
        v = max 0 (min 1 (0.45 * s
          + 0.25 * ((Sync.new "A" "B" scenarioA).calculateDirectionalMetrics :
              DirectionalMetrics ℝ).directionalBalance
          + 0.25 * (((scenarioA.filter (fun e => e.isHighRes (videoFormats ℝ).BIASED)).length : ℝ)
              / (scenarioA.length : ℝ)))) ∧
        0 ≤ v ∧ v ≤ 0.95 := by
  obtain ⟨g, hg⟩ := calculateJointManifold_isSome realMath (videoFormats ℝ) (noOptions ℝ)
    (Sync.new "A" "B" scenarioA) (by decide)
  exact ⟨g, hg,
    analyze_score_formula realMath (videoFormats ℝ) (noOptions ℝ) scenarioA "A" "B" g hg⟩

/-- C19 (counterexample): for the pair of `mixedEvents` under an angle
tolerance of 10° the measured angle of 105° is neither a right angle nor 120°,
the classification is Triclinic and its symmetry score is `NaN`, so the formula
of the specification evaluates to `NaN`, while `analyze` returns the score
0.125. -/
theorem analyze_score_triclinic :
    ∃ g : JointManifold ℝ,
      (Sync.new "A" "B" mixedEvents).calculateJointManifold realMath (videoFormats ℝ)
        (narrowOptions ℝ) = some g ∧
      g.angleDeg = 105 ∧
      ((narrowOptions ℝ).classifier.analyzeVectors realMath g.a g.b g.c g.d none
        none).categoryId = 1 ∧
      ((narrowOptions ℝ).classifier.analyzeVectors realMath g.a g.b g.c g.d none
        none).symmetryScore = JsNum.nan ∧
      specSynchronizationScore
        ((narrowOptions ℝ).classifier.analyzeVectors realMath g.a g.b g.c g.d none
          none).symmetryScore
        ((Sync.new "A" "B" mixedEvents).calculateDirectionalMetrics :
          DirectionalMetrics ℝ).directionalBalance
        (mixedEvents.filter (fun e => e.isHighRes (videoFormats ℝ).BIASED)).length
        mixedEvents.length = JsNum.nan ∧
      ((Sync.new "A" "B" mixedEvents).analyze realMath (videoFormats ℝ) (narrowOptions ℝ)
        mixedEvents).synchronizationScore = JsNum.num 0.125 := by
  obtain ⟨g, hg, hdeg, hcat, hnan⟩ := mixedEvents_triclinic
  have hang : (narrowOptions ℝ).classifier.angleTolerance ≠ 0 := by
    simp only [Options.classifier, Classifier.new, narrowOptions, Option.getD_some]
    norm_num
  obtain ⟨-, s, v, hs, -, -, hv, hval, -, -⟩ := sync_score_formula realMath (videoFormats ℝ)
    (narrowOptions ℝ) mixedEvents "A" "B" g hg hang
  have hs0 : s = 0 := by
    rcases hs with h | h
    · rw [hnan] at h
      exact JsNum.noConfusion h
    · exact h.2
  have hbal : ((Sync.new "A" "B" mixedEvents).calculateDirectionalMetrics :
      DirectionalMetrics ℝ).directionalBalance = 0 :=
    (directionalBalance_props (R := ℝ) (Sync.new "A" "B" mixedEvents)).2.2.2
      (Or.inr (by decide))
  have hk : (mixedEvents.filter (fun e => e.isHighRes (videoFormats ℝ).BIASED)).length = 1 := by
    decide
  have hN : mixedEvents.length = 2 := by decide
  refine ⟨g, hg, hdeg, hcat, hnan, ?_, ?_⟩
  · rw [hnan]
    rfl
  · rw [hv, hval, hs0, hbal, hk, hN]
    norm_num

section TimeEffectTheorems

variable {R : Type} [LinearOrderedField R] [FloorRing R]

/-- The subjective time of a pair with a geometry, for a non-zero angle
tolerance. -/
theorem subjectiveTime_formula (M : JsMath R) (hM : M.Exact) (F : Formats R) (o : Options R)
    (allEvents : List Event) (agentAId agentBId : String) (g : JointManifold R)
    (hg : (Sync.new agentAId agentBId allEvents).calculateJointManifold M F o = some g)
    (hang : o.classifier.angleTolerance ≠ 0) :
    ∃ s v t : R,
      ((o.classifier.analyzeVectors M g.a g.b g.c g.d none none).symmetryScore = JsNum.num s ∨
        ((o.classifier.analyzeVectors M g.a g.b g.c g.d none none).symmetryScore = JsNum.nan ∧
          s = 0)) ∧
      ((Sync.new agentAId agentBId allEvents).analyze M F o allEvents).synchronizationScore
        = JsNum.num v ∧
      ((Sync.new agentAId agentBId allEvents).analyze M F o allEvents).subjectiveTime
        = some { timeEffect := JsNum.num t, perceivedHour := JsNum.num (60 * t) } ∧
      t = 1 / (1 + M.log (max 1
            (((if magnitude M g.a = 0 then 1 else magnitude M g.a)
              * (if magnitude M g.b = 0 then 1 else magnitude M g.b))
              * (0.5 + ((o.classifier.analyzeVectors M g.a g.b g.c g.d none none).categoryId : R)
                  / 23)) + 1)
          * (0.4 * s + 0.6 * v)) ∧
      0 < t ∧ t ≤ 1 := by
  obtain ⟨-, s, v, hs, hs0, -, hv, -, hv0, -⟩ :=
    sync_score_formula M F o allEvents agentAId agentBId g hg hang
  obtain ⟨hscore, -, -⟩ := Sync.analyze_of_some M F o allEvents _ g hg
  have hcs : calculateSynchronizationScore F allEvents
      (o.classifier.analyzeVectors M g.a g.b g.c g.d none none) g = JsNum.num v :=
    hscore.symm.trans hv
  have hor : (o.classifier.analyzeVectors M g.a g.b g.c g.d none none).symmetryScore.orElse
      (JsNum.num 0) = JsNum.num s := by
    rcases hs with h | ⟨h, h0⟩
    · rw [h, JsNum.num_orElse]
      split
      · rename_i hz; rw [hz]
      · rfl
    · rw [h, h0]; rfl
  have harg : (0 : R) < max 1
      (((if magnitude M g.a = 0 then 1 else magnitude M g.a)
        * (if magnitude M g.b = 0 then 1 else magnitude M g.b))
        * (0.5 + ((o.classifier.analyzeVectors M g.a g.b g.c g.d none none).categoryId : R)
            / 23)) + 1 := by
    have := le_max_left (1 : R)
      (((if magnitude M g.a = 0 then 1 else magnitude M g.a)
        * (if magnitude M g.b = 0 then 1 else magnitude M g.b))
        * (0.5 + ((o.classifier.analyzeVectors M g.a g.b g.c g.d none none).categoryId : R)
            / 23))
    linarith
  have hlog : 0 ≤ M.log (max 1
      (((if magnitude M g.a = 0 then 1 else magnitude M g.a)
        * (if magnitude M g.b = 0 then 1 else magnitude M g.b))
        * (0.5 + ((o.classifier.analyzeVectors M g.a g.b g.c g.d none none).categoryId : R)
            / 23)) + 1) := by
    apply hM.log_nonneg
    have := le_max_left (1 : R)
      (((if magnitude M g.a = 0 then 1 else magnitude M g.a)
        * (if magnitude M g.b = 0 then 1 else magnitude M g.b))
        * (0.5 + ((o.classifier.analyzeVectors M g.a g.b g.c g.d none none).categoryId : R)
            / 23))
    linarith
  have hW : (0 : R) ≤ 0.4 * s + 0.6 * v := by
    have h4 : (0 : R) ≤ 0.4 := by norm_num
    have h6 : (0 : R) ≤ 0.6 := by norm_num
    exact add_nonneg (mul_nonneg h4 hs0) (mul_nonneg h6 hv0)
  have hden : (1 : R) ≤ 1 + M.log (max 1
      (((if magnitude M g.a = 0 then 1 else magnitude M g.a)
        * (if magnitude M g.b = 0 then 1 else magnitude M g.b))
        * (0.5 + ((o.classifier.analyzeVectors M g.a g.b g.c g.d none none).categoryId : R)
            / 23)) + 1) * (0.4 * s + 0.6 * v) := by
    have := mul_nonneg hlog hW
    linarith
  have hden0 : (1 : R) + M.log (max 1
      (((if magnitude M g.a = 0 then 1 else magnitude M g.a)
        * (if magnitude M g.b = 0 then 1 else magnitude M g.b))
        * (0.5 + ((o.classifier.analyzeVectors M g.a g.b g.c g.d none none).categoryId : R)
            / 23)) + 1) * (0.4 * s + 0.6 * v) ≠ 0 := by
    intro h
    rw [h] at hden
    linarith
  refine ⟨s, v, _, hs, hv, ?_, rfl, ?_, ?_⟩
  · unfold Sync.analyze
    rw [hg]
    have e : s * (0.4 : R) + v * 0.6 = 0.4 * s + 0.6 * v := by ring
    have e1 : (1.0 : R) = 1 := by norm_num
    simp only [hcs, hor, magnitudeOr1, jsLog, e1, JsNum.mul_num, JsNum.add_num, e]
    rw [if_pos harg]
    simp only [JsNum.mul_num, JsNum.add_num, JsNum.div_num _ hden0]
  · exact div_pos one_pos (lt_of_lt_of_le one_pos hden)
  · rw [div_le_one (lt_of_lt_of_le one_pos hden)]
    exact hden

end TimeEffectTheorems

section TetragonalTheorems

variable {R : Type} [LinearOrderedField R]

/-- A geometry measured with six right angles, with `a` and `b` of equal
length and `b` and `c` of unequal length, for an angle tolerance in (0, 30]:
the category is Tetragonal and the score `min(1, 15/23 + 2·deviation)`. -/
theorem analyzeVectors_tetragonal_of (M : JsMath R) (tolerance angleTolerance : Option R)
    (a b c d : Vec4 R)
    (hA : measureAngles M a b c d = ⟨90, 90, 90, 90, 90, 90⟩)
    (hang : 0 < (Classifier.new tolerance angleTolerance).angleTolerance)
    (hang30 : (Classifier.new tolerance angleTolerance).angleTolerance ≤ 30)
    (hab : (Classifier.new tolerance angleTolerance).eq
      (Classifier.new tolerance angleTolerance).tolerance (magnitude M a) (magnitude M b) = true)
    (hbc : (Classifier.new tolerance angleTolerance).eq
      (Classifier.new tolerance angleTolerance).tolerance (magnitude M b) (magnitude M c)
        = false) :
    ((Classifier.new tolerance angleTolerance).analyzeVectors M a b c d none none).categoryId
        = 15 ∧
      ((Classifier.new tolerance angleTolerance).analyzeVectors M a b c d none none).symmetryScore
        = JsNum.num (min 1 (15 / 23
            + 2 * (Classifier.new tolerance angleTolerance).deviation)) := by
  have hdev : 0 ≤ (Classifier.new tolerance angleTolerance).deviation := by
    have h1 : (Classifier.new tolerance angleTolerance).deviation
        = (Classifier.new tolerance angleTolerance).angleTolerance * 0.01 := rfl
    rw [h1]
    have : (0 : R) < 0.01 := by norm_num
    positivity
  have h90 : ∀ x : R, x = 90 →
      decide (|x - 90| < (Classifier.new tolerance angleTolerance).angleTolerance) = true := by
    intro x hx
    rw [hx]
    simpa using hang
  have h1 : ((Classifier.new tolerance angleTolerance).symOf M a b c d none none).all90
      = true := by
    simp only [Classifier.symOf, Classifier.createSymmetryMap, Option.getD_none, hA, h90 90 rfl,
      Bool.and_self]
  have h2 : ((Classifier.new tolerance angleTolerance).symOf M a b c d none none).is120
      (measureAngles M a b c d).γ = false := by
    simp only [Classifier.symOf, Classifier.createSymmetryMap, Option.getD_none, hA]
    apply decide_eq_false
    rw [show (90 : R) - 120 = -30 by norm_num, abs_neg, abs_of_pos (by norm_num : (0 : R) < 30)]
    exact not_lt.2 hang30
  have h3 : ((Classifier.new tolerance angleTolerance).symOf M a b c d none none).allEdgesEq
      = false := by
    simp only [Classifier.symOf, Classifier.createSymmetryMap, Option.getD_none, measureLengths,
      hbc, Bool.and_false, Bool.false_and]
  have h4 : ((Classifier.new tolerance angleTolerance).symOf M a b c d none none).abEq
      = true := by
    simp only [Classifier.symOf, Classifier.createSymmetryMap, Option.getD_none, measureLengths,
      hab]
  have hm : (Classifier.new tolerance angleTolerance).matched M a b c d none none
      = some tetragonal := by
    rw [matched_new_eq]
    rcases find_taxonomy_cases (measureLengths M a b c d) (measureAngles M a b c d)
      ((Classifier.new tolerance angleTolerance).symOf M a b c d none none) with
      h | h | h | h | h | h | h | h
    all_goals first
      | exact h.1
      | (exfalso; simp_all)
  have ht : totalDev (Ideals.ofAll (JsVal.number 90)) (measureAngles M a b c d)
      = JsNum.num (0 : R) := by
    rw [totalDev_all90, hA]
    simp
  constructor
  · simp [Classifier.analyzeVectors, hm, tetragonal]
  · have hs := calculateSymmetryScore_of_totalDev M (Classifier.new tolerance angleTolerance)
      tetragonal (measureLengths M a b c d) (measureAngles M a b c d) "ab_equal"
      (Ideals.ofAll (JsVal.number 90)) 0 (by simp [tetragonal]) rfl ht hang.ne'
    simp only [Classifier.analyzeVectors, hm, Option.getD_some]
    rw [hs]
    congr 1
    have e : (if ("ab_equal" : String) = "equal"
        then (Classifier.new tolerance angleTolerance).deviation
          * edgeConsistency M (measureLengths M a b c d)
        else (Classifier.new tolerance angleTolerance).deviation)
        = (Classifier.new tolerance angleTolerance).deviation := by
      rw [if_neg (by decide)]
    rw [e]
    have e2 : ((tetragonal : Definition R).id : R) = 15 := by simp [tetragonal]
    rw [e2]
    have e3 : max (0 : R) (1 - 0 / 6 / (Classifier.new tolerance angleTolerance).angleTolerance)
        = 1 := by simp
    rw [e3]
    have e4 : (15 / 23 : R) + (Classifier.new tolerance angleTolerance).deviation
        + (Classifier.new tolerance angleTolerance).deviation * 1
        = 15 / 23 + 2 * (Classifier.new tolerance angleTolerance).deviation := by ring
    rw [e4]
    apply max_eq_right
    apply le_min (by norm_num)
    have : (0 : R) ≤ 15 / 23 := by norm_num
    linarith

end TetragonalTheorems

/-- The pair of `plainEvents`: both boosted vectors have the norm 0.4, the
category is Tetragonal and the symmetry score 219/230. -/
theorem plainEvents_geometry :
    ∃ g : JointManifold ℝ,
      (Sync.new "A" "B" plainEvents).calculateJointManifold realMath (videoFormats ℝ)
        (noOptions ℝ) = some g ∧
      magnitude realMath g.a = 0.4 ∧ magnitude realMath g.b = 0.4 ∧
      ((noOptions ℝ).classifier.analyzeVectors realMath g.a g.b g.c g.d none none).categoryId
        = 15 ∧
      ((noOptions ℝ).classifier.analyzeVectors realMath g.a g.b g.c g.d none none).symmetryScore
        = JsNum.num (219 / 230) := by
  have hhead : (groupSessions (Sync.new "A" "B" plainEvents).logs).head? =
      some { start := some 0, end_ := some 0, types := ["DEFAULT"],
             logs := [mkEvent "A" "B" 0 none none] } := by decide
  have hlast : (groupSessions (Sync.new "A" "B" plainEvents).logs).getLast? =
      some { start := some 86400000, end_ := some 86400000, types := ["DEFAULT"],
             logs := [mkEvent "A" "B" 86400000 none none] } := by decide
  obtain ⟨g, hg, ha, hb, hc, hd, -, -⟩ := calculateJointManifold_eq realMath (videoFormats ℝ)
    (noOptions ℝ) (Sync.new "A" "B" plainEvents) _ _ (by decide) hhead hlast
  have hco : (coRatioOf (videoFormats ℝ).BIASED
      (groupSessions (Sync.new "A" "B" plainEvents).logs) : ℝ) = 0 := by
    have h1 : highResSessions (videoFormats ℝ).BIASED
        (groupSessions (Sync.new "A" "B" plainEvents).logs) = 0 := by decide
    simp [coRatioOf, h1]
  have hspan : (totalSpanOf
      ({ start := some 0, end_ := some 0, types := ["DEFAULT"],
         logs := [mkEvent "A" "B" 0 none none] } : Session)
      ({ start := some 86400000, end_ := some 86400000, types := ["DEFAULT"],
         logs := [mkEvent "A" "B" 86400000 none none] } : Session) : JsNum ℝ)
      = JsNum.num 1 := by
    simp [totalSpanOf, timeDiffOver, DAYS]
  have hθ : angleDegOf (0 : ℝ) (JsNum.num 1) = 90 := by
    unfold angleDegOf
    norm_num
  have hvA : valAOf realMath (JsNum.num (1 : ℝ)) = 1 := by
    have h2 : Real.logb 2 (1 + 1) = 1 := by
      rw [one_add_one_eq_two]
      exact Real.logb_self_eq_one (by norm_num)
    have h3 : (JsNum.num (1 : ℝ)).orElse (JsNum.num 1) = JsNum.num 1 := by
      rw [JsNum.num_orElse, if_neg one_ne_zero]
    have h4 : min (5 : ℝ) 1 = 1 := min_eq_right (by norm_num)
    simp [valAOf, quantizeTime, jsLog2, realMath, JsNum.ceil, h2, h3, JsNum.min_num, h4]
  have hvB : valBOf ((noOptions ℝ).multipliers (videoFormats ℝ))
      ({ start := some 86400000, end_ := some 86400000, types := ["DEFAULT"],
         logs := [mkEvent "A" "B" 86400000 none none] } : Session) = 1 := by
    have h1 : (List.any [mkEvent "A" "B" 86400000 none none] fun l => l.hasReactions)
        = false := by decide
    simp [valBOf, quantizePayload, typeMultiplier, Options.multipliers, noOptions, videoFormats,
      h1]
  have hbal : ((Sync.new "A" "B" plainEvents).calculateDirectionalMetrics :
      DirectionalMetrics ℝ).directionalBalance = 0 :=
    (directionalBalance_props (R := ℝ) (Sync.new "A" "B" plainEvents)).2.2.2
      (Or.inr (by decide))
  have hboost : (if ((Sync.new "A" "B" plainEvents).calculateDirectionalMetrics :
        DirectionalMetrics ℝ).directionalBalance > RECIP_LIMIT then (1.0 : ℝ)
      else 0.4 + ((Sync.new "A" "B" plainEvents).calculateDirectionalMetrics :
        DirectionalMetrics ℝ).directionalBalance * 0.6) = 0.4 := by
    rw [hbal]
    norm_num [RECIP_LIMIT]
  rw [hspan, hvA, hboost] at ha
  rw [hco, hspan, hθ, hvB, hboost] at hb
  rw [hvB] at hc hd
  obtain ⟨hmeasure, hlen⟩ := measure_pair realMath realMath_exact (1 : ℝ) 1 0.4 90
    one_pos one_pos (by norm_num) (by norm_num) (by norm_num)
  rw [← ha, ← hb, ← hc, ← hd] at hmeasure hlen
  have hma : magnitude realMath g.a = 0.4 := by
    have := congrArg Lengths.a hlen
    simpa [measureLengths] using this
  have hmb : magnitude realMath g.b = 0.4 := by
    have := congrArg Lengths.b hlen
    simpa [measureLengths] using this
  have hmc : magnitude realMath g.c = 1 := by
    have := congrArg Lengths.c hlen
    simpa [measureLengths] using this
  have htol : (Classifier.new (noOptions ℝ).tolerance (noOptions ℝ).angleTolerance).angleTolerance
      = (15 : ℝ) := by
    simp only [Classifier.new, noOptions, Option.getD_none]
    norm_num
  have htol2 : (Classifier.new (noOptions ℝ).tolerance (noOptions ℝ).angleTolerance).tolerance
      = (0.2 : ℝ) := by
    simp only [Classifier.new, noOptions, Option.getD_none]
  have hdev : (Classifier.new (noOptions ℝ).tolerance (noOptions ℝ).angleTolerance).deviation
      = (0.15 : ℝ) := by
    simp only [Classifier.new, noOptions, Option.getD_none]
    norm_num
  obtain ⟨hcat, hscore⟩ := analyzeVectors_tetragonal_of realMath (noOptions ℝ).tolerance
    (noOptions ℝ).angleTolerance g.a g.b g.c g.d hmeasure
    (by rw [htol]; norm_num) (by rw [htol]; norm_num)
    (by
      rw [hma, hmb]
      apply Classifier.eq_self
      rw [htol, htol2]
      norm_num)
    (by
      rw [hmb, hmc, htol2]
      unfold Classifier.eq
      rw [htol]
      have h1 : ¬ ((0.4 : ℝ) = 0 ∧ (1 : ℝ) = 0) := by norm_num
      have h2 : max (0.4 : ℝ) 1 = 1 := max_eq_right (by norm_num)
      simp only [if_neg h1, h2, JsNum.div_num _ (one_ne_zero), JsNum.lt_num]
      apply decide_eq_false
      rw [show |(0.4 : ℝ) - 1| = 0.6 by
        rw [show (0.4 : ℝ) - 1 = -0.6 by norm_num, abs_neg, abs_of_pos (by norm_num)]]
      norm_num)
  refine ⟨g, hg, hma, hmb, hcat, ?_⟩
  show ((Classifier.new (noOptions ℝ).tolerance (noOptions ℝ).angleTolerance).analyzeVectors
    realMath g.a g.b g.c g.d none none).symmetryScore = _
  rw [hscore, hdev]
  congr 1
  norm_num

section TimeEffectClaim

variable {R : Type} [LinearOrderedField R] [FloorRing R]

/-- C20 (amended): for every pair that has a geometry and a non-zero angle
tolerance, `subjectiveTime.timeEffect = 1 / (1 + ln(max(1, M) + 1)·W)` and
`perceivedHour = 60·timeEffect`, where `M = magA·magB·(0.5 + categoryId/23)`,
`magA` is the norm of the boosted `a` when that norm is not zero and 1 when it
is zero (likewise `magB`; a norm between 0 and 1 is kept as it is), and
`W = 0.4·s + 0.6·synchronizationScore` with `s` the symmetry score, or 0 when
that score is `NaN`; the time effect lies in (0, 1]. -/
theorem analyze_subjectiveTime (M : JsMath R) (hM : M.Exact) (F : Formats R) (o : Options R)
    (allEvents : List Event) (agentAId agentBId : String) (g : JointManifold R)
    (hg : (Sync.new agentAId agentBId allEvents).calculateJointManifold M F o = some g)
    (hang : o.classifier.angleTolerance ≠ 0) :
    ∃ s v t : R,
      ((o.classifier.analyzeVectors M g.a g.b g.c g.d none none).symmetryScore = JsNum.num s ∨
        ((o.classifier.analyzeVectors M g.a g.b g.c g.d none none).symmetryScore = JsNum.nan ∧
          s = 0)) ∧
      ((Sync.new agentAId agentBId allEvents).analyze M F o allEvents).synchronizationScore
        = JsNum.num v ∧
      ((Sync.new agentAId agentBId allEvents).analyze M F o allEvents).subjectiveTime
        = some { timeEffect := JsNum.num t, perceivedHour := JsNum.num (60 * t) } ∧
      t = 1 / (1 + M.log (max 1
            (((if magnitude M g.a = 0 then 1 else magnitude M g.a)
              * (if magnitude M g.b = 0 then 1 else magnitude M g.b))
              * (0.5 + ((o.classifier.analyzeVectors M g.a g.b g.c g.d none none).categoryId : R)
                  / 23)) + 1)
          * (0.4 * s + 0.6 * v)) ∧
      0 < t ∧ t ≤ 1 :=
  subjectiveTime_formula M hM F o allEvents agentAId agentBId g hg hang

end TimeEffectClaim

/-- C20 (witness): the pair of scenario A with the real primitives and the
default tolerances. -/
theorem analyze_subjectiveTime_witness :
    ∃ g : JointManifold ℝ,
      (Sync.new "A" "B" scenarioA).calculateJointManifold realMath (videoFormats ℝ)
        (noOptions ℝ) = some g ∧
      (noOptions ℝ).classifier.angleTolerance ≠ 0 ∧
      ∃ s v t : ℝ,
        (((noOptions ℝ).classifier.analyzeVectors realMath g.a g.b g.c g.d none
            none).symmetryScore = JsNum.num s ∨
          (((noOptions ℝ).classifier.analyzeVectors realMath g.a g.b g.c g.d none
            none).symmetryScore = JsNum.nan ∧ s = 0)) ∧
        ((Sync.new "A" "B" scenarioA).analyze realMath (videoFormats ℝ) (noOptions ℝ)
          scenarioA).synchronizationScore = JsNum.num v ∧
        ((Sync.new "A" "B" scenarioA).analyze realMath (videoFormats ℝ) (noOptions ℝ)
          scenarioA).subjectiveTime
          = some { timeEffect := JsNum.num t, perceivedHour := JsNum.num (60 * t) } ∧
        t = 1 / (1 + realMath.log (max 1
              (((if magnitude realMath g.a = 0 then 1 else magnitude realMath g.a)
                * (if magnitude realMath g.b = 0 then 1 else magnitude realMath g.b))
                * (0.5 + (((noOptions ℝ).classifier.analyzeVectors realMath g.a g.b g.c g.d none
                    none).categoryId : ℝ) / 23)) + 1)
            * (0.4 * s + 0.6 * v)) ∧
        0 < t ∧ t ≤ 1 := by
  obtain ⟨g, hg⟩ := calculateJointManifold_isSome realMath (videoFormats ℝ) (noOptions ℝ)
    (Sync.new "A" "B" scenarioA) (by decide)
  have hang : (noOptions ℝ).classifier.angleTolerance ≠ 0 := by
    simp only [Options.classifier, Classifier.new, noOptions, Option.getD_none]
    norm_num
  exact ⟨g, hg, hang, analyze_subjectiveTime realMath realMath_exact (videoFormats ℝ)
    (noOptions ℝ) scenarioA "A" "B" g hg hang⟩

/-- C20 (counterexample): for the pair of `plainEvents` both boosted norms are
0.4, below the floor of the specification; the time effect returned by
`analyze` is `1 / (1 + ln 2·W)`, and the formula of the specification, with
both norms raised to 1, gives the smaller number `1 / (1 + ln(99/46)·W)`. -/
theorem analyze_timeEffect_not_floored :
    ∃ g : JointManifold ℝ,
      (Sync.new "A" "B" plainEvents).calculateJointManifold realMath (videoFormats ℝ)
        (noOptions ℝ) = some g ∧
      magnitude realMath g.a = 0.4 ∧ magnitude realMath g.b = 0.4 ∧
      ∃ t t' : ℝ,
        ((Sync.new "A" "B" plainEvents).analyze realMath (videoFormats ℝ) (noOptions ℝ)
          plainEvents).subjectiveTime
          = some { timeEffect := JsNum.num t, perceivedHour := JsNum.num (60 * t) } ∧
        specTimeEffect realMath (magnitude realMath g.a) (magnitude realMath g.b)
          ((noOptions ℝ).classifier.analyzeVectors realMath g.a g.b g.c g.d none none).categoryId
          ((noOptions ℝ).classifier.analyzeVectors realMath g.a g.b g.c g.d none
            none).symmetryScore
          ((Sync.new "A" "B" plainEvents).analyze realMath (videoFormats ℝ) (noOptions ℝ)
            plainEvents).synchronizationScore = JsNum.num t' ∧
        t' < t := by
  obtain ⟨g, hg, hma, hmb, hcat, hsym⟩ := plainEvents_geometry
  have hang : (noOptions ℝ).classifier.angleTolerance ≠ 0 := by
    simp only [Options.classifier, Classifier.new, noOptions, Option.getD_none]
    norm_num
  obtain ⟨s, v, t, hs, hv, hst, ht, -, -⟩ := subjectiveTime_formula realMath realMath_exact
    (videoFormats ℝ) (noOptions ℝ) plainEvents "A" "B" g hg hang
  obtain ⟨-, s', v', hs', -, -, hv', hval, -, -⟩ := sync_score_formula realMath (videoFormats ℝ)
    (noOptions ℝ) plainEvents "A" "B" g hg hang
  have hs1 : s = 219 / 230 := by
    rcases hs with h | h
    · rw [hsym] at h
      exact (JsNum.num.inj h).symm
    · rw [hsym] at h
      exact JsNum.noConfusion h.1
  have hs2 : s' = 219 / 230 := by
    rcases hs' with h | h
    · rw [hsym] at h
      exact (JsNum.num.inj h).symm
    · rw [hsym] at h
      exact JsNum.noConfusion h.1
  have hvv : v = v' := JsNum.num.inj (hv.symm.trans hv')
  have hbal : ((Sync.new "A" "B" plainEvents).calculateDirectionalMetrics :
      DirectionalMetrics ℝ).directionalBalance = 0 :=
    (directionalBalance_props (R := ℝ) (Sync.new "A" "B" plainEvents)).2.2.2
      (Or.inr (by decide))
  have hk : (plainEvents.filter (fun e => e.isHighRes (videoFormats ℝ).BIASED)).length = 0 := by
    decide
  have hv1 : v = 0.45 * (219 / 230) := by
    rw [hvv, hval, hs2, hbal, hk]
    norm_num
  have hW : (0 : ℝ) < 0.4 * s + 0.6 * v := by
    rw [hs1, hv1]
    norm_num
  have hlog2 : 0 < Real.log 2 := Real.log_pos (by norm_num)
  have hlt : Real.log 2 < Real.log (99 / 46) := Real.log_lt_log (by norm_num) (by norm_num)
  have hcode : t = 1 / (1 + Real.log 2 * (0.4 * s + 0.6 * v)) := by
    rw [ht, hma, hmb, hcat]
    have e : max (1 : ℝ) (((if (0.4 : ℝ) = 0 then 1 else 0.4)
        * (if (0.4 : ℝ) = 0 then 1 else 0.4)) * (0.5 + ((15 : ℕ) : ℝ) / 23)) + 1 = 2 := by
      rw [max_eq_left (by norm_num)]
      norm_num
    rw [e]
    rfl
  have hspec : specTimeEffect realMath (magnitude realMath g.a) (magnitude realMath g.b)
      ((noOptions ℝ).classifier.analyzeVectors realMath g.a g.b g.c g.d none none).categoryId
      ((noOptions ℝ).classifier.analyzeVectors realMath g.a g.b g.c g.d none none).symmetryScore
      ((Sync.new "A" "B" plainEvents).analyze realMath (videoFormats ℝ) (noOptions ℝ)
        plainEvents).synchronizationScore
      = JsNum.num (1 / (1 + Real.log (99 / 46) * (0.4 * s + 0.6 * v))) := by
    rw [hma, hmb, hcat, hsym, hv, ← hs1]
    have e : max (1 : ℝ) (max 1 (0.4 : ℝ) * max 1 (0.4 : ℝ) * (0.5 + ((15 : ℕ) : ℝ) / 23)) + 1
        = 99 / 46 := by
      rw [max_eq_left (by norm_num : (0.4 : ℝ) ≤ 1), max_eq_right (by norm_num)]
      norm_num
    have hpos : (0 : ℝ) < 99 / 46 := by norm_num
    have hden : (1 : ℝ) + Real.log (99 / 46) * (0.4 * s + 0.6 * v) ≠ 0 := by
      have := mul_pos (lt_trans hlog2 hlt) hW
      linarith
    unfold specTimeEffect
    simp only [e, jsLog, if_pos hpos, JsNum.mul_num, JsNum.add_num]
    exact JsNum.div_num _ hden
  refine ⟨g, hg, hma, hmb, t, _, hst, hspec, ?_⟩
  rw [hcode]
  apply one_div_lt_one_div_of_lt
  · have := mul_pos hlog2 hW
    linarith
  · have := mul_lt_mul_of_pos_right hlt hW
    linarith

/-! ### The network: admitting an event twice -/

section DuplicateTheorems

variable {R : Type} [LinearOrderedField R] [FloorRing R]

/-- `mapModify` keeps the keys of a map. -/
theorem mapHas_mapModify {α : Type} (m : List (String × α)) (k k' : String) (f : α → α) :
    mapHas (mapModify m k f) k' = mapHas m k' := by
  unfold mapHas mapModify
  induction m with
  | nil => rfl
  | cons kv m ih =>
    simp only [List.map_cons, List.any_cons, ih]
    by_cases h : kv.1 = k <;> simp [h]

/-- `registerAgent` leaves the pair registry and the options as they are. -/
theorem registerAgent_frame (net : Network R) (x : String) :
    (net.registerAgent x).1.pairs = net.pairs ∧
      (net.registerAgent x).1.options = net.options := by
  unfold Network.registerAgent
  split
  · exact ⟨rfl, rfl⟩
  · split <;> exact ⟨rfl, rfl⟩

/-- `addEvent` leaves the options and the key set of the pair registry as they are. -/
theorem addEvent_frame (net : Network R) (event : Event) :
    (net.addEvent event).1.options = net.options ∧
      ∀ k, mapHas (net.addEvent event).1.pairs k = mapHas net.pairs k := by
  unfold Network.addEvent
  split
  · exact ⟨rfl, fun _ => rfl⟩
  · split
    · exact ⟨rfl, fun _ => rfl⟩
    · split
      · exact ⟨rfl, fun _ => rfl⟩
      · split
        · rename_i sender receiver hs hr
          obtain ⟨p1, o1⟩ := registerAgent_frame
            ({ net with events := net.events ++ [event] } : Network R) sender
          obtain ⟨p2, o2⟩ := registerAgent_frame
            (({ net with events := net.events ++ [event] } : Network R).registerAgent sender).1
            receiver
          have hp := p2.trans p1
          have ho := o2.trans o1
          simp only [] at hp ho ⊢
          split
          · refine ⟨ho, fun k => ?_⟩
            simp only []
            split
            · rw [mapHas_mapModify, hp]
            · rw [hp]
          · exact ⟨ho, fun k => by rw [hp]⟩
        · exact ⟨rfl, fun _ => rfl⟩

/-- The result of `analyzePair` for a pair key that is not registered is that
of a new synchronizer over the global log. -/
theorem analyzePair_fresh (M : JsMath R) (F : Formats R) (net : Network R) (a b : String)
    (h : mapHas net.pairs (getPairKey a b) = false) :
    (net.analyzePair M F a b).2 = (Sync.new a b net.events).analyze M F net.options net.events := by
  unfold Network.analyzePair
  simp only [h, Bool.false_eq_true, if_false]
  have hget : mapGet (net.pairs ++ [(getPairKey a b, Sync.new a b net.events)]) (getPairKey a b)
      = some (Sync.new a b net.events) := by
    unfold mapGet
    have hnone : net.pairs.find? (fun kv => decide (kv.1 = getPairKey a b)) = none := by
      rw [List.find?_eq_none]
      intro kv hkv hk
      unfold mapHas at h
      rw [List.any_eq_false] at h
      exact h kv hkv hk
    rw [List.find?_append, hnone]
    simp
  rw [hget]
  rfl

end DuplicateTheorems

section DuplicateClaim

variable {R : Type} [LinearOrderedField R] [FloorRing R]

/-- C10 (amended): for every network state and every valid event `e` between
two distinct agents whose ids are not blank, admitting `e` twice is accepted
twice and stores `e` twice: both calls of `addEvent` return `true`, the global
log grows by two copies of `e`, and for every pair whose key is not yet
registered the result of `analyzePair` is that of a synchronizer built over
the log with both copies (nothing deduplicates). -/
theorem addEvent_twice_stores_twice (M : JsMath R) (F : Formats R) (net : Network R)
    (event : Event) (s r : String) (ms : ℤ)
    (hs : event.sender = some s) (hr : event.receiver = some r)
    (ht : event.timestamp = Timestamp.at ms) (hne : s ≠ r)
    (hsb : isBlank s = false) (hrb : isBlank r = false) (a b : String)
    (hfresh : mapHas net.pairs (getPairKey a b) = false) :
    (net.addEvent event).2 = true ∧ ((net.addEvent event).1.addEvent event).2 = true ∧
      ((net.addEvent event).1.addEvent event).1.events = net.events ++ [event, event] ∧
      (((net.addEvent event).1.addEvent event).1.analyzePair M F a b).2
        = (Sync.new a b (net.events ++ [event, event])).analyze M F net.options
            (net.events ++ [event, event]) := by
  obtain ⟨h1, e1⟩ := addEvent_accepted net event s r ms hs hr ht hne hsb hrb
  obtain ⟨h2, e2⟩ := addEvent_accepted (net.addEvent event).1 event s r ms hs hr ht hne hsb hrb
  obtain ⟨o1, k1⟩ := addEvent_frame net event
  obtain ⟨o2, k2⟩ := addEvent_frame (net.addEvent event).1 event
  have hev : ((net.addEvent event).1.addEvent event).1.events = net.events ++ [event, event] := by
    rw [e2, e1, List.append_assoc]
    rfl
  refine ⟨h1, h2, hev, ?_⟩
  rw [analyzePair_fresh M F _ a b (by rw [k2, k1, hfresh]), hev, o2, o1]

end DuplicateClaim

/-- C10 (witness): the reacted event admitted twice to the network that holds
one event. -/
theorem addEvent_twice_stores_twice_witness :
    ((oneEventNetwork ℝ).addEvent reactedEvent).2 = true ∧
      (((oneEventNetwork ℝ).addEvent reactedEvent).1.addEvent reactedEvent).2 = true ∧
      (((oneEventNetwork ℝ).addEvent reactedEvent).1.addEvent reactedEvent).1.events
        = (oneEventNetwork ℝ).events ++ [reactedEvent, reactedEvent] ∧
      ((((oneEventNetwork ℝ).addEvent reactedEvent).1.addEvent reactedEvent).1.analyzePair
          realMath (videoFormats ℝ) "A" "B").2
        = (Sync.new "A" "B" ((oneEventNetwork ℝ).events ++ [reactedEvent, reactedEvent])).analyze
            realMath (videoFormats ℝ) (oneEventNetwork ℝ).options
            ((oneEventNetwork ℝ).events ++ [reactedEvent, reactedEvent]) :=
  addEvent_twice_stores_twice realMath (videoFormats ℝ) (oneEventNetwork ℝ) reactedEvent "A" "B"
    86400000 rfl rfl rfl (by decide) (by decide) (by decide) "A" "B" (by decide)

/-- The geometry of the pair `A`, `B` over the one plain event followed by
`n + 1` copies of the reacted event does not depend on `n`, for `n` of 0 and 1. -/
theorem duplicate_same_classification :
    ∃ g1 g2 : JointManifold ℝ,
      (Sync.new "A" "B" [mkEvent "A" "B" 0 none none, reactedEvent]).calculateJointManifold
        realMath (videoFormats ℝ) (noOptions ℝ) = some g1 ∧
      (Sync.new "A" "B" [mkEvent "A" "B" 0 none none, reactedEvent,
        reactedEvent]).calculateJointManifold realMath (videoFormats ℝ) (noOptions ℝ)
        = some g2 ∧
      g1.a = g2.a ∧ g1.b = g2.b ∧ g1.c = g2.c ∧ g1.d = g2.d := by
  have hhead1 : (groupSessions
      (Sync.new "A" "B" [mkEvent "A" "B" 0 none none, reactedEvent]).logs).head? =
      some { start := some 0, end_ := some 0, types := ["DEFAULT"],
             logs := [mkEvent "A" "B" 0 none none] } := by decide
  have hlast1 : (groupSessions
      (Sync.new "A" "B" [mkEvent "A" "B" 0 none none, reactedEvent]).logs).getLast? =
      some { start := some 86400000, end_ := some 86400000, types := ["DEFAULT"],
             logs := [reactedEvent] } := by decide
  have hhead2 : (groupSessions
      (Sync.new "A" "B" [mkEvent "A" "B" 0 none none, reactedEvent, reactedEvent]).logs).head? =
      some { start := some 0, end_ := some 0, types := ["DEFAULT"],
             logs := [mkEvent "A" "B" 0 none none] } := by decide
  have hlast2 : (groupSessions
      (Sync.new "A" "B" [mkEvent "A" "B" 0 none none, reactedEvent,
        reactedEvent]).logs).getLast? =
      some { start := some 86400000, end_ := some 86400000, types := ["DEFAULT"],
             logs := [reactedEvent, reactedEvent] } := by decide
  obtain ⟨g1, hg1, ha1, hb1, hc1, hd1, -, -⟩ := calculateJointManifold_eq realMath
    (videoFormats ℝ) (noOptions ℝ) (Sync.new "A" "B" [mkEvent "A" "B" 0 none none, reactedEvent])
    _ _ (by decide) hhead1 hlast1
  obtain ⟨g2, hg2, ha2, hb2, hc2, hd2, -, -⟩ := calculateJointManifold_eq realMath
    (videoFormats ℝ) (noOptions ℝ)
    (Sync.new "A" "B" [mkEvent "A" "B" 0 none none, reactedEvent, reactedEvent])
    _ _ (by decide) hhead2 hlast2
  have hco1 : (coRatioOf (videoFormats ℝ).BIASED (groupSessions
      (Sync.new "A" "B" [mkEvent "A" "B" 0 none none, reactedEvent]).logs) : ℝ) = 0 := by
    have h1 : highResSessions (videoFormats ℝ).BIASED (groupSessions
        (Sync.new "A" "B" [mkEvent "A" "B" 0 none none, reactedEvent]).logs) = 0 := by decide
    simp [coRatioOf, h1]
  have hco2 : (coRatioOf (videoFormats ℝ).BIASED (groupSessions
      (Sync.new "A" "B" [mkEvent "A" "B" 0 none none, reactedEvent, reactedEvent]).logs) : ℝ)
      = 0 := by
    have h1 : highResSessions (videoFormats ℝ).BIASED (groupSessions
        (Sync.new "A" "B" [mkEvent "A" "B" 0 none none, reactedEvent, reactedEvent]).logs)
        = 0 := by decide
    simp [coRatioOf, h1]
  have hspan : ∀ l1 l2 : List Event, (totalSpanOf
      ({ start := some 0, end_ := some 0, types := ["DEFAULT"], logs := l1 } : Session)
      ({ start := some 86400000, end_ := some 86400000, types := ["DEFAULT"],
         logs := l2 } : Session) : JsNum ℝ) = JsNum.num 1 := by
    intro l1 l2
    simp [totalSpanOf, timeDiffOver, DAYS]
  have hvB1 : valBOf ((noOptions ℝ).multipliers (videoFormats ℝ))
      ({ start := some 86400000, end_ := some 86400000, types := ["DEFAULT"],
         logs := [reactedEvent] } : Session) = 2 := by
    have h1 : (List.any [reactedEvent] fun l => l.hasReactions) = true := by decide
    simp only [valBOf, quantizePayload, typeMultiplier, Options.multipliers, noOptions,
      videoFormats, h1, Option.getD_none, List.foldl_cons, List.foldl_nil, if_true]
    norm_num
  have hvB2 : valBOf ((noOptions ℝ).multipliers (videoFormats ℝ))
      ({ start := some 86400000, end_ := some 86400000, types := ["DEFAULT"],
         logs := [reactedEvent, reactedEvent] } : Session) = 2 := by
    have h1 : (List.any [reactedEvent, reactedEvent] fun l => l.hasReactions) = true := by
      decide
    simp only [valBOf, quantizePayload, typeMultiplier, Options.multipliers, noOptions,
      videoFormats, h1, Option.getD_none, List.foldl_cons, List.foldl_nil, if_true]
    norm_num
  have hbal1 : ((Sync.new "A" "B"
      [mkEvent "A" "B" 0 none none, reactedEvent]).calculateDirectionalMetrics :
      DirectionalMetrics ℝ).directionalBalance = 0 :=
    (directionalBalance_props (R := ℝ) _).2.2.2 (Or.inr (by decide))
  have hbal2 : ((Sync.new "A" "B"
      [mkEvent "A" "B" 0 none none, reactedEvent, reactedEvent]).calculateDirectionalMetrics :
      DirectionalMetrics ℝ).directionalBalance = 0 :=
    (directionalBalance_props (R := ℝ) _).2.2.2 (Or.inr (by decide))
  rw [hspan, hbal1] at ha1
  rw [hspan, hbal2] at ha2
  rw [hco1, hspan, hvB1, hbal1] at hb1
  rw [hco2, hspan, hvB2, hbal2] at hb2
  rw [hvB1] at hc1 hd1
  rw [hvB2] at hc2 hd2
  exact ⟨g1, g2, hg1, hg2, ha1.trans ha2.symm, hb1.trans hb2.symm, hc1.trans hc2.symm,
    hd1.trans hd2.symm⟩

/-- C10 (counterexample): on the network that holds one plain event from `A`
to `B`, admitting the reacted event once and twice is accepted both times, and
the synchronisation score of the pair is strictly greater after the second
admission. -/
theorem analyzePair_duplicate_changes_score :
    (((oneEventNetwork ℝ).addEvent reactedEvent).1.addEvent reactedEvent).2 = true ∧
      ∃ v1 v2 : ℝ,
        (((oneEventNetwork ℝ).addEvent reactedEvent).1.analyzePair realMath (videoFormats ℝ)
          "A" "B").2.synchronizationScore = JsNum.num v1 ∧
        ((((oneEventNetwork ℝ).addEvent reactedEvent).1.addEvent reactedEvent).1.analyzePair
          realMath (videoFormats ℝ) "A" "B").2.synchronizationScore = JsNum.num v2 ∧
        v1 < v2 := by
  have hopt0 : (oneEventNetwork ℝ).options = noOptions ℝ :=
    (addEvent_frame (Network.new (noOptions ℝ)) (mkEvent "A" "B" 0 none none)).1
  have hopt1 : ((oneEventNetwork ℝ).addEvent reactedEvent).1.options = noOptions ℝ :=
    (addEvent_frame _ _).1.trans hopt0
  have hopt2 : (((oneEventNetwork ℝ).addEvent reactedEvent).1.addEvent reactedEvent).1.options
      = noOptions ℝ := (addEvent_frame _ _).1.trans hopt1
  have hev1 : ((oneEventNetwork ℝ).addEvent reactedEvent).1.events
      = [mkEvent "A" "B" 0 none none, reactedEvent] := by decide
  have hev2 : (((oneEventNetwork ℝ).addEvent reactedEvent).1.addEvent reactedEvent).1.events
      = [mkEvent "A" "B" 0 none none, reactedEvent, reactedEvent] := by decide
  have hr1 := analyzePair_fresh realMath (videoFormats ℝ)
    ((oneEventNetwork ℝ).addEvent reactedEvent).1 "A" "B" (by decide)
  have hr2 := analyzePair_fresh realMath (videoFormats ℝ)
    (((oneEventNetwork ℝ).addEvent reactedEvent).1.addEvent reactedEvent).1 "A" "B" (by decide)
  rw [hev1, hopt1] at hr1
  rw [hev2, hopt2] at hr2
  rw [hr1, hr2]
  obtain ⟨g1, g2, hg1, hg2, ha, hb, hc, hd⟩ := duplicate_same_classification
  have hang : (noOptions ℝ).classifier.angleTolerance ≠ 0 := by
    simp only [Options.classifier, Classifier.new, noOptions, Option.getD_none]
    norm_num
  obtain ⟨-, s1, v1, hs1, h01, h11, hv1, hval1, -, -⟩ := sync_score_formula realMath
    (videoFormats ℝ) (noOptions ℝ) _ "A" "B" g1 hg1 hang
  obtain ⟨-, s2, v2, hs2, -, -, hv2, hval2, -, -⟩ := sync_score_formula realMath
    (videoFormats ℝ) (noOptions ℝ) _ "A" "B" g2 hg2 hang
  rw [← ha, ← hb, ← hc, ← hd] at hs2
  have hss : s2 = s1 := by
    rcases hs1 with h1 | ⟨h1, z1⟩ <;> rcases hs2 with h2 | ⟨h2, z2⟩
    · exact JsNum.num.inj (h2.symm.trans h1)
    · rw [h1] at h2
      exact JsNum.noConfusion h2
    · rw [h1] at h2
      exact JsNum.noConfusion h2
    · rw [z1, z2]
  have hbal1 : ((Sync.new "A" "B"
      [mkEvent "A" "B" 0 none none, reactedEvent]).calculateDirectionalMetrics :
      DirectionalMetrics ℝ).directionalBalance = 0 :=
    (directionalBalance_props (R := ℝ) _).2.2.2 (Or.inr (by decide))
  have hbal2 : ((Sync.new "A" "B"
      [mkEvent "A" "B" 0 none none, reactedEvent, reactedEvent]).calculateDirectionalMetrics :
      DirectionalMetrics ℝ).directionalBalance = 0 :=
    (directionalBalance_props (R := ℝ) _).2.2.2 (Or.inr (by decide))
  have hk1 : ([mkEvent "A" "B" 0 none none, reactedEvent].filter
      (fun e => e.isHighRes (videoFormats ℝ).BIASED)).length = 1 := by decide
  have hk2 : ([mkEvent "A" "B" 0 none none, reactedEvent, reactedEvent].filter
      (fun e => e.isHighRes (videoFormats ℝ).BIASED)).length = 2 := by decide
  rw [hbal1, hk1] at hval1
  rw [hbal2, hk2, hss] at hval2
  have e1 : v1 = 0.45 * s1 + 1 / 8 := by
    rw [hval1]
    have hx : (0.45 : ℝ) * s1 + 0.25 * 0
        + 0.25 * (((1 : ℕ) : ℝ)
          / (([mkEvent "A" "B" 0 none none, reactedEvent].length : ℕ) : ℝ))
        = 0.45 * s1 + 1 / 8 := by
      simp only [List.length_cons, List.length_nil]
      norm_num
    rw [hx, min_eq_right (by linarith), max_eq_right (by linarith)]
  have e2 : v2 = 0.45 * s1 + 1 / 6 := by
    rw [hval2]
    have hx : (0.45 : ℝ) * s1 + 0.25 * 0
        + 0.25 * (((2 : ℕ) : ℝ)
          / (([mkEvent "A" "B" 0 none none, reactedEvent, reactedEvent].length : ℕ) : ℝ))
        = 0.45 * s1 + 1 / 6 := by
      simp only [List.length_cons, List.length_nil]
      norm_num
    rw [hx, min_eq_right (by linarith), max_eq_right (by linarith)]
  refine ⟨by decide, v1, v2, hv1, hv2, ?_⟩
  rw [e1, e2]
  linarith
/-! ### The score of the Triclinic fallback -/

/-- C21 (failing input): for every classifier and every measured geometry the
score computed for the Triclinic entry is `NaN`, which differs from
`min(1, 1/23 + angleTolerance·0.01)`; with the default tolerances the vectors
a = b = (1,0,0,0), c = (0,0,1,0), d = (0,0,0,1) are classified as Triclinic and
their score is `NaN` instead of `min(1, 1/23 + 0.15)`. -/
theorem triclinic_score_not_flat :
    (∀ (M : JsMath ℝ) (cls : Classifier ℝ) (L : Lengths ℝ) (A : Angles ℝ),
        cls.calculateSymmetryScore M triclinic L A = JsNum.nan ∧
        cls.calculateSymmetryScore M triclinic L A
          ≠ JsNum.num (min 1 (1 / 23 + cls.angleTolerance * 0.01))) ∧
      ((Classifier.new none none).analyzeVectors realMath ⟨1, 0, 0, 0⟩ ⟨1, 0, 0, 0⟩ ⟨0, 0, 1, 0⟩
        ⟨0, 0, 0, 1⟩ none none).categoryId = 1 ∧
      ((Classifier.new none none).analyzeVectors realMath ⟨1, 0, 0, 0⟩ ⟨1, 0, 0, 0⟩ ⟨0, 0, 1, 0⟩
        ⟨0, 0, 0, 1⟩ none none).symmetryScore
          ≠ JsNum.num (min 1 (1 / 23 + (Classifier.new none none : Classifier ℝ).angleTolerance
              * 0.01)) := by
  have hα : angleBetween realMath ⟨1, 0, 0, 0⟩ ⟨0, 0, 1, 0⟩ = 90 :=
    angleBetween_real_orthogonal _ _ (by simp [dotProduct])
  have hγ : angleBetween realMath ⟨1, 0, 0, 0⟩ ⟨1, 0, 0, 0⟩ = 0 :=
    angleBetween_real_parallel _ _ magnitude_real_e0 magnitude_real_e0 (by simp [dotProduct])
  have htol : (Classifier.new none none : Classifier ℝ).angleTolerance = 15 := by
    simp only [Classifier.new, Option.getD_none]
    norm_num
  obtain ⟨hcat, hscore⟩ := analyzeVectors_triclinic_of realMath none none
    ⟨1, 0, 0, 0⟩ ⟨1, 0, 0, 0⟩ ⟨0, 0, 1, 0⟩ ⟨0, 0, 0, 1⟩
    (by rw [hα, htol]; norm_num) (by rw [hγ, htol]; norm_num) (by rw [hγ, htol]; norm_num)
  refine ⟨fun M cls L A => ?_, hcat, ?_⟩
  · rw [calculateSymmetryScore_triclinic]
    exact ⟨rfl, fun h => JsNum.noConfusion h⟩
  · rw [hscore]
    exact fun h => JsNum.noConfusion h

/-! ### Sessions partition a sorted log -/

section PartitionTheorems

/-- Replacing the last session of a chain by one with the same first event
keeps the chain of openings. -/
theorem chain_openedAfter_replace_last (ss : List Session) (cur cur2 : Session)
    (h : List.Chain' Session.OpenedAfter (ss ++ [cur]))
    (hhead : cur2.logs.head? = cur.logs.head?) :
    List.Chain' Session.OpenedAfter (ss ++ [cur2]) := by
  rw [List.chain'_append] at h ⊢
  refine ⟨h.1, List.chain'_singleton _, ?_⟩
  intro x hx y hy
  have hy2 : y = cur2 := by simpa using hy.symm
  subst hy2
  obtain ⟨e, he, hg⟩ := h.2.2 x hx cur (by simp)
  exact ⟨e, hhead.trans he, hg⟩

/-- The state of the grouping loop after a log: closed and current sessions
are faithful, each was opened after the one before it, and their members in
order are the members before followed by the log. -/
theorem foldl_groupStep_partition (l : List Event) (ss : List Session) (cur : Session)
    (hgood : ∀ s ∈ ss ++ [cur], s.Faithful)
    (hfar : List.Chain' Session.OpenedAfter (ss ++ [cur])) :
    ∃ (ss2 : List Session) (cur2 : Session),
      l.foldl groupStep (ss, some cur) = (ss2, some cur2) ∧
      (∀ s ∈ ss2 ++ [cur2], s.Faithful) ∧
      List.Chain' Session.OpenedAfter (ss2 ++ [cur2]) ∧
      ((ss2 ++ [cur2]).map Session.logs).flatten = ((ss ++ [cur]).map Session.logs).flatten ++ l := by
  induction l generalizing ss cur with
  | nil => exact ⟨ss, cur, rfl, hgood, hfar, by simp⟩
  | cons e es ih =>
    rw [List.foldl_cons, groupStep_some]
    have hcur : cur.Faithful := hgood cur (by simp)
    by_cases hgap : gapExceeds e.time cur.end_ = true
    · simp only [hgap, if_true]
      obtain ⟨ss2, cur2, h1, h2, h3, h4⟩ := ih (ss ++ [cur]) ((Session.fresh e.time).extend e)
        (by
          intro s hs
          rcases List.mem_append.1 hs with hs | hs
          · exact hgood s hs
          · rw [List.mem_singleton.1 hs]
            exact ⟨by simp [Session.extend, Session.fresh], rfl, rfl,
              List.chain'_singleton _⟩)
        (by
          rw [List.chain'_append]
          refine ⟨hfar, List.chain'_singleton _, ?_⟩
          intro x hx y hy
          have hx2 : x = cur := by simpa using hx.symm
          have hy2 : y = (Session.fresh e.time).extend e := by simpa using hy.symm
          subst hx2 hy2
          exact ⟨e, rfl, hgap⟩)
      refine ⟨ss2, cur2, h1, h2, h3, ?_⟩
      rw [h4]
      simp [Session.extend, Session.fresh]
    · simp only [hgap, if_false, Bool.false_eq_true]
      have hgap2 : gapExceeds e.time cur.end_ = false := by simpa using hgap
      obtain ⟨hne, hhead, hlast, hchain⟩ := hcur
      have hhead2 : (cur.extend e).logs.head? = cur.logs.head? := by
        cases hl : cur.logs with
        | nil => exact absurd hl hne
        | cons x xs => simp [Session.extend, hl]
      obtain ⟨ss2, cur2, h1, h2, h3, h4⟩ := ih ss (cur.extend e)
        (by
          intro s hs
          rcases List.mem_append.1 hs with hs | hs
          · exact hgood s (List.mem_append_left _ hs)
          · rw [List.mem_singleton.1 hs]
            refine ⟨by simp [Session.extend], ?_, by simp [Session.extend], ?_⟩
            · rw [hhead2]
              exact hhead
            · show List.Chain' _ (cur.logs ++ [e])
              rw [List.chain'_append]
              refine ⟨hchain, List.chain'_singleton _, ?_⟩
              intro x hx y hy
              have hy2 : y = e := by simpa using hy.symm
              subst hy2
              have hx2 : cur.logs.getLast? = some x := hx
              rw [hx2] at hlast
              have hxe : x.time = cur.end_ := by simpa using hlast
              rw [hxe]
              exact hgap2)
        (chain_openedAfter_replace_last ss cur (cur.extend e) hfar hhead2)
      refine ⟨ss2, cur2, h1, h2, h3, ?_⟩
      rw [h4]
      simp [Session.extend]

/-- The sessions of a log are faithful, each opened after the one before it,
and their members in order are the log. -/
theorem groupSessions_faithful (logs : List Event) :
    (∀ s ∈ groupSessions logs, s.Faithful) ∧
      List.Chain' Session.OpenedAfter (groupSessions logs) ∧
      ((groupSessions logs).map Session.logs).flatten = logs := by
  cases logs with
  | nil => simp [groupSessions]
  | cons e es =>
    obtain ⟨ss2, cur2, h1, h2, h3, h4⟩ := foldl_groupStep_partition es []
      ((Session.fresh e.time).extend e)
      (by
        intro s hs
        have : s = (Session.fresh e.time).extend e := by simpa using hs
        rw [this]
        exact ⟨by simp [Session.extend, Session.fresh], rfl, rfl, List.chain'_singleton _⟩)
      (List.chain'_singleton _)
    have hg : groupSessions (e :: es) = ss2 ++ [cur2] := by
      unfold groupSessions
      rw [if_neg (by simp), List.foldl_cons]
      have h0 : groupStep ([], none) e = ([], some ((Session.fresh e.time).extend e)) := rfl
      rw [h0, h1]
    rw [hg]
    refine ⟨h2, h3, ?_⟩
    rw [h4]
    simp [Session.extend, Session.fresh]

end PartitionTheorems

section PartitionClaim

/-- The gap test on two parsed times: the difference exceeds 7 200 000 ms. -/
theorem gapExceeds_some (t e : ℤ) : gapExceeds (some t) (some e) = decide (t - e > 7200000) := by
  simp [gapExceeds, DAYS]

/-- Two chains over one list combine. -/
theorem chain_and {α : Type} (r q : α → α → Prop) (l : List α)
    (h1 : List.Chain' r l) (h2 : List.Chain' q l) : List.Chain' (fun a b => r a b ∧ q a b) l := by
  induction l with
  | nil => exact List.chain'_nil
  | cons x xs ih =>
    cases xs with
    | nil => exact List.chain'_singleton _
    | cons y ys =>
      rw [List.chain'_cons] at h1 h2 ⊢
      exact ⟨⟨h1.1, h2.1⟩, ih h1.2 h2.2⟩

/-- C22: for every validated event list sorted by time, `_groupSessions`
returns sessions that are not empty and whose member lists, concatenated in
order, are the input list; two consecutive events of one session are at most
two hours apart; the first event of every later session is more than two hours
after the end of the session before it; every session starts at its first
event and ends at its last one, with start ≤ end; and every session ends
before the next one starts. -/
theorem groupSessions_partition (logs : List Event) (hvalid : ValidTimes logs)
    (hsorted : List.Sorted (fun a b : Event => a.ms ≤ b.ms) logs) :
    (∀ s ∈ groupSessions logs, s.logs ≠ []) ∧
      ((groupSessions logs).map Session.logs).flatten = logs ∧
      (∀ s ∈ groupSessions logs,
        List.Chain' (fun x y : Event => 0 ≤ y.ms - x.ms ∧ y.ms - x.ms ≤ 7200000) s.logs) ∧
      List.Chain' (fun s t : Session => ∃ (b : ℤ) (first : Event),
        s.end_ = some b ∧ t.logs.head? = some first ∧ first.ms - b > 7200000)
        (groupSessions logs) ∧
      (∀ s ∈ groupSessions logs, ∃ first last : Event,
        s.logs.head? = some first ∧ s.logs.getLast? = some last ∧
        s.start = some first.ms ∧ s.end_ = some last.ms ∧ first.ms ≤ last.ms) ∧
      List.Chain' (fun s t : Session => ∃ b a : ℤ,
        s.end_ = some b ∧ t.start = some a ∧ b < a) (groupSessions logs) := by
  obtain ⟨hgood, hfar, hjoin⟩ := groupSessions_faithful logs
  have hsub : ∀ s ∈ groupSessions logs, s.logs.Sublist logs := by
    intro s hs
    have h := List.sublist_flatten_of_mem (List.mem_map_of_mem Session.logs hs)
    rwa [hjoin] at h
  have hval : ∀ s ∈ groupSessions logs, ∀ e ∈ s.logs, e.time = some e.ms := by
    intro s hs e he
    exact Event.time_eq_ms e (hvalid e ((hsub s hs).subset he))
  have hends : ∀ s ∈ groupSessions logs, ∃ first last : Event,
      s.logs.head? = some first ∧ s.logs.getLast? = some last ∧
      s.start = some first.ms ∧ s.end_ = some last.ms ∧ first.ms ≤ last.ms := by
    intro s hs
    obtain ⟨hne, hhead, hlast, -⟩ := hgood s hs
    cases hl : s.logs with
    | nil => exact absurd hl hne
    | cons x xs =>
      have hmemx : x ∈ s.logs := by rw [hl]; exact List.mem_cons_self _ _
      have hmeml : (x :: xs).getLast (List.cons_ne_nil x xs) ∈ s.logs := by
        rw [hl]; exact List.getLast_mem _
      rw [hl] at hhead hlast
      rw [List.getLast?_eq_getLast _ (List.cons_ne_nil x xs)] at hlast
      simp only [List.head?_cons, Option.map_some', Option.some.injEq] at hhead hlast
      refine ⟨x, (x :: xs).getLast (List.cons_ne_nil x xs), rfl,
        List.getLast?_eq_getLast _ _, ?_, ?_, ?_⟩
      · rw [← hhead]; exact hval s hs x hmemx
      · rw [← hlast]; exact hval s hs _ hmeml
      · have hsrt : List.Sorted (fun a b : Event => a.ms ≤ b.ms) (x :: xs) := by
          rw [← hl]
          exact List.Pairwise.sublist (hsub s hs) hsorted
        exact sorted_head_le_getLast x xs hsrt
  have hfar2 : List.Chain' (fun s t : Session => ∃ (b : ℤ) (first : Event),
      s.end_ = some b ∧ t.logs.head? = some first ∧ first.ms - b > 7200000)
      (groupSessions logs) := by
    rw [List.Chain'.iff_mem] at hfar
    refine List.Chain'.imp ?_ hfar
    rintro s t ⟨hs, ht, e, he, hg⟩
    obtain ⟨-, last, -, -, -, hend, -⟩ := hends s hs
    have hemem : e ∈ t.logs := List.mem_of_mem_head? he
    rw [hval t ht e hemem, hend, gapExceeds_some] at hg
    exact ⟨last.ms, e, hend, he, of_decide_eq_true hg⟩
  refine ⟨fun s hs => (hgood s hs).1, hjoin, ?_, hfar2, hends, ?_⟩
  · intro s hs
    have hchain := (hgood s hs).2.2.2
    have hsrt : List.Sorted (fun a b : Event => a.ms ≤ b.ms) s.logs :=
      List.Pairwise.sublist (hsub s hs) hsorted
    have hch2 : List.Chain' (fun a b : Event => a.ms ≤ b.ms) s.logs := hsrt.chain'
    unfold NoLongGap at hchain
    rw [List.Chain'.iff_mem] at hchain
    have hboth := chain_and _ _ _ hchain hch2
    refine List.Chain'.imp ?_ hboth
    rintro x y ⟨⟨hx, hy, hg⟩, hle⟩
    rw [hval s hs x hx, hval s hs y hy, gapExceeds_some] at hg
    have := of_decide_eq_false hg
    constructor
    · linarith
    · linarith
  · rw [List.Chain'.iff_mem] at hfar2
    refine List.Chain'.imp ?_ hfar2
    rintro s t ⟨hs, ht, b, first, hb, hf, hgt⟩
    obtain ⟨f2, -, hf2, -, hstart, -, -⟩ := hends t ht
    rw [hf] at hf2
    have : first = f2 := Option.some.inj hf2
    subst this
    exact ⟨b, first.ms, hb, hstart, by linarith⟩

end PartitionClaim

/-- C22 (witness): the six events of scenario A, in order. -/
theorem groupSessions_partition_witness :
    ValidTimes scenarioA ∧ List.Sorted (fun a b : Event => a.ms ≤ b.ms) scenarioA ∧
      ((groupSessions scenarioA).map Session.logs).flatten = scenarioA ∧
      (groupSessions scenarioA).length = 3 := by
  have hv : ValidTimes scenarioA := by
    intro e he
    simp only [scenarioA, mkEvent, List.mem_cons, List.mem_singleton, List.not_mem_nil,
      or_false] at he
    rcases he with rfl | rfl | rfl | rfl | rfl | rfl <;> exact ⟨_, rfl⟩
  have hs : List.Sorted (fun a b : Event => a.ms ≤ b.ms) scenarioA := by
    unfold List.Sorted
    decide
  exact ⟨hv, hs, (groupSessions_partition scenarioA hv hs).2.1, by decide⟩

/-! ### The angle of a geometry -/

section AngleTheorems

variable {R : Type} [LinearOrderedField R] [FloorRing R]

/-- The ratio of privileged sessions lies in `[0, 1]`, and is positive exactly
when some session holds a privileged type. -/
theorem coRatioOf_props (BIASED : List String) (sessions : List Session)
    (hne : sessions ≠ []) :
    (0 : R) ≤ coRatioOf BIASED sessions ∧ (coRatioOf BIASED sessions : R) ≤ 1 ∧
      ((0 : R) < coRatioOf BIASED sessions ↔
        ∃ s ∈ sessions, ∃ t ∈ s.types, t ∈ BIASED) := by
  have hlen : (0 : R) < (sessions.length : R) := by
    exact_mod_cast List.length_pos.2 hne
  unfold coRatioOf highResSessions
  refine ⟨div_nonneg (Nat.cast_nonneg _) (Nat.cast_nonneg _), ?_, ?_⟩
  · rw [div_le_one hlen]
    exact_mod_cast List.length_filter_le _ _
  · rw [div_pos_iff_of_pos_right hlen, Nat.cast_pos, List.length_pos_iff_exists_mem]
    constructor
    · rintro ⟨s, hs⟩
      rw [List.mem_filter] at hs
      obtain ⟨t, ht, hb⟩ := List.any_eq_true.1 hs.2
      exact ⟨s, hs.1, t, ht, of_decide_eq_true hb⟩
    · rintro ⟨s, hs, t, ht, hb⟩
      exact ⟨s, List.mem_filter.2 ⟨hs, List.any_eq_true.2 ⟨t, ht, decide_eq_true hb⟩⟩⟩

/-- The three cases of the angle. -/
theorem angleDegOf_cases (coRatio : R) (totalSpan : JsNum R) (h1 : coRatio ≤ 1) :
    (0 < coRatio → angleDegOf coRatio totalSpan = 90 + 30 * coRatio ∧
        90 < angleDegOf coRatio totalSpan ∧ angleDegOf coRatio totalSpan ≤ 120) ∧
      (∀ x, ¬ 0 < coRatio → totalSpan = JsNum.num x → 30 < x →
        angleDegOf coRatio totalSpan = 90 - 15 * min 1 ((x - 30) / 335) ∧
        75 ≤ angleDegOf coRatio totalSpan ∧ angleDegOf coRatio totalSpan < 90) ∧
      (¬ 0 < coRatio → (∀ x, totalSpan = JsNum.num x → ¬ 30 < x) →
        angleDegOf coRatio totalSpan = 90) := by
  refine ⟨?_, ?_, ?_⟩
  · intro hpos
    have e : angleDegOf coRatio totalSpan = 90 + 30 * coRatio := by
      unfold angleDegOf
      rw [if_pos hpos]
    rw [e]
    exact ⟨rfl, by linarith, by linarith⟩
  · intro x hpos hx h30
    have e : angleDegOf coRatio totalSpan = 90 - 15 * min 1 ((x - 30) / 335) := by
      unfold angleDegOf
      rw [if_neg hpos, hx]
      simp only [gt_iff_lt, if_pos h30]
    rw [e]
    have hd : (0 : R) < (x - 30) / 335 := div_pos (by linarith) (by norm_num)
    have hm0 : (0 : R) < min 1 ((x - 30) / 335) := lt_min one_pos hd
    have hm1 : min 1 ((x - 30) / 335) ≤ (1 : R) := min_le_left _ _
    exact ⟨rfl, by linarith, by linarith⟩
  · intro hpos hx
    unfold angleDegOf
    rw [if_neg hpos]
    cases totalSpan with
    | nan => rfl
    | num x => simp only [gt_iff_lt, if_neg (hx x rfl)]

/-- The geometry returned for a log: its span and angle. -/
theorem generateVectorsFromHistory_some (M : JsMath R) (BIASED : List String)
    (multipliers : String → Option R) (logs : List Event) (g : Geometry R)
    (hg : generateVectorsFromHistory M BIASED multipliers logs = some g) :
    2 ≤ (groupSessions logs).length ∧
      g.angleDeg = angleDegOf (coRatioOf BIASED (groupSessions logs)) g.totalSpan ∧
      ∃ first latest, (groupSessions logs).head? = some first ∧
        (groupSessions logs).getLast? = some latest ∧
        g.totalSpan = totalSpanOf first latest ∧
        g = geometryOf M (valAOf M (totalSpanOf first latest)) (valBOf multipliers latest)
          (totalSpanOf first latest)
          (angleDegOf (coRatioOf BIASED (groupSessions logs)) (totalSpanOf first latest)) := by
  unfold generateVectorsFromHistory at hg
  simp only [] at hg
  split at hg
  · exact Option.noConfusion hg
  · rename_i hlen
    split at hg
    · rename_i first latest hh hl
      simp only [Option.some.injEq] at hg
      subst hg
      exact ⟨not_lt.1 hlen, rfl, first, latest, hh, hl, rfl, rfl⟩
    · exact Option.noConfusion hg

/-- C23: for every event history for which `generateVectorsFromHistory`
returns a geometry, `angleDeg` lies in [75, 120]; it is `90 + 30·ratio`, in
(90, 120], when a session holds a privileged type, and only then is it above
90; it is `90 − 15·min(1, (span − 30)/335)`, in [75, 90), when no session does
and the span exceeds 30 days, and only then is it below 90; otherwise it is 90. -/
theorem angleDeg_cases (M : JsMath R) (BIASED : List String)
    (multipliers : String → Option R) (logs : List Event) (g : Geometry R)
    (hg : generateVectorsFromHistory M BIASED multipliers logs = some g) :
    (75 ≤ g.angleDeg ∧ g.angleDeg ≤ 120) ∧
      ((∃ s ∈ groupSessions logs, ∃ t ∈ s.types, t ∈ BIASED) →
        g.angleDeg = 90 + 30 * coRatioOf BIASED (groupSessions logs)) ∧
      (90 < g.angleDeg ↔ ∃ s ∈ groupSessions logs, ∃ t ∈ s.types, t ∈ BIASED) ∧
      (∀ x, (¬ ∃ s ∈ groupSessions logs, ∃ t ∈ s.types, t ∈ BIASED) →
        g.totalSpan = JsNum.num x → 30 < x →
        g.angleDeg = 90 - 15 * min 1 ((x - 30) / 335)) ∧
      (g.angleDeg < 90 ↔ (¬ ∃ s ∈ groupSessions logs, ∃ t ∈ s.types, t ∈ BIASED) ∧
        ∃ x, g.totalSpan = JsNum.num x ∧ 30 < x) ∧
      ((¬ ∃ s ∈ groupSessions logs, ∃ t ∈ s.types, t ∈ BIASED) →
        (∀ x, g.totalSpan = JsNum.num x → ¬ 30 < x) → g.angleDeg = 90) := by
  obtain ⟨h2, hdeg, -⟩ := generateVectorsFromHistory_some M BIASED multipliers logs g hg
  have hne : groupSessions logs ≠ [] := by
    intro h
    rw [h] at h2
    simp at h2
  obtain ⟨-, c1, cpos⟩ := coRatioOf_props (R := R) BIASED (groupSessions logs) hne
  obtain ⟨k1, k2, k3⟩ := angleDegOf_cases (coRatioOf BIASED (groupSessions logs) : R)
    g.totalSpan c1
  rw [← hdeg] at k1 k2 k3
  rw [← cpos]
  have hcases : 0 < (coRatioOf BIASED (groupSessions logs) : R) ∨
      (¬ 0 < (coRatioOf BIASED (groupSessions logs) : R) ∧
        ∃ x, g.totalSpan = JsNum.num x ∧ 30 < x) ∨
      (¬ 0 < (coRatioOf BIASED (groupSessions logs) : R) ∧
        ∀ x, g.totalSpan = JsNum.num x → ¬ 30 < x) := by
    by_cases hp : 0 < (coRatioOf BIASED (groupSessions logs) : R)
    · exact Or.inl hp
    · by_cases hx : ∃ x, g.totalSpan = JsNum.num x ∧ 30 < x
      · exact Or.inr (Or.inl ⟨hp, hx⟩)
      · refine Or.inr (Or.inr ⟨hp, fun x h1 h2 => hx ⟨x, h1, h2⟩⟩)
  refine ⟨?_, fun hp => (k1 hp).1, ?_, fun x hp hx h30 => (k2 x hp hx h30).1, ?_,
    fun hp hx => k3 hp hx⟩
  · rcases hcases with hp | ⟨hp, x, hx, h30⟩ | ⟨hp, hx⟩
    · obtain ⟨-, a, b⟩ := k1 hp
      exact ⟨by linarith, b⟩
    · obtain ⟨-, a, b⟩ := k2 x hp hx h30
      exact ⟨a, by linarith⟩
    · rw [k3 hp hx]
      exact ⟨by norm_num, by norm_num⟩
  · constructor
    · intro h90
      rcases hcases with hp | ⟨hp, x, hx, h30⟩ | ⟨hp, hx⟩
      · exact hp
      · obtain ⟨-, -, b⟩ := k2 x hp hx h30
        linarith
      · rw [k3 hp hx] at h90
        exact absurd h90 (lt_irrefl _)
    · intro hp
      exact (k1 hp).2.1
  · constructor
    · intro h90
      rcases hcases with hp | ⟨hp, hx⟩ | ⟨hp, hx⟩
      · obtain ⟨-, a, -⟩ := k1 hp
        linarith
      · exact ⟨hp, hx⟩
      · rw [k3 hp hx] at h90
        exact absurd h90 (lt_irrefl _)
    · rintro ⟨hp, x, hx, h30⟩
      exact (k2 x hp hx h30).2.2

end AngleTheorems

/-- C23 (witness): the sublog of scenario A, whose three sessions are all
privileged: the angle is 120°. -/
theorem angleDeg_cases_witness :
    ∃ g : Geometry ℝ,
      generateVectorsFromHistory realMath (videoFormats ℝ).BIASED (videoFormats ℝ).FORMATS
        scenarioA = some g ∧
      (75 ≤ g.angleDeg ∧ g.angleDeg ≤ 120) ∧ 90 < g.angleDeg := by
  have hne : groupSessions scenarioA ≠ [] := by decide
  obtain ⟨g, hg⟩ : ∃ g : Geometry ℝ,
      generateVectorsFromHistory realMath (videoFormats ℝ).BIASED (videoFormats ℝ).FORMATS
        scenarioA = some g := by
    obtain ⟨first, hh⟩ : ∃ first, (groupSessions scenarioA).head? = some first := by
      cases hs : groupSessions scenarioA with
      | nil => exact absurd hs hne
      | cons s ss => exact ⟨s, rfl⟩
    exact ⟨_, generateVectorsFromHistory_eq realMath _ _ scenarioA first
      ((groupSessions scenarioA).getLast hne) (by decide) hh (List.getLast?_eq_getLast _ hne)⟩
  have h := angleDeg_cases realMath (videoFormats ℝ).BIASED (videoFormats ℝ).FORMATS
    scenarioA g hg
  refine ⟨g, hg, h.1, h.2.2.1.2 ?_⟩
  have hmem : (groupSessions scenarioA).head? = some
      { start := some 0, end_ := some 1000, types := ["VIDEO"],
        logs := [mkEvent "A" "B" 0 (some "VIDEO") (some ["up"]),
                 mkEvent "B" "A" 1000 (some "VIDEO") (some ["up"])] } := by decide
  exact ⟨_, List.mem_of_mem_head? hmem, "VIDEO", by simp, by simp [videoFormats]⟩

/-! ### The fingerprint as a hash of the specification -/

section FingerprintTheorems

variable {R : Type} [LinearOrderedField R] [FloorRing R]

/-- One round of the loop is one accumulation step of the specification. -/
theorem hashStep_eq_spec (hash : ℤ) (c : Char) : hashStep hash c = specHashStep hash c := by
  unfold hashStep specHashStep toInt32
  omega

/-- The digit characters of `toString(16)` are lowercase hexadecimal digits. -/
theorem toHex_lower (n : ℕ) : ∀ c ∈ (toHex n).data, c ∈ lowerHexDigits := by
  have hd : ∀ d < 16, hexDigit d ∈ lowerHexDigits := by decide
  by_cases h0 : n = 0
  · rw [h0]
    decide
  · rw [toHex_data_of_ne_zero n h0]
    intro c hc
    obtain ⟨d, hdm, rfl⟩ := List.mem_map.1 hc
    exact hd d (Nat.digits_lt_base (by norm_num) (List.mem_reverse.1 hdm))

/-- The value of the character of a digit below 16 is the digit. -/
theorem hexDigitValue_hexDigit : ∀ d < 16, hexDigitValue (hexDigit d) = d := by
  decide

/-- The character of a digit below 16 that is not zero is not `0`. -/
theorem hexDigit_ne_zero : ∀ d < 16, d ≠ 0 → hexDigit d ≠ '0' := by
  decide

/-- The characters of `toString(16)` denote the number. -/
theorem hexValue_toHex (n : ℕ) : hexValue (toHex n).data = n := by
  by_cases hn : n = 0
  · rw [hn]
    decide
  · rw [toHex_data_of_ne_zero n hn]
    unfold hexValue
    have hmap : ∀ l : List ℕ, (∀ d ∈ l, d < 16) →
        (l.map hexDigit).map hexDigitValue = l := by
      intro l hl
      induction l with
      | nil => rfl
      | cons a as ih =>
        simp only [List.map_cons]
        rw [hexDigitValue_hexDigit a (hl a (List.mem_cons_self _ _)),
          ih (fun d hd => hl d (List.mem_cons_of_mem _ hd))]
    rw [hmap _ (fun d hd => Nat.digits_lt_base (by norm_num) (List.mem_reverse.1 hd)),
      List.reverse_reverse, Nat.ofDigits_digits]

/-- The result of `toString(16)` is not empty and starts with `0` only when it is
the single digit `0`. -/
theorem toHex_canonical (n : ℕ) :
    (toHex n).data ≠ [] ∧ ((toHex n).data.head? = some '0' → (toHex n).data = ['0']) := by
  by_cases hn : n = 0
  · rw [hn]
    decide
  · rw [toHex_data_of_ne_zero n hn]
    have hne : Nat.digits 16 n ≠ [] := Nat.digits_ne_nil_iff_ne_zero.2 hn
    have hlast := Nat.getLast_digit_ne_zero 16 hn
    have hlt : (Nat.digits 16 n).getLast hne < 16 :=
      Nat.digits_lt_base (by norm_num) (List.getLast_mem hne)
    constructor
    · simpa using hne
    · intro hhead
      exfalso
      rw [List.head?_map, List.head?_reverse, List.getLast?_eq_getLast _ hne] at hhead
      simp only [Option.map_some', Option.some.injEq] at hhead
      exact hexDigit_ne_zero _ hlt hlast hhead

/-- C24: for every string of components the loop of `_generateProofOfWork`
computes the fold of `h ↦ h·31 + charCode` with wraparound to a signed 32-bit
integer, and the fingerprint is `sync_` followed by the lowercase hexadecimal
digits of `|hash|`: a non-empty list of characters of `0123456789abcdef` that
denotes `|hash|` in base 16 and has no leading zero, of at most 12 characters
(at most 8). -/
theorem generateProofOfWork_spec (render : R → String) (agentAId agentBId : String)
    (categoryId : ℕ) (angleDeg : R) :
    (∀ components : String, hashOf components = specHashOf components) ∧
      ∃ digits : List Char,
        generateProofOfWork render agentAId agentBId categoryId angleDeg
          = "sync_" ++ String.mk digits ∧
        digits ≠ [] ∧
        (∀ c ∈ digits, c ∈ lowerHexDigits) ∧
        hexValue digits
          = (specHashOf (proofComponents render agentAId agentBId categoryId angleDeg)).natAbs ∧
        (digits.head? = some '0' → digits = ['0']) ∧
        digits.length ≤ 8 ∧ digits.length ≤ 12 := by
  have hfold : ∀ components : String, hashOf components = specHashOf components := by
    intro components
    unfold hashOf specHashOf
    congr 1
    funext h c
    exact hashStep_eq_spec h c
  have hlen : (toHex (specHashOf
      (proofComponents render agentAId agentBId categoryId angleDeg)).natAbs).data.length
        ≤ 8 := by
    rw [← hfold]
    apply toHex_length_le
    have := hashOf_range (proofComponents render agentAId agentBId categoryId angleDeg)
    omega
  refine ⟨hfold, (toHex (specHashOf
      (proofComponents render agentAId agentBId categoryId angleDeg)).natAbs).data, ?_,
    (toHex_canonical _).1, toHex_lower _, hexValue_toHex _, (toHex_canonical _).2, hlen,
    by omega⟩
  unfold generateProofOfWork
  simp only [hfold]
  rw [List.take_of_length_le (by omega)]

end FingerprintTheorems

/-- C24 (witness): the components `Aa:BB:23:120` have the hash 226365238, which
is `d7e0f36` in base 16. -/
theorem generateProofOfWork_spec_witness :
    hashOf "Aa:BB:23:120" = specHashOf "Aa:BB:23:120" ∧
      specHashOf "Aa:BB:23:120" = 226365238 ∧
      hexValue ['d', '7', 'e', '0', 'f', '3', '6'] = 226365238 ∧
      generateProofOfWork (fun _ : ℚ => "120") "Aa" "BB" 23 120 = "sync_d7e0f36" := by
  refine ⟨(generateProofOfWork_spec (fun _ : ℚ => "120") "Aa" "BB" 23 120).1 _, by decide,
    by decide, ?_⟩
  have h : (226365238 : ℕ) ≠ 0 := by norm_num
  have hd : Nat.digits 16 226365238 = [6, 3, 15, 0, 14, 7, 13] := by norm_num
  have hc : proofComponents (fun _ : ℚ => "120") "Aa" "BB" 23 120 = "Aa:BB:23:120" := by
    rfl
  have hh : hashOf (proofComponents (fun _ : ℚ => "120") "Aa" "BB" 23 120) = 226365238 := by
    rw [hc, (generateProofOfWork_spec (fun _ : ℚ => "120") "Aa" "BB" 23 120).1]
    decide
  unfold generateProofOfWork
  simp only [hh]
  have hhex : toHex (226365238 : ℤ).natAbs = "d7e0f36" := by
    apply String.ext
    rw [show (226365238 : ℤ).natAbs = 226365238 from rfl, toHex_data_of_ne_zero _ h, hd]
    decide
  rw [hhex]
  decide

/-! ### The geometry that the classifier measures on a pair -/

section PairShapeTheorems

variable {R : Type} [LinearOrderedField R] [FloorRing R]

/-- The angle of a geometry lies in `[75, 120]`. -/
theorem angleDegOf_range (coRatio : R) (totalSpan : JsNum R) (h1 : coRatio ≤ 1) :
    75 ≤ angleDegOf coRatio totalSpan ∧ angleDegOf coRatio totalSpan ≤ 120 := by
  obtain ⟨k1, k2, k3⟩ := angleDegOf_cases coRatio totalSpan h1
  by_cases hp : 0 < coRatio
  · obtain ⟨-, a, b⟩ := k1 hp
    exact ⟨by linarith, b⟩
  · by_cases hx : ∃ x, totalSpan = JsNum.num x ∧ 30 < x
    · obtain ⟨x, hx1, hx2⟩ := hx
      obtain ⟨-, a, b⟩ := k2 x hp hx1 hx2
      exact ⟨a, by linarith⟩
    · rw [k3 hp (fun x h1 h2 => hx ⟨x, h1, h2⟩)]
      exact ⟨by norm_num, by norm_num⟩

/-- The joint manifold of a validated sublog sorted by time: `a` and `b` are
the vectors of lengths `valA` and `valB` at the angle `angleDeg`, scaled by the
boost `k`; `c` and `d` have the length `valB`. -/
theorem calculateJointManifold_shape (M : JsMath R) (hM : M.Exact) (F : Formats R)
    (o : Options R) (p : Sync) (g : JointManifold R)
    (hv : ValidTimes p.logs) (hs : List.Sorted (fun a b : Event => a.ms ≤ b.ms) p.logs)
    (hg : p.calculateJointManifold M F o = some g) :
    ∃ valA valB k : R, 1 ≤ valA ∧ valA ≤ 5 ∧ 1 ≤ valB ∧ valB ≤ 5 ∧ 0.4 ≤ k ∧ k ≤ 1 ∧
      75 ≤ g.angleDeg ∧ g.angleDeg ≤ 120 ∧
      g.a = (⟨valA, 0, 0, 0⟩ : Vec4 R).scale k ∧
      g.b = (⟨valB * M.cos (g.angleDeg * M.pi / 180), valB * M.sin (g.angleDeg * M.pi / 180),
        0, 0⟩ : Vec4 R).scale k ∧
      g.c = ⟨0, 0, valB, 0⟩ ∧ g.d = ⟨0, 0, 0, valB⟩ := by
  obtain ⟨basic, hb, -, hc, hd, hdeg, ha, hbb⟩ := calculateJointManifold_some M F o p g hg
  have h2 : 2 ≤ (groupSessions p.logs).length := by
    by_contra hlt
    rw [generateVectorsFromHistory_none M F.BIASED (o.multipliers F) p.logs (not_le.1 hlt)] at hb
    exact Option.noConfusion hb
  obtain ⟨latest, span, hspan, -, -, hgen⟩ := generateVectorsFromHistory_sorted M F.BIASED
    (o.multipliers F) (fun _ => True) p.logs (fun _ _ => trivial) hv hs h2
  rw [hb] at hgen
  have hbasic := Option.some.inj hgen
  have hne : groupSessions p.logs ≠ [] := by
    intro h
    rw [h] at h2
    simp at h2
  obtain ⟨-, c1, -⟩ := coRatioOf_props (R := R) F.BIASED (groupSessions p.logs) hne
  obtain ⟨t0, t1⟩ := angleDegOf_range (coRatioOf F.BIASED (groupSessions p.logs) : R)
    (JsNum.num span) c1
  obtain ⟨a1, a5⟩ := valAOf_bounds M hM span hspan
  obtain ⟨b1, b5⟩ := valBOf_pos (o.multipliers F) latest
  obtain ⟨hb0, hb1, -, -⟩ := directionalBalance_props (R := R) p
  have hk : (0.4 : R) ≤ (if (p.calculateDirectionalMetrics :
        DirectionalMetrics R).directionalBalance > RECIP_LIMIT then 1.0
      else 0.4 + (p.calculateDirectionalMetrics :
        DirectionalMetrics R).directionalBalance * 0.6) ∧
      (if (p.calculateDirectionalMetrics :
        DirectionalMetrics R).directionalBalance > RECIP_LIMIT then (1.0 : R)
      else 0.4 + (p.calculateDirectionalMetrics :
        DirectionalMetrics R).directionalBalance * 0.6) ≤ 1 := by
    refine ⟨?_, (symmetryBoost_pos p).2⟩
    split
    · norm_num
    · nlinarith
  have hdeg2 : g.angleDeg = angleDegOf (coRatioOf F.BIASED (groupSessions p.logs))
      (JsNum.num span) := by
    rw [hdeg, hbasic]
    rfl
  refine ⟨valAOf M (JsNum.num span), valBOf (o.multipliers F) latest, _, a1, a5, b1, b5,
    hk.1, hk.2, ?_, ?_, ?_, ?_, ?_, ?_⟩
  · rw [hdeg2]; exact t0
  · rw [hdeg2]; exact t1
  · rw [ha, hbasic]
    rfl
  · rw [hbb, hbasic, hdeg2]
    rfl
  · rw [hc, hbasic]
    rfl
  · rw [hd, hbasic]
    rfl

/-- Two vectors with dot product zero are measured at 90°, by the guard or as
`acos(0)·(180/π)`, when that product is 90. -/
theorem angleBetween_of_dot_zero_of (M : JsMath R) (hr : M.acos 0 * (180 / M.pi) = 90)
    (v w : Vec4 R) (hd : dotProduct v w = 0) : angleBetween M v w = 90 := by
  unfold angleBetween
  simp only [hd]
  split
  · rfl
  · simp only [zero_div]
    rw [min_eq_right (by norm_num), max_eq_right (by norm_num)]
    exact hr

/-- A classification whose measured α passes the right-angle test is neither
Monoclinic (4) nor Diclinic (3). -/
theorem analyzeVectors_not_monoclinic_diclinic (M : JsMath R)
    (tolerance angleTolerance : Option R) (a b c d : Vec4 R)
    (hα : ((Classifier.new tolerance angleTolerance).symOf M a b c d none none).is90
      (measureAngles M a b c d).α = true) :
    ((Classifier.new tolerance angleTolerance).analyzeVectors M a b c d none none).categoryId
        ≠ 4 ∧
      ((Classifier.new tolerance angleTolerance).analyzeVectors M a b c d none none).categoryId
        ≠ 3 := by
  unfold Classifier.analyzeVectors
  simp only [matched_new_eq]
  rcases find_taxonomy_cases (measureLengths M a b c d) (measureAngles M a b c d)
    ((Classifier.new tolerance angleTolerance).symOf M a b c d none none) with
    h | h | h | h | h | h | h | h
  · rw [h.1]; simp [hypercubic]
  · rw [h.1]; simp [hexagonal]
  · rw [h.1]; simp [trigonal]
  · rw [h.1]; simp [tetragonal]
  · rw [h.1]; simp [orthorhombic]
  · exfalso
    rw [hα] at h
    exact Bool.noConfusion h.2.2.2.1
  · exfalso
    rw [hα] at h
    exact Bool.noConfusion h.2.2.2.1
  · rw [h.1]; simp [triclinic]

/-- For every pair that has a geometry, whatever the log and whatever the
primitives compute: `c` and `d` are left unscaled along the third and the
fourth axis, `a` and `b` are scaled by the boost and stay in the plane of the
first two axes.  The dot products behind α, β, δ, ε and ζ are therefore 0 and
these five angles are measured at 90° as soon as `acos(0)·(180/π)` is 90; for a
positive angle tolerance the pair analysis then returns neither Monoclinic (4)
nor Diclinic (3). -/
theorem pair_right_angles (M : JsMath R) (hr : M.acos 0 * (180 / M.pi) = 90) (F : Formats R)
    (o : Options R) (allEvents : List Event) (p : Sync) (g : JointManifold R)
    (hg : p.calculateJointManifold M F o = some g) :
    (∃ valA valB x y k : R, g.a = (⟨valA, 0, 0, 0⟩ : Vec4 R).scale k ∧
        g.b = (⟨x, y, 0, 0⟩ : Vec4 R).scale k ∧ g.c = ⟨0, 0, valB, 0⟩ ∧ g.d = ⟨0, 0, 0, valB⟩) ∧
      (measureAngles M g.a g.b g.c g.d).α = 90 ∧ (measureAngles M g.a g.b g.c g.d).β = 90 ∧
      (measureAngles M g.a g.b g.c g.d).δ = 90 ∧ (measureAngles M g.a g.b g.c g.d).ε = 90 ∧
      (measureAngles M g.a g.b g.c g.d).ζ = 90 ∧
      (0 < o.classifier.angleTolerance →
        (o.classifier.analyzeVectors M g.a g.b g.c g.d none none).categoryId ≠ 4 ∧
        (o.classifier.analyzeVectors M g.a g.b g.c g.d none none).categoryId ≠ 3 ∧
        (p.analyze M F o allEvents).geoId ≠ 4 ∧ (p.analyze M F o allEvents).geoId ≠ 3) := by
  obtain ⟨basic, hb, -, hc, hd, -, ha, hbb⟩ := calculateJointManifold_some M F o p g hg
  obtain ⟨-, -, first, latest, -, -, -, hbasic⟩ :=
    generateVectorsFromHistory_some M F.BIASED (o.multipliers F) p.logs basic hb
  rw [hbasic] at ha hbb hc hd
  simp only [geometryOf] at ha hbb hc hd
  have hα : (measureAngles M g.a g.b g.c g.d).α = 90 := by
    show angleBetween M g.b g.c = 90
    rw [hbb, hc]
    exact angleBetween_of_dot_zero_of M hr _ _ (by simp [dotProduct, Vec4.scale])
  have hβ : (measureAngles M g.a g.b g.c g.d).β = 90 := by
    show angleBetween M g.a g.c = 90
    rw [ha, hc]
    exact angleBetween_of_dot_zero_of M hr _ _ (by simp [dotProduct, Vec4.scale])
  have hδ : (measureAngles M g.a g.b g.c g.d).δ = 90 := by
    show angleBetween M g.a g.d = 90
    rw [ha, hd]
    exact angleBetween_of_dot_zero_of M hr _ _ (by simp [dotProduct, Vec4.scale])
  have hε : (measureAngles M g.a g.b g.c g.d).ε = 90 := by
    show angleBetween M g.b g.d = 90
    rw [hbb, hd]
    exact angleBetween_of_dot_zero_of M hr _ _ (by simp [dotProduct, Vec4.scale])
  have hζ : (measureAngles M g.a g.b g.c g.d).ζ = 90 := by
    show angleBetween M g.c g.d = 90
    rw [hc, hd]
    exact angleBetween_of_dot_zero_of M hr _ _ (by simp [dotProduct, Vec4.scale])
  refine ⟨⟨_, _, _, _, _, ha, hbb, hc, hd⟩, hα, hβ, hδ, hε, hζ, ?_⟩
  intro hang
  have h90 : ((Classifier.new o.tolerance o.angleTolerance).symOf M g.a g.b g.c g.d none
      none).is90 (measureAngles M g.a g.b g.c g.d).α = true := by
    rw [hα]
    simp only [Classifier.symOf, Classifier.createSymmetryMap, Option.getD_none]
    apply decide_eq_true
    simpa using hang
  have hcat := analyzeVectors_not_monoclinic_diclinic M o.tolerance o.angleTolerance
    g.a g.b g.c g.d h90
  obtain ⟨-, -, hgeo⟩ := Sync.analyze_of_some M F o allEvents p g hg
  rw [hgeo]
  exact ⟨hcat.1, hcat.2, hcat.1, hcat.2⟩

/-- With exact primitives (`JsMath.Exact`): for every validated pair sublog
sorted by time that yields a geometry, with the reciprocity boost `k` that
`_calculateJointManifold` applies to `a` and `b`, a number of [0.4, 1], the
measured angles are α = β = δ = ε = ζ = 90° and γ = angleDeg and the magnitudes
are |a| = k·valA, |b| = k·valB and |c| = |d| = valB; and for a positive angle
tolerance the pair analysis returns neither Monoclinic (4) nor Diclinic (3).
The equalities for γ and |b| are statements of exact arithmetic: in doubles
they hold up to rounding. -/
theorem pair_geometry_exact (M : JsMath R) (hM : M.Exact) (F : Formats R)
    (o : Options R) (allEvents : List Event) (p : Sync) (g : JointManifold R)
    (hv : ValidTimes p.logs) (hs : List.Sorted (fun a b : Event => a.ms ≤ b.ms) p.logs)
    (hg : p.calculateJointManifold M F o = some g) :
    ∃ valA valB k : R, 1 ≤ valA ∧ valA ≤ 5 ∧ 1 ≤ valB ∧ valB ≤ 5 ∧ 0.4 ≤ k ∧ k ≤ 1 ∧
      g.c = ⟨0, 0, valB, 0⟩ ∧ g.d = ⟨0, 0, 0, valB⟩ ∧
      measureAngles M g.a g.b g.c g.d = ⟨90, 90, g.angleDeg, 90, 90, 90⟩ ∧
      measureLengths M g.a g.b g.c g.d = ⟨valA * k, valB * k, valB, valB⟩ ∧
      (0 < o.classifier.angleTolerance →
        (o.classifier.analyzeVectors M g.a g.b g.c g.d none none).categoryId ≠ 4 ∧
        (o.classifier.analyzeVectors M g.a g.b g.c g.d none none).categoryId ≠ 3 ∧
        (p.analyze M F o allEvents).geoId ≠ 4 ∧ (p.analyze M F o allEvents).geoId ≠ 3) := by
  obtain ⟨valA, valB, k, a1, a5, b1, b5, k0, k1, t0, t1, ha, hb, hc, hd⟩ :=
    calculateJointManifold_shape M hM F o p g hv hs hg
  have hk : (0 : R) < k := lt_of_lt_of_le (by norm_num) k0
  obtain ⟨hmeasure, hlen⟩ := measure_pair M hM valA valB k g.angleDeg
    (lt_of_lt_of_le one_pos a1) (lt_of_lt_of_le one_pos b1) hk (by linarith) (by linarith)
  rw [← ha, ← hb, ← hc, ← hd] at hmeasure hlen
  refine ⟨valA, valB, k, a1, a5, b1, b5, k0, k1, hc, hd, hmeasure, hlen, ?_⟩
  intro hang
  have hα : ((Classifier.new o.tolerance o.angleTolerance).symOf M g.a g.b g.c g.d none none).is90
      (measureAngles M g.a g.b g.c g.d).α = true := by
    rw [hmeasure]
    simp only [Classifier.symOf, Classifier.createSymmetryMap, Option.getD_none]
    apply decide_eq_true
    simpa using hang
  have hcat : (o.classifier.analyzeVectors M g.a g.b g.c g.d none none).categoryId ≠ 4 ∧
      (o.classifier.analyzeVectors M g.a g.b g.c g.d none none).categoryId ≠ 3 := by
    show ((Classifier.new o.tolerance o.angleTolerance).analyzeVectors M g.a g.b g.c g.d none
        none).categoryId ≠ 4 ∧
      ((Classifier.new o.tolerance o.angleTolerance).analyzeVectors M g.a g.b g.c g.d none
        none).categoryId ≠ 3
    unfold Classifier.analyzeVectors
    simp only [matched_new_eq]
    rcases find_taxonomy_cases (measureLengths M g.a g.b g.c g.d)
      (measureAngles M g.a g.b g.c g.d)
      ((Classifier.new o.tolerance o.angleTolerance).symOf M g.a g.b g.c g.d none none) with
      h | h | h | h | h | h | h | h
    · rw [h.1]; simp [hypercubic]
    · rw [h.1]; simp [hexagonal]
    · rw [h.1]; simp [trigonal]
    · rw [h.1]; simp [tetragonal]
    · rw [h.1]; simp [orthorhombic]
    · exfalso
      rw [hα] at h
      exact Bool.noConfusion h.2.2.2.1
    · exfalso
      rw [hα] at h
      exact Bool.noConfusion h.2.2.2.1
    · rw [h.1]; simp [triclinic]
  obtain ⟨-, -, hgeo⟩ := Sync.analyze_of_some M F o allEvents p g hg
  rw [hgeo]
  exact ⟨hcat.1, hcat.2, hcat.1, hcat.2⟩

end PairShapeTheorems

/-! ### Order independence of the pair analysis -/

section ShapeTheorems

/-- The grouping loop on two logs with the same times, from states of the same
shape, ends in states of the same shape. -/
theorem foldl_groupStep_sameShape (l1 l2 : List Event)
    (hl : l1.map Event.time = l2.map Event.time)
    (ss1 ss2 : List Session) (cur1 cur2 : Session)
    (hss : List.Forall₂ Session.SameShape ss1 ss2) (hcur : cur1.SameShape cur2) :
    ∃ (r1 r2 : List Session) (c1 c2 : Session),
      l1.foldl groupStep (ss1, some cur1) = (r1, some c1) ∧
      l2.foldl groupStep (ss2, some cur2) = (r2, some c2) ∧
      List.Forall₂ Session.SameShape r1 r2 ∧ c1.SameShape c2 := by
  induction l1 generalizing l2 ss1 ss2 cur1 cur2 with
  | nil =>
    cases l2 with
    | nil => exact ⟨ss1, ss2, cur1, cur2, rfl, rfl, hss, hcur⟩
    | cons y ys => simp at hl
  | cons x xs ih =>
    cases l2 with
    | nil => simp at hl
    | cons y ys =>
      simp only [List.map_cons, List.cons.injEq] at hl
      obtain ⟨hxy, hrest⟩ := hl
      rw [List.foldl_cons, List.foldl_cons, groupStep_some, groupStep_some]
      obtain ⟨hs, he, hm⟩ := hcur
      rw [← hxy, ← he]
      by_cases hgap : gapExceeds x.time cur1.end_ = true
      · simp only [hgap, if_true]
        exact ih ys hrest (ss1 ++ [cur1]) (ss2 ++ [cur2]) _ _
          (List.rel_append hss (List.Forall₂.cons ⟨hs, he, hm⟩ List.Forall₂.nil))
          ⟨rfl, hxy, by simp [Session.extend, Session.fresh, hxy]⟩
      · simp only [hgap, if_false, Bool.false_eq_true]
        exact ih ys hrest ss1 ss2 _ _ hss
          ⟨hs, hxy, by simp [Session.extend, hm, hxy]⟩

/-- Two logs with the same times group into sessions of the same shape. -/
theorem groupSessions_sameShape (l1 l2 : List Event)
    (hl : l1.map Event.time = l2.map Event.time) :
    List.Forall₂ Session.SameShape (groupSessions l1) (groupSessions l2) := by
  cases l1 with
  | nil =>
    cases l2 with
    | nil => simp [groupSessions]
    | cons y ys => simp at hl
  | cons x xs =>
    cases l2 with
    | nil => simp at hl
    | cons y ys =>
      simp only [List.map_cons, List.cons.injEq] at hl
      obtain ⟨hxy, hrest⟩ := hl
      obtain ⟨r1, r2, c1, c2, h1, h2, h3, h4⟩ := foldl_groupStep_sameShape xs ys hrest [] []
        ((Session.fresh x.time).extend x) ((Session.fresh y.time).extend y)
        List.Forall₂.nil ⟨by simp [Session.extend, Session.fresh, hxy],
          by simp [Session.extend, Session.fresh, hxy],
          by simp [Session.extend, Session.fresh, hxy]⟩
      have g1 : groupSessions (x :: xs) = r1 ++ [c1] := by
        unfold groupSessions
        rw [if_neg (by simp), List.foldl_cons]
        have h0 : groupStep ([], none) x = ([], some ((Session.fresh x.time).extend x)) := rfl
        rw [h0, h1]
      have g2 : groupSessions (y :: ys) = r2 ++ [c2] := by
        unfold groupSessions
        rw [if_neg (by simp), List.foldl_cons]
        have h0 : groupStep ([], none) y = ([], some ((Session.fresh y.time).extend y)) := rfl
        rw [h0, h2]
      rw [g1, g2]
      exact List.rel_append h3 (List.Forall₂.cons h4 List.Forall₂.nil)

/-- The type set of every session holds the tags of its members. -/
theorem foldl_groupStep_types (l : List Event) (ss : List Session) (cur : Session)
    (hss : ∀ s ∈ ss, s.TypesOfLogs) (hcur : cur.TypesOfLogs) :
    ∃ (ss2 : List Session) (cur2 : Session),
      l.foldl groupStep (ss, some cur) = (ss2, some cur2) ∧
      (∀ s ∈ ss2, s.TypesOfLogs) ∧ cur2.TypesOfLogs := by
  have hext : ∀ (c : Session) (e : Event), c.TypesOfLogs → (c.extend e).TypesOfLogs := by
    intro c e hc x
    simp only [Session.extend, setAdd]
    have := hc x
    split
    · rename_i hmem
      rw [this]
      constructor
      · rintro ⟨e', he', hx⟩
        exact ⟨e', List.mem_append_left _ he', hx⟩
      · rintro ⟨e', he', hx⟩
        rcases List.mem_append.1 he' with h | h
        · exact ⟨e', h, hx⟩
        · rw [List.mem_singleton.1 h] at hx
          rw [← hx]
          exact (hc _).1 hmem
    · rw [List.mem_append, this, List.mem_singleton]
      constructor
      · rintro (⟨e', he', hx⟩ | hx)
        · exact ⟨e', List.mem_append_left _ he', hx⟩
        · exact ⟨e, by simp, hx.symm⟩
      · rintro ⟨e', he', hx⟩
        rcases List.mem_append.1 he' with h | h
        · exact Or.inl ⟨e', h, hx⟩
        · rw [List.mem_singleton.1 h] at hx
          exact Or.inr hx.symm
  have hfresh : ∀ t : Option ℤ, (Session.fresh t).TypesOfLogs := by
    intro t x
    simp [Session.fresh]
  induction l generalizing ss cur with
  | nil => exact ⟨ss, cur, rfl, hss, hcur⟩
  | cons e es ih =>
    rw [List.foldl_cons, groupStep_some]
    by_cases hgap : gapExceeds e.time cur.end_ = true
    · simp only [hgap, if_true]
      exact ih (ss ++ [cur]) _
        (by
          intro s hs
          rcases List.mem_append.1 hs with hs | hs
          · exact hss s hs
          · rw [List.mem_singleton.1 hs]; exact hcur)
        (hext _ e (hfresh _))
    · simp only [hgap, if_false, Bool.false_eq_true]
      exact ih ss _ hss (hext _ e hcur)

/-- The type set of every session of a log holds the tags of its members. -/
theorem groupSessions_types (l : List Event) : ∀ s ∈ groupSessions l, s.TypesOfLogs := by
  cases l with
  | nil => simp [groupSessions]
  | cons e es =>
    have hfresh : ((Session.fresh e.time).extend e).TypesOfLogs := by
      intro x
      simp [Session.extend, Session.fresh, setAdd, eq_comm]
    obtain ⟨ss2, cur2, h1, h2, h3⟩ := foldl_groupStep_types es [] _ (by simp) hfresh
    have g1 : groupSessions (e :: es) = ss2 ++ [cur2] := by
      unfold groupSessions
      rw [if_neg (by simp), List.foldl_cons]
      have h0 : groupStep ([], none) e = ([], some ((Session.fresh e.time).extend e)) := rfl
      rw [h0, h1]
    rw [g1]
    intro s hs
    rcases List.mem_append.1 hs with hs | hs
    · exact h2 s hs
    · rw [List.mem_singleton.1 hs]; exact h3

end ShapeTheorems

section SeparationTheorems

/-- The sessions of a validated list sorted by time are separated in time. -/
theorem separated_of_faithful (ss : List Session)
    (hgood : ∀ s ∈ ss, s.Faithful) (hfar : List.Chain' Session.OpenedAfter ss)
    (hvalid : ValidTimes (ss.map Session.logs).flatten)
    (hsorted : List.Sorted (fun a b : Event => a.ms ≤ b.ms) (ss.map Session.logs).flatten) :
    Separated ss := by
  induction ss with
  | nil => trivial
  | cons s rest ih =>
    have hval : ∀ e ∈ (List.map Session.logs (s :: rest)).flatten, e.time = some e.ms :=
      fun e he => Event.time_eq_ms e (hvalid e he)
    simp only [List.map_cons, List.flatten_cons] at hsorted hvalid hval
    have hsrt := List.pairwise_append.1 hsorted
    obtain ⟨hne, -, hlast, -⟩ := hgood s (List.mem_cons_self _ _)
    have hrest : Separated rest := ih (fun t ht => hgood t (List.mem_cons_of_mem _ ht))
      (List.Chain'.tail hfar)
      (fun e he => hvalid e (List.mem_append_right _ he)) hsrt.2.1
    obtain ⟨last, hl⟩ : ∃ last, s.logs.getLast? = some last := by
      rw [List.getLast?_eq_getLast _ hne]
      exact ⟨_, rfl⟩
    have hlmem : last ∈ s.logs := List.mem_of_getLast?_eq_some hl
    have hend : s.end_ = some last.ms := by
      rw [hl] at hlast
      simp only [Option.map_some', Option.some.injEq] at hlast
      rw [← hlast]
      exact hval last (List.mem_append_left _ hlmem)
    have hsl : ∀ e ∈ s.logs, e.ms ≤ last.ms := by
      intro e he
      have hs1 : List.Sorted (fun a b : Event => a.ms ≤ b.ms) s.logs := hsrt.1
      obtain ⟨pre, hpre⟩ : ∃ pre, s.logs = pre ++ [last] := by
        have := List.dropLast_append_getLast hne
        rw [List.getLast?_eq_getLast _ hne] at hl
        have hl2 : s.logs.getLast hne = last := Option.some.inj hl
        rw [hl2] at this
        exact ⟨_, this.symm⟩
      rw [hpre] at he hs1
      rcases List.mem_append.1 he with h | h
      · exact (List.pairwise_append.1 hs1).2.2 e h last (by simp)
      · rw [List.mem_singleton.1 h]
    refine ⟨⟨last.ms, hend, hsl, ?_⟩, hrest⟩
    cases rest with
    | nil => intro t ht; simp at ht
    | cons t1 rest2 =>
      obtain ⟨e1, he1, hg⟩ := (List.chain'_cons.1 hfar).1
      have he1mem : e1 ∈ t1.logs := List.mem_of_mem_head? he1
      have he1flat : e1 ∈ (List.map Session.logs (t1 :: rest2)).flatten := by
        simp only [List.map_cons, List.flatten_cons]
        exact List.mem_append_left _ he1mem
      rw [hval e1 (List.mem_append_right _ he1flat), hend, gapExceeds_some] at hg
      have hgt : e1.ms - last.ms > 7200000 := of_decide_eq_true hg
      have hfirst : ∀ e ∈ (List.map Session.logs (t1 :: rest2)).flatten, e1.ms ≤ e.ms := by
        intro e he
        have hs2 : List.Sorted (fun a b : Event => a.ms ≤ b.ms)
            (List.map Session.logs (t1 :: rest2)).flatten := hsrt.2.1
        simp only [List.map_cons, List.flatten_cons] at hs2 he
        cases hl1 : t1.logs with
        | nil => rw [hl1] at he1; simp at he1
        | cons x xs =>
          rw [hl1] at he1 hs2 he
          have hx : x = e1 := by simpa using he1
          subst hx
          simp only [List.cons_append, List.mem_cons] at he
          rcases he with h | h
          · rw [h]
          · exact List.rel_of_sorted_cons hs2 e h
      intro t ht e he
      have hemem : e ∈ (List.map Session.logs (t1 :: rest2)).flatten :=
        List.mem_flatten.2 ⟨t.logs, List.mem_map_of_mem _ ht, he⟩
      have := hfirst e hemem
      linarith

/-- The sessions of a validated log sorted by time are separated in time. -/
theorem groupSessions_separated (logs : List Event) (hvalid : ValidTimes logs)
    (hsorted : List.Sorted (fun a b : Event => a.ms ≤ b.ms) logs) :
    Separated (groupSessions logs) := by
  obtain ⟨hgood, hfar, hjoin⟩ := groupSessions_faithful logs
  apply separated_of_faithful _ hgood hfar
  · rw [hjoin]; exact hvalid
  · rw [hjoin]; exact hsorted

/-- Session lists of the same shape, each separated in time, whose members
are the same up to order, hold the same members session by session. -/
theorem sessions_perm (ss tt : List Session) (hshape : List.Forall₂ Session.SameShape ss tt)
    (hs : Separated ss) (ht : Separated tt)
    (hperm : List.Perm (ss.map Session.logs).flatten (tt.map Session.logs).flatten) :
    List.Forall₂ (fun s t : Session => List.Perm s.logs t.logs) ss tt := by
  induction hshape with
  | nil => exact List.Forall₂.nil
  | @cons s t ss tt hst _ ih =>
    obtain ⟨⟨b, hb, hin, hout⟩, hs2⟩ := hs
    obtain ⟨⟨b2, hb2, hin2, hout2⟩, ht2⟩ := ht
    have hbb : b2 = b := by
      have := hst.2.1
      rw [hb, hb2] at this
      exact (Option.some.inj this).symm
    subst hbb
    simp only [List.map_cons, List.flatten_cons] at hperm
    have hf := List.Perm.filter (fun e : Event => decide (e.ms ≤ b2)) hperm
    have key : ∀ (u : Session) (rest : List Session), (∀ e ∈ u.logs, e.ms ≤ b2) →
        (∀ t ∈ rest, ∀ e ∈ t.logs, b2 < e.ms) →
        (u.logs ++ (rest.map Session.logs).flatten).filter (fun e : Event => decide (e.ms ≤ b2))
          = u.logs := by
      intro u rest h1 h2
      rw [List.filter_append, List.filter_eq_self.2 (fun e he => decide_eq_true (h1 e he)),
        List.filter_eq_nil_iff.2, List.append_nil]
      intro e he
      obtain ⟨l, hl, hel⟩ := List.mem_flatten.1 he
      obtain ⟨t, ht, rfl⟩ := List.mem_map.1 hl
      have := h2 t ht e hel
      simp only [decide_eq_true_eq, not_le]
      exact this
    rw [key s ss hin hout, key t tt hin2 hout2] at hf
    have hrest : List.Perm (ss.map Session.logs).flatten (tt.map Session.logs).flatten := by
      have h1 : List.Perm (s.logs ++ (tt.map Session.logs).flatten)
          (t.logs ++ (tt.map Session.logs).flatten) := List.Perm.append_right _ hf
      exact (List.perm_append_left_iff s.logs).1 (hperm.trans h1.symm)
    exact List.Forall₂.cons hf (ih hs2 ht2 hrest)

end SeparationTheorems

section AlikeTheorems

variable {R : Type} [LinearOrderedField R] [FloorRing R]

/-- A running maximum over a list is the initial value or the value at a
member, and bounds both. -/
theorem foldl_max_spec (f : String → R) (l : List String) (init : R) :
    (∀ t ∈ l, f t ≤ l.foldl (fun mx t => max mx (f t)) init) ∧
      (l.foldl (fun mx t => max mx (f t)) init = init ∨
        ∃ t ∈ l, l.foldl (fun mx t => max mx (f t)) init = f t) := by
  induction l generalizing init with
  | nil => exact ⟨by simp, Or.inl rfl⟩
  | cons x xs ih =>
    obtain ⟨h1, h2⟩ := ih (max init (f x))
    simp only [List.foldl_cons]
    constructor
    · intro t ht
      rcases List.mem_cons.1 ht with h | h
      · rw [h]
        exact le_trans (le_max_right _ _) (le_foldl_max f xs _)
      · exact h1 t h
    · rcases h2 with h | ⟨t, ht, h⟩
      · rcases max_choice init (f x) with hm | hm
        · exact Or.inl (h.trans hm)
        · exact Or.inr ⟨x, List.mem_cons_self _ _, h.trans hm⟩
      · exact Or.inr ⟨t, List.mem_cons_of_mem _ ht, h⟩

/-- The running maximum depends only on the members of the list. -/
theorem foldl_max_congr (f : String → R) (l1 l2 : List String) (init : R)
    (h : ∀ x, x ∈ l1 ↔ x ∈ l2) :
    l1.foldl (fun mx t => max mx (f t)) init = l2.foldl (fun mx t => max mx (f t)) init := by
  have key : ∀ a b : List String, (∀ x, x ∈ a → x ∈ b) →
      a.foldl (fun mx t => max mx (f t)) init ≤ b.foldl (fun mx t => max mx (f t)) init := by
    intro a b hab
    rcases (foldl_max_spec f a init).2 with h1 | ⟨t, ht, h1⟩
    · rw [h1]
      exact le_foldl_max f b init
    · rw [h1]
      exact (foldl_max_spec f b init).1 t (hab t ht)
  exact le_antisymm (key l1 l2 (fun x hx => (h x).1 hx)) (key l2 l1 (fun x hx => (h x).2 hx))

/-- `valB` is the same for two sessions that are alike. -/
theorem valBOf_alike (multipliers : String → Option R) (s t : Session) (h : s.Alike t) :
    valBOf multipliers s = valBOf multipliers t := by
  obtain ⟨-, -, htypes, hlogs⟩ := h
  have hany : s.logs.any (fun l => l.hasReactions) = t.logs.any (fun l => l.hasReactions) := by
    rw [Bool.eq_iff_iff, List.any_eq_true, List.any_eq_true]
    constructor
    · rintro ⟨e, he, hr⟩
      exact ⟨e, hlogs.mem_iff.1 he, hr⟩
    · rintro ⟨e, he, hr⟩
      exact ⟨e, hlogs.mem_iff.2 he, hr⟩
  unfold valBOf quantizePayload
  rw [hany, foldl_max_congr (typeMultiplier multipliers) s.types t.types 0 htypes]

/-- The number of privileged sessions is the same for two lists of sessions
that are alike one by one. -/
theorem highResSessions_alike (BIASED : List String) (ss tt : List Session)
    (h : List.Forall₂ Session.Alike ss tt) :
    highResSessions BIASED ss = highResSessions BIASED tt := by
  unfold highResSessions
  induction h with
  | nil => rfl
  | @cons s t ss tt hst _ ih =>
    have hp : s.types.any (fun x => decide (x ∈ BIASED))
        = t.types.any (fun x => decide (x ∈ BIASED)) := by
      rw [Bool.eq_iff_iff, List.any_eq_true, List.any_eq_true]
      constructor
      · rintro ⟨x, hx, hb⟩
        exact ⟨x, (hst.2.2.1 x).1 hx, hb⟩
      · rintro ⟨x, hx, hb⟩
        exact ⟨x, (hst.2.2.1 x).2 hx, hb⟩
    simp only [List.filter_cons, hp]
    split
    · simp only [List.length_cons, ih]
    · exact ih

/-- The last elements of two related lists are related. -/
theorem rel_getLast {α : Type} (r : α → α → Prop) (l1 l2 : List α)
    (h : List.Forall₂ r l1 l2) (a b : α) (ha : l1.getLast? = some a) (hb : l2.getLast? = some b) :
    r a b := by
  induction h with
  | nil => simp at ha
  | @cons x y xs ys hxy hrest ih =>
    cases hrest with
    | nil =>
      simp only [List.getLast?_singleton, Option.some.injEq] at ha hb
      rw [← ha, ← hb]
      exact hxy
    | @cons x2 y2 xs2 ys2 h2 hrest2 =>
      rw [List.getLast?_cons_cons] at ha hb
      exact ih ha hb

/-- The first elements of two related lists are related. -/
theorem rel_head {α : Type} (r : α → α → Prop) (l1 l2 : List α)
    (h : List.Forall₂ r l1 l2) (a b : α) (ha : l1.head? = some a) (hb : l2.head? = some b) :
    r a b := by
  cases h with
  | nil => simp at ha
  | cons hxy _ =>
    simp only [List.head?_cons, Option.some.injEq] at ha hb
    rw [← ha, ← hb]
    exact hxy

/-- The sessions of two validated logs sorted by time that hold the same
events are alike one by one. -/
theorem groupSessions_alike (l1 l2 : List Event) (hperm : List.Perm l1 l2)
    (hv1 : ValidTimes l1) (hs1 : List.Sorted (fun a b : Event => a.ms ≤ b.ms) l1)
    (hs2 : List.Sorted (fun a b : Event => a.ms ≤ b.ms) l2) :
    List.Forall₂ Session.Alike (groupSessions l1) (groupSessions l2) := by
  have hv2 : ValidTimes l2 := fun e he => hv1 e (hperm.mem_iff.2 he)
  have hms : l1.map Event.ms = l2.map Event.ms := by
    apply List.eq_of_perm_of_sorted (hperm.map _) (r := fun a b : ℤ => a ≤ b)
    · exact List.pairwise_map.2 hs1
    · exact List.pairwise_map.2 hs2
  have htime : l1.map Event.time = l2.map Event.time := by
    have e1 : l1.map Event.time = (l1.map Event.ms).map some := by
      rw [List.map_map]
      exact List.map_congr_left (fun e he => Event.time_eq_ms e (hv1 e he))
    have e2 : l2.map Event.time = (l2.map Event.ms).map some := by
      rw [List.map_map]
      exact List.map_congr_left (fun e he => Event.time_eq_ms e (hv2 e he))
    rw [e1, e2, hms]
  have hshape := groupSessions_sameShape l1 l2 htime
  have hj1 := (groupSessions_faithful l1).2.2
  have hj2 := (groupSessions_faithful l2).2.2
  have hp := sessions_perm _ _ hshape (groupSessions_separated l1 hv1 hs1)
    (groupSessions_separated l2 hv2 hs2) (by rw [hj1, hj2]; exact hperm)
  have ht1 := groupSessions_types l1
  have ht2 := groupSessions_types l2
  generalize groupSessions l1 = ss at hshape hp ht1
  generalize groupSessions l2 = tt at hshape hp ht2
  induction hshape with
  | nil => exact List.Forall₂.nil
  | @cons s t ss tt hst _ ih =>
    cases hp with
    | cons hst2 hrest =>
      refine List.Forall₂.cons ⟨hst.1, hst.2.1, ?_, hst2⟩
        (ih (fun u hu => ht1 u (List.mem_cons_of_mem _ hu)) hrest
          (fun u hu => ht2 u (List.mem_cons_of_mem _ hu)))
      intro x
      rw [ht1 s (List.mem_cons_self _ _) x, ht2 t (List.mem_cons_self _ _) x]
      constructor
      · rintro ⟨e, he, hx⟩
        exact ⟨e, hst2.mem_iff.1 he, hx⟩
      · rintro ⟨e, he, hx⟩
        exact ⟨e, hst2.mem_iff.2 he, hx⟩

/-- The geometry of a validated log sorted by time depends only on the events
that the log holds. -/
theorem generateVectorsFromHistory_perm (M : JsMath R) (BIASED : List String)
    (multipliers : String → Option R) (l1 l2 : List Event) (hperm : List.Perm l1 l2)
    (hv1 : ValidTimes l1) (hs1 : List.Sorted (fun a b : Event => a.ms ≤ b.ms) l1)
    (hs2 : List.Sorted (fun a b : Event => a.ms ≤ b.ms) l2) :
    generateVectorsFromHistory M BIASED multipliers l1
      = generateVectorsFromHistory M BIASED multipliers l2 := by
  have halike := groupSessions_alike l1 l2 hperm hv1 hs1 hs2
  have hlen := halike.length_eq
  unfold generateVectorsFromHistory
  simp only []
  rw [hlen]
  split
  · rfl
  · rename_i h2
    have hne1 : groupSessions l1 ≠ [] := by
      intro h
      rw [h] at hlen
      rw [← hlen] at h2
      simp at h2
    have hne2 : groupSessions l2 ≠ [] := by
      intro h
      rw [h] at h2
      simp at h2
    obtain ⟨f1, hf1⟩ : ∃ f, (groupSessions l1).head? = some f := by
      cases hg : groupSessions l1 with
      | nil => exact absurd hg hne1
      | cons x xs => exact ⟨x, rfl⟩
    obtain ⟨f2, hf2⟩ : ∃ f, (groupSessions l2).head? = some f := by
      cases hg : groupSessions l2 with
      | nil => exact absurd hg hne2
      | cons x xs => exact ⟨x, rfl⟩
    have hL1 := List.getLast?_eq_getLast _ hne1
    have hL2 := List.getLast?_eq_getLast _ hne2
    have hfirst : f1.Alike f2 := rel_head Session.Alike _ _ halike _ _ hf1 hf2
    have hlast := rel_getLast Session.Alike _ _ halike _ _ hL1 hL2
    rw [hf1, hf2, hL1, hL2]
    simp only []
    have hspan : (totalSpanOf f1 ((groupSessions l1).getLast hne1) : JsNum R)
        = totalSpanOf f2 ((groupSessions l2).getLast hne2) := by
      unfold totalSpanOf
      rw [hfirst.1, hlast.2.1]
    have hco : (coRatioOf BIASED (groupSessions l1) : R) = coRatioOf BIASED (groupSessions l2) := by
      unfold coRatioOf
      rw [highResSessions_alike BIASED _ _ halike, hlen]
    rw [hspan, hco, valBOf_alike multipliers _ _ hlast]

end AlikeTheorems

section PermutationClaim

variable {R : Type} [LinearOrderedField R] [FloorRing R]

/-- The pair sublogs over two lists that hold the same events hold the same
events. -/
theorem initializePairLogger_perm (agentAId agentBId : String) (l1 l2 : List Event)
    (hperm : List.Perm l1 l2) :
    List.Perm (initializePairLogger agentAId agentBId l1)
      (initializePairLogger agentAId agentBId l2) := by
  unfold initializePairLogger
  exact (List.perm_insertionSort _ _).trans
    ((hperm.filter _).trans (List.perm_insertionSort _ _).symm)

/-- The directional metrics depend only on the events that the sublog holds. -/
theorem calculateDirectionalMetrics_perm (p1 p2 : Sync) (ha : p1.agentAId = p2.agentAId)
    (hb : p1.agentBId = p2.agentBId) (hperm : List.Perm p1.logs p2.logs) :
    (p1.calculateDirectionalMetrics : DirectionalMetrics R) = p2.calculateDirectionalMetrics := by
  have h1 : (directed p1.agentAId p1.agentBId p1.logs).length
      = (directed p2.agentAId p2.agentBId p2.logs).length := by
    unfold directed
    rw [ha, hb]
    exact (hperm.filter _).length_eq
  have h2 : (directed p1.agentBId p1.agentAId p1.logs).length
      = (directed p2.agentBId p2.agentAId p2.logs).length := by
    unfold directed
    rw [ha, hb]
    exact (hperm.filter _).length_eq
  unfold Sync.calculateDirectionalMetrics
  simp only [h1, h2]

/-- The analysis of a pair over two validated global lists that hold the same
events gives the same result. -/
theorem analyze_perm (M : JsMath R) (F : Formats R) (o : Options R)
    (agentAId agentBId : String) (l1 l2 : List Event) (hperm : List.Perm l1 l2)
    (hvalid : ValidTimes l1) :
    (Sync.new agentAId agentBId l1).analyze M F o l1
      = (Sync.new agentAId agentBId l2).analyze M F o l2 := by
  have hv2 : ValidTimes l2 := fun e he => hvalid e (hperm.mem_iff.2 he)
  have hlogs : List.Perm (Sync.new agentAId agentBId l1).logs (Sync.new agentAId agentBId l2).logs :=
    initializePairLogger_perm agentAId agentBId l1 l2 hperm
  have hvl : ValidTimes (Sync.new agentAId agentBId l1).logs := fun e he =>
    hvalid e ((mem_initializePairLogger agentAId agentBId l1 e).1 he).1
  have hgen := generateVectorsFromHistory_perm M F.BIASED (o.multipliers F) _ _ hlogs hvl
    (initializePairLogger_sorted agentAId agentBId l1 hvalid)
    (initializePairLogger_sorted agentAId agentBId l2 hv2)
  have hdir := calculateDirectionalMetrics_perm (R := R) (Sync.new agentAId agentBId l1)
    (Sync.new agentAId agentBId l2) rfl rfl hlogs
  have hjm : (Sync.new agentAId agentBId l1).calculateJointManifold M F o
      = (Sync.new agentAId agentBId l2).calculateJointManifold M F o := by
    unfold Sync.calculateJointManifold
    rw [hgen, hdir]
  have hscore : ∀ (cl : Classification R) (g : JointManifold R),
      calculateSynchronizationScore F l1 cl g = calculateSynchronizationScore F l2 cl g := by
    intro cl g
    unfold calculateSynchronizationScore
    rw [(hperm.filter _).length_eq, hperm.length_eq]
  unfold Sync.analyze
  rw [hjm]
  cases (Sync.new agentAId agentBId l2).calculateJointManifold M F o with
  | none => rfl
  | some g =>
    simp only [hscore]
    rfl

/-- C11: for every configuration, every agent pair and every two validated
global event lists that are permutations of one another, `analyze` returns the
same result: the same synchronizationScore, syncState, geoId and subjective
time (with its timeEffect), whatever the order of admission. -/
theorem analyze_order_independent (M : JsMath R) (F : Formats R) (o : Options R)
    (agentAId agentBId : String) (l1 l2 : List Event) (hperm : List.Perm l1 l2)
    (hvalid : ValidTimes l1) :
    ((Sync.new agentAId agentBId l1).analyze M F o l1).synchronizationScore
        = ((Sync.new agentAId agentBId l2).analyze M F o l2).synchronizationScore ∧
      ((Sync.new agentAId agentBId l1).analyze M F o l1).syncState
        = ((Sync.new agentAId agentBId l2).analyze M F o l2).syncState ∧
      ((Sync.new agentAId agentBId l1).analyze M F o l1).geoId
        = ((Sync.new agentAId agentBId l2).analyze M F o l2).geoId ∧
      (((Sync.new agentAId agentBId l1).analyze M F o l1).subjectiveTime.map
          (fun t => t.timeEffect))
        = (((Sync.new agentAId agentBId l2).analyze M F o l2).subjectiveTime.map
          (fun t => t.timeEffect)) ∧
      (Sync.new agentAId agentBId l1).analyze M F o l1
        = (Sync.new agentAId agentBId l2).analyze M F o l2 := by
  have h := analyze_perm M F o agentAId agentBId l1 l2 hperm hvalid
  rw [h]
  exact ⟨rfl, rfl, rfl, rfl, rfl⟩

end PermutationClaim

/-- C11 (witness): scenario A and its reverse. -/
theorem analyze_order_independent_witness :
    List.Perm scenarioA scenarioA.reverse ∧ ValidTimes scenarioA ∧
      ((Sync.new "A" "B" scenarioA).analyze realMath (videoFormats ℝ) (noOptions ℝ)
          scenarioA).synchronizationScore
        = ((Sync.new "A" "B" scenarioA.reverse).analyze realMath (videoFormats ℝ) (noOptions ℝ)
          scenarioA.reverse).synchronizationScore := by
  have hv : ValidTimes scenarioA := by
    intro e he
    simp only [scenarioA, mkEvent, List.mem_cons, List.mem_singleton, List.not_mem_nil,
      or_false] at he
    rcases he with rfl | rfl | rfl | rfl | rfl | rfl <;> exact ⟨_, rfl⟩
  exact ⟨(List.reverse_perm _).symm, hv,
    (analyze_order_independent realMath (videoFormats ℝ) (noOptions ℝ) "A" "B" scenarioA
      scenarioA.reverse (List.reverse_perm _).symm hv).1⟩

/-! ### Clusters are the connected components -/

section GraphTheorems

/-- Membership in a set after `add`. -/
theorem mem_setAdd (s : List String) (b y : String) : y ∈ setAdd s b ↔ y ∈ s ∨ y = b := by
  unfold setAdd
  split
  · rename_i h
    constructor
    · exact Or.inl
    · rintro (h1 | h1)
      · exact h1
      · rw [h1]; exact h
  · simp

/-- The neighbours of the first entry of a graph. -/
theorem neighborsOf_cons (kv : String × List String) (g : Graph) (x : String) :
    neighborsOf (kv :: g) x = if kv.1 = x then kv.2 else neighborsOf g x := by
  unfold neighborsOf mapGet
  by_cases h : kv.1 = x
  · simp [h]
  · simp [h]

/-- The neighbours of an agent without an entry. -/
theorem neighborsOf_of_not_has (g : Graph) (x : String) (h : mapHas g x = false) :
    neighborsOf g x = [] := by
  induction g with
  | nil => rfl
  | cons kv g ih =>
    simp only [mapHas, List.any_cons, Bool.or_eq_false_iff, decide_eq_false_iff_not] at h
    rw [neighborsOf_cons, if_neg h.1]
    exact ih h.2

/-- `graphEnsure` gives the agent an entry and keeps every neighbour set. -/
theorem graphEnsure_spec (g : Graph) (a : String) :
    mapHas (graphEnsure g a) a = true ∧
      (∀ x, mapHas g x = true → mapHas (graphEnsure g a) x = true) ∧
      (∀ x, mapHas (graphEnsure g a) x = true → mapHas g x = true ∨ x = a) ∧
      ∀ x, neighborsOf (graphEnsure g a) x = neighborsOf g x := by
  unfold graphEnsure
  by_cases h : mapHas g a = true
  · rw [if_pos h]
    exact ⟨h, fun x hx => hx, fun x hx => Or.inl hx, fun x => rfl⟩
  · rw [if_neg h]
    have hfalse : mapHas g a = false := by simpa using h
    refine ⟨by simp [mapHas], fun x hx => by simp only [mapHas] at hx ⊢; simp [hx], ?_, ?_⟩
    · intro x hx
      simp only [mapHas, List.any_append, List.any_cons, List.any_nil, Bool.or_false,
        Bool.or_eq_true, decide_eq_true_eq] at hx
      rcases hx with hx | hx
      · exact Or.inl hx
      · exact Or.inr hx.symm
    · intro x
      induction g with
      | nil =>
        simp only [List.nil_append]
        rw [neighborsOf_cons]
        split <;> rfl
      | cons kv g ih =>
        simp only [mapHas, List.any_cons, Bool.or_eq_false_iff, decide_eq_false_iff_not]
          at hfalse
        rw [List.cons_append, neighborsOf_cons, neighborsOf_cons]
        split
        · rfl
        · exact ih (by simp [mapHas, hfalse.2]) hfalse.2

/-- `mapModify` on a graph: the entry of the key is updated, the others kept. -/
theorem neighborsOf_mapModify (g : Graph) (k : String) (f : List String → List String)
    (x : String) (hk : mapHas g k = true) :
    neighborsOf (mapModify g k f) x = if x = k then f (neighborsOf g k) else neighborsOf g x := by
  induction g with
  | nil => simp [mapHas] at hk
  | cons kv g ih =>
    unfold mapModify
    simp only [List.map_cons]
    by_cases h1 : kv.1 = k
    · rw [if_pos h1, neighborsOf_cons, neighborsOf_cons, neighborsOf_cons]
      simp only [h1]
      by_cases h2 : k = x
      · simp [h2]
      · rw [if_neg h2, if_neg h2, if_neg (fun h => h2 h.symm)]
        by_cases h3 : mapHas g k = true
        · have := ih h3
          unfold mapModify at this
          rw [this, if_neg (fun h => h2 h.symm)]
        · have h4 : mapHas g k = false := by simpa using h3
          have h5 : ∀ kv ∈ g, ¬ kv.1 = k := by
            intro kv hkv hkk
            simp only [mapHas, List.any_eq_false, decide_eq_true_eq] at h4
            exact h4 kv hkv hkk
          have h6 : g.map (fun kv => if kv.1 = k then (kv.1, f kv.2) else kv) = g := by
            conv_rhs => rw [← List.map_id g]
            apply List.map_congr_left
            intro kv hkv
            rw [if_neg (h5 kv hkv)]
            rfl
          rw [h6]
    · rw [if_neg h1, neighborsOf_cons, neighborsOf_cons]
      have hk2 : mapHas g k = true := by
        simp only [mapHas, List.any_cons, Bool.or_eq_true, decide_eq_true_eq] at hk
        rcases hk with hk | hk
        · exact absurd hk h1
        · simpa [mapHas] using hk
      have := ih hk2
      unfold mapModify at this
      rw [this, neighborsOf_cons, if_neg h1]
      by_cases h2 : kv.1 = x
      · rw [if_pos h2, if_pos h2, if_neg (fun h => h1 (h2.trans h))]
      · rw [if_neg h2, if_neg h2]

/-- The neighbour sets after the body of the `forEach` for the pair `(a, b)`. -/
theorem graphAddPair_spec (g : Graph) (a b : String) :
    (∀ x y, y ∈ neighborsOf (graphAddPair g a b) x ↔
      y ∈ neighborsOf g x ∨ (x = a ∧ y = b) ∨ (x = b ∧ y = a)) ∧
      (∀ x, mapHas (graphAddPair g a b) x = true ↔ mapHas g x = true ∨ x = a ∨ x = b) := by
  obtain ⟨ha1, ha2, ha3, ha4⟩ := graphEnsure_spec g a
  obtain ⟨hb1, hb2, hb3, hb4⟩ := graphEnsure_spec (graphEnsure g a) b
  have hka : mapHas (graphEnsure (graphEnsure g a) b) a = true := hb2 a ha1
  have hkb : mapHas (mapModify (graphEnsure (graphEnsure g a) b) a (fun s => setAdd s b)) b
      = true := by
    rw [mapHas_mapModify]; exact hb1
  constructor
  · intro x y
    unfold graphAddPair
    simp only []
    rw [neighborsOf_mapModify _ b _ x hkb, neighborsOf_mapModify _ a _ b hka,
      neighborsOf_mapModify _ a _ x hka, hb4, hb4, hb4, ha4, ha4, ha4]
    by_cases hxb : x = b
    · rw [if_pos hxb, mem_setAdd]
      by_cases hba : b = a
      · rw [if_pos hba, mem_setAdd, hxb, hba]
        constructor
        · rintro (h | h)
          · rcases h with h | h
            · exact Or.inl h
            · exact Or.inr (Or.inl ⟨rfl, h⟩)
          · exact Or.inr (Or.inl ⟨rfl, h⟩)
        · rintro (h | ⟨-, h⟩ | ⟨-, h⟩)
          · exact Or.inl (Or.inl h)
          · exact Or.inr h
          · exact Or.inr h
      · rw [if_neg hba, hxb]
        constructor
        · rintro (h | h)
          · exact Or.inl h
          · exact Or.inr (Or.inr ⟨rfl, h⟩)
        · rintro (h | ⟨h, -⟩ | ⟨-, h⟩)
          · exact Or.inl h
          · exact absurd h hba
          · exact Or.inr h
    · rw [if_neg hxb]
      by_cases hxa : x = a
      · rw [if_pos hxa, mem_setAdd, hxa]
        constructor
        · rintro (h | h)
          · exact Or.inl h
          · exact Or.inr (Or.inl ⟨rfl, h⟩)
        · rintro (h | ⟨-, h⟩ | ⟨h, -⟩)
          · exact Or.inl h
          · exact Or.inr h
          · exact absurd (hxa ▸ h) hxb
      · rw [if_neg hxa]
        constructor
        · exact Or.inl
        · rintro (h | ⟨h, -⟩ | ⟨h, -⟩)
          · exact h
          · exact absurd h hxa
          · exact absurd h hxb
  · intro x
    unfold graphAddPair
    simp only []
    rw [mapHas_mapModify, mapHas_mapModify]
    constructor
    · intro h
      rcases hb3 x h with h1 | h1
      · rcases ha3 x h1 with h2 | h2
        · exact Or.inl h2
        · exact Or.inr (Or.inl h2)
      · exact Or.inr (Or.inr h1)
    · rintro (h | h | h)
      · exact hb2 x (ha2 x h)
      · rw [h]; exact hka
      · rw [h]; exact hb1

/-- The graph built from a list of pairs: the neighbours of an agent are the
agents joined to it, and the agents with an entry are those of some pair. -/
theorem buildGraph_spec (E : List (String × String)) :
    (∀ x y, y ∈ neighborsOf (buildGraph E) x ↔ Joined E x y) ∧
      (∀ x, mapHas (buildGraph E) x = true ↔ ∃ y, Joined E x y) := by
  unfold buildGraph
  induction E using List.reverseRecOn with
  | nil =>
    constructor
    · intro x y
      simp [neighborsOf, mapGet, Joined]
    · intro x
      simp [mapHas, Joined]
  | append_singleton E p ih =>
    rw [List.foldl_append]
    simp only [List.foldl_cons, List.foldl_nil]
    obtain ⟨h1, h2⟩ := graphAddPair_spec (E.foldl (fun g p => graphAddPair g p.1 p.2) []) p.1 p.2
    constructor
    · intro x y
      rw [h1, ih.1]
      unfold Joined
      simp only [List.mem_append, List.mem_singleton, Prod.ext_iff]
      tauto
    · intro x
      rw [h2, ih.2]
      unfold Joined
      simp only [List.mem_append, List.mem_singleton, Prod.ext_iff]
      constructor
      · rintro (⟨y, hy⟩ | h | h)
        · exact ⟨y, by tauto⟩
        · exact ⟨p.2, Or.inl (Or.inr ⟨h, rfl⟩)⟩
        · exact ⟨p.1, Or.inr (Or.inr ⟨rfl, h⟩)⟩
      · rintro ⟨y, hy⟩
        rcases hy with (hy | hy) | (hy | hy)
        · exact Or.inl ⟨y, Or.inl hy⟩
        · exact Or.inr (Or.inl hy.1)
        · exact Or.inl ⟨y, Or.inr hy⟩
        · exact Or.inr (Or.inr hy.2)

end GraphTheorems

section DfsTheorems

/-- Visiting more agents does not raise the unvisited degree. -/
theorem unvisitedDegree_mono (g : Graph) (visited : List String) (a : String) :
    unvisitedDegree g (visited ++ [a]) ≤ unvisitedDegree g visited := by
  unfold unvisitedDegree
  induction g with
  | nil => simp
  | cons kv g ih =>
    simp only [List.filter_cons]
    by_cases h1 : kv.1 ∈ visited
    · have h2 : kv.1 ∈ visited ++ [a] := List.mem_append_left _ h1
      simp only [h1, h2, not_true_eq_false, decide_False, Bool.false_eq_true, if_false]
      exact ih
    · by_cases h2 : kv.1 ∈ visited ++ [a]
      · simp only [h1, h2, not_true_eq_false, not_false_eq_true, decide_False, decide_True,
          Bool.false_eq_true, if_false, if_true, List.map_cons, List.sum_cons]
        omega
      · simp only [h1, h2, not_false_eq_true, decide_True, if_true, List.map_cons,
          List.sum_cons]
        omega

/-- Visiting an agent lowers the unvisited degree by the size of its
neighbour set. -/
theorem unvisitedDegree_visit (g : Graph) (visited : List String) (a : String)
    (ha : a ∉ visited) :
    (neighborsOf g a).length + unvisitedDegree g (visited ++ [a]) ≤ unvisitedDegree g visited := by
  induction g with
  | nil => simp [neighborsOf, mapGet, unvisitedDegree]
  | cons kv g ih =>
    rw [neighborsOf_cons]
    have hm := unvisitedDegree_mono g visited a
    unfold unvisitedDegree at ih hm ⊢
    simp only [List.filter_cons]
    by_cases h1 : kv.1 = a
    · have h2 : kv.1 ∈ visited ++ [a] := by rw [h1]; simp
      have h3 : kv.1 ∉ visited := by rw [h1]; exact ha
      simp only [h1, if_true]
      rw [h1] at h2 h3
      simp only [h2, h3, not_true_eq_false, not_false_eq_true, decide_False, decide_True,
        Bool.false_eq_true, if_false, if_true, List.map_cons, List.sum_cons]
      omega
    · rw [if_neg h1]
      by_cases h3 : kv.1 ∈ visited
      · have h2 : kv.1 ∈ visited ++ [a] := List.mem_append_left _ h3
        simp only [h2, h3, not_true_eq_false, decide_False, Bool.false_eq_true, if_false]
        exact ih
      · have h2 : kv.1 ∉ visited ++ [a] := by
          simp only [List.mem_append, List.mem_singleton, not_or]
          exact ⟨h3, h1⟩
        simp only [h2, h3, not_false_eq_true, decide_True, if_true, List.map_cons,
          List.sum_cons]
        omega

/-- The fuel of `dfsFindCluster` covers a start from any set of visited agents. -/
theorem unvisitedDegree_le_fuel (g : Graph) (visited : List String) :
    1 + unvisitedDegree g visited ≤ dfsFuel g := by
  unfold dfsFuel unvisitedDegree
  have : ((g.filter (fun kv => decide (kv.1 ∉ visited))).map (fun kv => kv.2.length)).sum
      ≤ (g.map (fun kv => 1 + kv.2.length)).sum := by
    induction g with
    | nil => simp
    | cons kv g ih =>
      simp only [List.filter_cons]
      split
      · simp only [List.map_cons, List.sum_cons]
        omega
      · simp only [List.map_cons, List.sum_cons]
        omega
  omega

/-- The `while` loop of `_dfsFindCluster`: with enough fuel it ends; the
cluster grows by agents reachable from the start, the agents of the stack end
up visited, and every neighbour of an agent of the cluster ends up visited. -/
theorem dfsLoop_spec (g : Graph) (adj : String → String → Prop)
    (hadj : ∀ x y, y ∈ neighborsOf g x ↔ adj x y) (s : String) (V0 : List String) :
    ∀ (fuel : ℕ) (stack visited cluster : List String),
      stack.length + unvisitedDegree g visited ≤ fuel →
      visited = V0 ++ cluster →
      (∀ x ∈ cluster, Relation.ReflTransGen adj s x) →
      (∀ x ∈ stack, Relation.ReflTransGen adj s x) →
      (∀ x ∈ cluster, ∀ y, adj x y → y ∈ visited ∨ y ∈ stack) →
      visited.Nodup →
      ∃ C : List String, dfsLoop g fuel stack visited cluster = some (V0 ++ C, C) ∧
        (V0 ++ C).Nodup ∧ (∀ x ∈ cluster, x ∈ C) ∧ (∀ x ∈ stack, x ∈ V0 ++ C) ∧
        (∀ x ∈ C, Relation.ReflTransGen adj s x) ∧
        (∀ x ∈ C, ∀ y, adj x y → y ∈ V0 ++ C) := by
  intro fuel
  induction fuel with
  | zero =>
    intro stack visited cluster hfuel hvis hc hst hnb hnd
    cases stack with
    | nil =>
      refine ⟨cluster, ?_, hvis ▸ hnd, fun x hx => hx, by simp, hc, ?_⟩
      · rw [hvis]; rfl
      · intro x hx y hxy
        rcases hnb x hx y hxy with h | h
        · rw [← hvis]; exact h
        · simp at h
    | cons a st => simp at hfuel
  | succ fuel ih =>
    intro stack visited cluster hfuel hvis hc hst hnb hnd
    cases stack with
    | nil =>
      refine ⟨cluster, ?_, hvis ▸ hnd, fun x hx => hx, by simp, hc, ?_⟩
      · rw [hvis]; rfl
      · intro x hx y hxy
        rcases hnb x hx y hxy with h | h
        · rw [← hvis]; exact h
        · simp at h
    | cons a st =>
      by_cases hav : a ∈ visited
      · have hstep : dfsLoop g (fuel + 1) (a :: st) visited cluster
            = dfsLoop g fuel st visited cluster := by
          simp only [dfsLoop, hav, if_true]
        obtain ⟨C, h1, h2, h3, h4, h5, h6⟩ := ih st visited cluster
          (by simp only [List.length_cons] at hfuel; omega) hvis hc
          (fun x hx => hst x (List.mem_cons_of_mem _ hx))
          (by
            intro x hx y hxy
            rcases hnb x hx y hxy with h | h
            · exact Or.inl h
            · rcases List.mem_cons.1 h with h | h
              · rw [h]; exact Or.inl hav
              · exact Or.inr h) hnd
        refine ⟨C, hstep.trans h1, h2, h3, ?_, h5, h6⟩
        intro x hx
        rcases List.mem_cons.1 hx with h | h
        · rw [h]
          rw [hvis] at hav
          rcases List.mem_append.1 hav with h' | h'
          · exact List.mem_append_left _ h'
          · exact List.mem_append_right _ (h3 a h')
        · exact h4 x h
      · have hstep : dfsLoop g (fuel + 1) (a :: st) visited cluster
            = dfsLoop g fuel
                (((neighborsOf g a).filter (fun nb => decide (nb ∉ visited ++ [a]))).reverse
                  ++ st) (visited ++ [a]) (cluster ++ [a]) := by
          simp only [dfsLoop, hav, if_false]
        have hra : Relation.ReflTransGen adj s a := hst a (List.mem_cons_self _ _)
        obtain ⟨C, h1, h2, h3, h4, h5, h6⟩ := ih
          (((neighborsOf g a).filter (fun nb => decide (nb ∉ visited ++ [a]))).reverse ++ st)
          (visited ++ [a]) (cluster ++ [a])
          (by
            have hv := unvisitedDegree_visit g visited a hav
            have hl := List.length_filter_le (fun nb => decide (nb ∉ visited ++ [a]))
              (neighborsOf g a)
            simp only [List.length_cons] at hfuel
            simp only [List.length_append, List.length_reverse]
            omega)
          (by rw [hvis, List.append_assoc])
          (by
            intro x hx
            rcases List.mem_append.1 hx with h | h
            · exact hc x h
            · rw [List.mem_singleton.1 h]; exact hra)
          (by
            intro x hx
            rcases List.mem_append.1 hx with h | h
            · have hx2 := List.mem_reverse.1 h
              exact hra.tail ((hadj a x).1 (List.mem_filter.1 hx2).1)
            · exact hst x (List.mem_cons_of_mem _ h))
          (by
            intro x hx y hxy
            rcases List.mem_append.1 hx with h | h
            · rcases hnb x h y hxy with h' | h'
              · exact Or.inl (List.mem_append_left _ h')
              · rcases List.mem_cons.1 h' with h'' | h''
                · rw [h'']; exact Or.inl (by simp)
                · exact Or.inr (List.mem_append_right _ h'')
            · rw [List.mem_singleton.1 h] at hxy
              by_cases hy : y ∈ visited ++ [a]
              · exact Or.inl hy
              · refine Or.inr (List.mem_append_left _ (List.mem_reverse.2 ?_))
                exact List.mem_filter.2 ⟨(hadj a y).2 hxy, decide_eq_true hy⟩)
          (by
            rw [List.nodup_append]
            refine ⟨hnd, List.nodup_singleton a, ?_⟩
            intro x hx hx2
            rw [List.mem_singleton.1 hx2] at hx
            exact hav hx)
        refine ⟨C, hstep.trans h1, h2, fun x hx => h3 x (List.mem_append_left _ hx), ?_, h5, h6⟩
        intro x hx
        rcases List.mem_cons.1 hx with h | h
        · rw [h]
          exact List.mem_append_right _ (h3 a (by simp))
        · exact h4 x (List.mem_append_right _ h)

/-- The method `_dfsFindCluster` from an agent not yet visited, when the
visited agents are closed under the symmetric adjacency: it ends, and the
cluster is the set of agents reachable from the start. -/
theorem dfsFindCluster_spec (g : Graph) (adj : String → String → Prop)
    (hadj : ∀ x y, y ∈ neighborsOf g x ↔ adj x y) (hsymm : ∀ x y, adj x y → adj y x)
    (s : String) (V0 : List String) (hnd : V0.Nodup) (hs : s ∉ V0)
    (hclosed : ∀ x ∈ V0, ∀ y, adj x y → y ∈ V0) :
    ∃ C : List String, dfsFindCluster g s V0 = some (V0 ++ C, C) ∧ (V0 ++ C).Nodup ∧
      (∀ x, x ∈ C ↔ Relation.ReflTransGen adj s x) ∧
      (∀ x ∈ V0 ++ C, ∀ y, adj x y → y ∈ V0 ++ C) := by
  obtain ⟨C, h1, h2, -, h4, h5, h6⟩ := dfsLoop_spec g adj hadj s V0 (dfsFuel g) [s] V0 []
    (by
      have := unvisitedDegree_le_fuel g V0
      simp only [List.length_singleton]
      omega)
    (by simp) (by simp)
    (by
      intro x hx
      rw [List.mem_singleton.1 hx])
    (by simp) hnd
  have hdisj : ∀ x ∈ C, x ∉ V0 := by
    intro x hx hx0
    exact (List.nodup_append.1 h2).2.2 hx0 hx
  have hsC : s ∈ C := by
    rcases List.mem_append.1 (h4 s (by simp)) with h | h
    · exact absurd h hs
    · exact h
  have hCclosed : ∀ x ∈ C, ∀ y, adj x y → y ∈ C := by
    intro x hx y hxy
    rcases List.mem_append.1 (h6 x hx y hxy) with h | h
    · exact absurd (hclosed y h x (hsymm x y hxy)) (hdisj x hx)
    · exact h
  refine ⟨C, h1, h2, ?_, ?_⟩
  · intro x
    constructor
    · exact h5 x
    · intro hr
      induction hr with
      | refl => exact hsC
      | tail _ hyz ih => exact hCclosed _ ih _ hyz
  · intro x hx y hxy
    rcases List.mem_append.1 hx with h | h
    · exact List.mem_append_left _ (hclosed x h y hxy)
    · exact List.mem_append_right _ (hCclosed x h y hxy)

end DfsTheorems

section ClusterTheorems

variable {R : Type} [LinearOrderedField R] [FloorRing R]

/-- A list that holds two distinct members has two members or more. -/
theorem two_le_length_of_mem (c : List String) (x y : String) (hx : x ∈ c) (hy : y ∈ c)
    (hxy : y ≠ x) : 2 ≤ c.length := by
  cases c with
  | nil => simp at hx
  | cons a as =>
    cases as with
    | nil =>
      simp only [List.mem_singleton] at hx hy
      exact absurd (hy.trans hx.symm) hxy
    | cons b bs => simp

/-- Reachability along a symmetric relation is symmetric. -/
theorem reflTransGen_symm (adj : String → String → Prop) (hsymm : ∀ x y, adj x y → adj y x)
    (x y : String) (h : Relation.ReflTransGen adj x y) : Relation.ReflTransGen adj y x := by
  induction h with
  | refl => exact Relation.ReflTransGen.refl
  | tail _ hyz ih => exact Relation.ReflTransGen.head (hsymm _ _ hyz) ih

/-- The `for` loop of `_updateSyncClusters` over the remaining keys: it ends,
every cluster is the set of agents reachable from each of its members and has
two members or more, the clusters are pairwise disjoint and visited, every
visited agent that reaches another agent is in a cluster, and the remaining
keys end up visited. -/
theorem clusterLoop_spec (g : Graph) (adj : String → String → Prop)
    (hadj : ∀ x y, y ∈ neighborsOf g x ↔ adj x y) (hsymm : ∀ x y, adj x y → adj y x) :
    ∀ (rest visited : List String) (clusters : List (List String)),
      visited.Nodup → (∀ x ∈ visited, ∀ y, adj x y → y ∈ visited) →
      (∀ c ∈ clusters, 2 ≤ c.length ∧ c.Nodup ∧
        (∀ a ∈ c, ∀ b, b ∈ c ↔ Relation.ReflTransGen adj a b) ∧ ∀ a ∈ c, a ∈ visited) →
      clusters.Pairwise List.Disjoint →
      (∀ x ∈ visited, ∀ y, y ≠ x → Relation.ReflTransGen adj x y → ∃ c ∈ clusters, x ∈ c) →
      ∃ (visited2 : List String) (clusters2 : List (List String)),
        clusterLoop g rest visited clusters = some (visited2, clusters2) ∧
        (∀ c ∈ clusters2, 2 ≤ c.length ∧ c.Nodup ∧
          (∀ a ∈ c, ∀ b, b ∈ c ↔ Relation.ReflTransGen adj a b) ∧ ∀ a ∈ c, a ∈ visited2) ∧
        clusters2.Pairwise List.Disjoint ∧
        (∀ x ∈ visited2, ∀ y, y ≠ x → Relation.ReflTransGen adj x y → ∃ c ∈ clusters2, x ∈ c) ∧
        (∀ x ∈ visited, x ∈ visited2) ∧ (∀ k ∈ rest, k ∈ visited2) := by
  intro rest
  induction rest with
  | nil =>
    intro visited clusters hnd hcl hc hp hv
    exact ⟨visited, clusters, rfl, hc, hp, hv, fun x hx => hx, by simp⟩
  | cons agent rest ih =>
    intro visited clusters hnd hcl hc hp hv
    by_cases hav : agent ∈ visited
    · have hstep : clusterLoop g (agent :: rest) visited clusters
          = clusterLoop g rest visited clusters := by
        simp only [clusterLoop, hav, if_true]
      obtain ⟨v2, c2, h1, h2, h3, h4, h5, h6⟩ := ih visited clusters hnd hcl hc hp hv
      refine ⟨v2, c2, hstep.trans h1, h2, h3, h4, h5, ?_⟩
      intro k hk
      rcases List.mem_cons.1 hk with h | h
      · rw [h]; exact h5 agent hav
      · exact h6 k h
    · obtain ⟨C, d1, d2, d3, d4⟩ := dfsFindCluster_spec g adj hadj hsymm agent visited hnd hav hcl
      have hstep : clusterLoop g (agent :: rest) visited clusters
          = clusterLoop g rest (visited ++ C)
              (if C.length ≥ 2 then clusters ++ [C] else clusters) := by
        simp only [clusterLoop, hav, if_false, d1]
      have hdisj : ∀ x ∈ visited, x ∉ C := fun x hx hx2 => (List.nodup_append.1 d2).2.2 hx hx2
      have hCnd : C.Nodup := (List.nodup_append.1 d2).2.1
      have hcomp : ∀ a ∈ C, ∀ b, b ∈ C ↔ Relation.ReflTransGen adj a b := by
        intro a ha b
        have hra := (d3 a).1 ha
        rw [d3 b]
        constructor
        · intro hb
          exact (reflTransGen_symm adj hsymm _ _ hra).trans hb
        · intro hab
          exact hra.trans hab
      obtain ⟨v2, c2, h1, h2, h3, h4, h5, h6⟩ := ih (visited ++ C)
        (if C.length ≥ 2 then clusters ++ [C] else clusters) d2 d4
        (by
          intro c hc0
          have hold : ∀ c ∈ clusters, 2 ≤ c.length ∧ c.Nodup ∧
              (∀ a ∈ c, ∀ b, b ∈ c ↔ Relation.ReflTransGen adj a b) ∧
              ∀ a ∈ c, a ∈ visited ++ C := by
            intro c hc1
            obtain ⟨a1, a2, a3, a4⟩ := hc c hc1
            exact ⟨a1, a2, a3, fun a ha => List.mem_append_left _ (a4 a ha)⟩
          split at hc0
          · rename_i hlen
            rcases List.mem_append.1 hc0 with h | h
            · exact hold c h
            · rw [List.mem_singleton.1 h]
              exact ⟨hlen, hCnd, hcomp, fun a ha => List.mem_append_right _ ha⟩
          · exact hold c hc0)
        (by
          split
          · rw [List.pairwise_append]
            refine ⟨hp, List.pairwise_singleton _ _, ?_⟩
            intro c hc1 d hd
            rw [List.mem_singleton.1 hd]
            intro x hx hx2
            exact hdisj x ((hc c hc1).2.2.2 x hx) hx2
          · exact hp)
        (by
          intro x hx y hy hr
          rcases List.mem_append.1 hx with h | h
          · obtain ⟨c, hc1, hc2⟩ := hv x h y hy hr
            refine ⟨c, ?_, hc2⟩
            split
            · exact List.mem_append_left _ hc1
            · exact hc1
          · have hyC : y ∈ C := (hcomp x h y).2 hr
            have hlen := two_le_length_of_mem C x y h hyC hy
            refine ⟨C, ?_, h⟩
            rw [if_pos hlen]
            simp)
      refine ⟨v2, c2, hstep.trans h1, h2, h3, h4,
        fun x hx => h5 x (List.mem_append_left _ hx), ?_⟩
      intro k hk
      rcases List.mem_cons.1 hk with h | h
      · rw [h]
        exact h5 agent (List.mem_append_right _ ((d3 agent).2 Relation.ReflTransGen.refl))
      · exact h6 k h

/-- The agent sets found by `_updateSyncClusters`: the traversal ends, and the
sets are the classes of two or more agents linked by chains of synchronized
pairs. -/
theorem findClusters_spec (pairResults : List (SyncResult R)) :
    ∃ found : List (List String), findClusters pairResults = some found ∧
      (∀ c ∈ found, 2 ≤ c.length ∧ c.Nodup ∧
        ∀ a ∈ c, ∀ b, b ∈ c ↔ Linked (synchronizedEdges pairResults) a b) ∧
      found.Pairwise List.Disjoint ∧
      ∀ a b, a ≠ b → Linked (synchronizedEdges pairResults) a b →
        ∃ c ∈ found, a ∈ c ∧ b ∈ c := by
  obtain ⟨g1, g2⟩ := buildGraph_spec (synchronizedEdges pairResults)
  have hsymm : ∀ x y, Joined (synchronizedEdges pairResults) x y →
      Joined (synchronizedEdges pairResults) y x := fun x y h => Or.symm h
  obtain ⟨v2, c2, h1, h2, h3, h4, -, h6⟩ := clusterLoop_spec
    (buildGraph (synchronizedEdges pairResults)) (Joined (synchronizedEdges pairResults))
    g1 hsymm ((buildGraph (synchronizedEdges pairResults)).map (fun kv => kv.1)) [] []
    List.nodup_nil (by simp) (by simp) List.Pairwise.nil (by simp)
  refine ⟨c2, ?_, fun c hc => ⟨(h2 c hc).1, (h2 c hc).2.1, (h2 c hc).2.2.1⟩, h3, ?_⟩
  · unfold findClusters
    simp only []
    have e : buildGraph ((pairResults.filter (fun r => r.synchronized = some true)).map
        (fun r => r.agents)) = buildGraph (synchronizedEdges pairResults) := rfl
    rw [e, h1]
    rfl
  · intro a b hab hl
    have hkey : ∃ y, Joined (synchronizedEdges pairResults) a y := by
      rcases Relation.ReflTransGen.cases_head hl with h | ⟨y, hy, -⟩
      · exact absurd h hab
      · exact ⟨y, hy⟩
    have hhas := (g2 a).2 hkey
    have hmem : a ∈ (buildGraph (synchronizedEdges pairResults)).map (fun kv => kv.1) := by
      simp only [mapHas, List.any_eq_true, decide_eq_true_eq] at hhas
      obtain ⟨kv, hkv, hk⟩ := hhas
      exact List.mem_map.2 ⟨kv, hkv, hk⟩
    obtain ⟨c, hc1, hc2⟩ := h4 a (h6 a hmem) b (Ne.symm hab) hl
    exact ⟨c, hc1, hc2, ((h2 c hc1).2.2.1 a hc2 b).2 hl⟩

end ClusterTheorems

section ComponentsClaim

variable {R : Type} [LinearOrderedField R] [FloorRing R]

/-- C8: for every list of pair results `_updateSyncClusters` ends and sets
`syncClusters` to the connected components of two or more agents of the graph
whose edges are the results marked `synchronized`: every cluster has a size of
two or more and lists each member once; an agent is in the cluster of another
exactly when the two are linked by a chain of synchronized pairs; two distinct
linked agents share a cluster; and no agent is in two clusters. -/
theorem updateSyncClusters_components (net : Network R) (pairResults : List (SyncResult R)) :
    ∃ net2 : Network R, net.updateSyncClusters pairResults = some net2 ∧
      (∀ c ∈ net2.syncClusters, c.size = c.agents.length ∧ 2 ≤ c.size ∧ c.agents.Nodup ∧
        ∀ a ∈ c.agents, ∀ b, b ∈ c.agents ↔ Linked (synchronizedEdges pairResults) a b) ∧
      (∀ a b, a ≠ b → Linked (synchronizedEdges pairResults) a b →
        ∃ c ∈ net2.syncClusters, a ∈ c.agents ∧ b ∈ c.agents) ∧
      net2.syncClusters.Pairwise (fun c d => List.Disjoint c.agents d.agents) := by
  obtain ⟨found, h1, h2, h3, h4⟩ := findClusters_spec pairResults
  unfold Network.updateSyncClusters
  simp only [h1]
  refine ⟨_, rfl, ?_, ?_, ?_⟩
  · intro c hc
    simp only at hc
    rw [(List.perm_insertionSort _ _).mem_iff, List.mem_map] at hc
    obtain ⟨l, hl, rfl⟩ := hc
    exact ⟨rfl, (h2 l hl).1, (h2 l hl).2.1, (h2 l hl).2.2⟩
  · intro a b hab hlink
    obtain ⟨l, hl, ha, hb⟩ := h4 a b hab hlink
    exact ⟨_, (List.perm_insertionSort _ _).mem_iff.2 (List.mem_map_of_mem _ hl), ha, hb⟩
  · show List.Pairwise _ (List.insertionSort clusterLe _)
    refine List.Perm.pairwise (List.perm_insertionSort _ _).symm ?_
      (fun h => List.Disjoint.symm h)
    rw [List.pairwise_map]
    exact h3

end ComponentsClaim

/-- The example of the specification: with `A`-`B` and `B`-`C` synchronized and
`A`-`C` not, the pass finds the single cluster of `A`, `B` and `C`. -/
theorem findClusters_chain_example :
    findClusters [markedResult ℚ "A" "B" true, markedResult ℚ "A" "C" false,
      markedResult ℚ "B" "C" true] = some [["A", "B", "C"]] := by
  decide

end Telepathy
